import Mathlib

/-!
# Epidemic routing (ns-3 module): wire codecs, packet buffer and routing agent

A shallow embedding of `src/model/epidemic-packet.cc`, `src/model/epidemic-tag.{h,cc}`
and `src/model/epidemic-routing-protocol.{h,cc}`.

* Machine integers are natural numbers or integers with explicit wrap-around:
  `uint8_t`, `uint16_t`, `uint32_t`, `uint64_t` values are `Nat` reduced modulo `2^w`
  where the C++ arithmetic can wrap, `ns3::Time` is an `Int` number of nanoseconds held in
  an `int64_t`.
* A `Buffer` is the list of its bytes; a read past the end, or an `NS_ASSERT` that fails,
  gives `none` (the program aborts).
* Stateful member functions take the agent state and return the new state together with
  the list of calls made to the host stack (`Action`).
-/

namespace Epidemic

/-! ## Buffer iterator primitives (ns3::Buffer::Iterator) -/

/-- The four bytes `Buffer::Iterator::WriteHtonU32` writes: the low 32 bits, most
significant byte first. -/
def WriteHtonU32 (v : Nat) : List Nat :=
  [v / 2 ^ 24 % 256, v / 2 ^ 16 % 256, v / 2 ^ 8 % 256, v % 256]

/-- The eight bytes `Buffer::Iterator::WriteHtonU64` writes: the low 64 bits, most
significant byte first. -/
def WriteHtonU64 (v : Nat) : List Nat :=
  [v / 2 ^ 56 % 256, v / 2 ^ 48 % 256, v / 2 ^ 40 % 256, v / 2 ^ 32 % 256,
   v / 2 ^ 24 % 256, v / 2 ^ 16 % 256, v / 2 ^ 8 % 256, v % 256]

/-- One byte read, `Buffer::Iterator::ReadU8`: the value and the rest of the buffer. -/
def ReadU8 : List Nat → Option (Nat × List Nat)
  | b :: rest => some (b, rest)
  | [] => none

/-- Big-endian 32-bit read, `Buffer::Iterator::ReadNtohU32`. -/
def ReadNtohU32 : List Nat → Option (Nat × List Nat)
  | b0 :: b1 :: b2 :: b3 :: rest => some (((b0 * 256 + b1) * 256 + b2) * 256 + b3, rest)
  | _ => none

/-- Big-endian 64-bit read, `Buffer::Iterator::ReadNtohU64`. -/
def ReadNtohU64 : List Nat → Option (Nat × List Nat)
  | b0 :: b1 :: b2 :: b3 :: b4 :: b5 :: b6 :: b7 :: rest =>
      some (((((((b0 * 256 + b1) * 256 + b2) * 256 + b3) * 256 + b4) * 256 + b5) * 256 + b6)
              * 256 + b7, rest)
  | _ => none

/-! ## ns3::Time -/

/-- Reduction of an integer to the `int64_t` range (two's complement). -/
def wrapInt64 (x : Int) : Int := (x + 2 ^ 63) % 2 ^ 64 - 2 ^ 63

/-- The `operator+` of `ns3::Time`: the sum of the two `int64_t` tick counts, held again in
an `int64_t` (a sum outside the range wraps, as two's complement addition does). -/
def TimeAdd (a b : Int) : Int := wrapInt64 (a + b)

/-- The conversion `int64_t → uint64_t` applied to `GetNanoSeconds ()` when it is passed to
`WriteHtonU64`. -/
def Int64ToU64 (t : Int) : Nat := (t % 2 ^ 64).toNat

/-- The constructor `Time (uint64_t)`: the value stored in the `int64_t` tick count. -/
def TimeOfU64 (v : Nat) : Int := if v < 2 ^ 63 then (v : Int) else (v : Int) - 2 ^ 64

/-! ## EpidemicHeader (the data header), epidemic-packet.cc -/

/-- The fields of `EpidemicHeader`. -/
structure EpidemicHeader where
  m_packetID : Nat
  m_hopCount : Nat
  m_timeStamp : Int
  deriving DecidableEq, Repr

/-- A header whose fields fit their C++ types: two `uint32_t` and an `int64_t` tick count. -/
def EpidemicHeader.WF (h : EpidemicHeader) : Prop :=
  h.m_packetID < 2 ^ 32 ∧ h.m_hopCount < 2 ^ 32 ∧
    -(2 : Int) ^ 63 ≤ h.m_timeStamp ∧ h.m_timeStamp < 2 ^ 63

instance (h : EpidemicHeader) : Decidable h.WF := by
  unfold EpidemicHeader.WF; infer_instance

/-- `EpidemicHeader::GetSerializedSize`:
`sizeof(m_packetID) + sizeof(m_hopCount) + sizeof(m_timeStamp)`. -/
def EpidemicHeader.GetSerializedSize (_h : EpidemicHeader) : Nat := 4 + 4 + 8

/-- `EpidemicHeader::Serialize`. -/
def EpidemicHeader.Serialize (h : EpidemicHeader) : List Nat :=
  WriteHtonU32 h.m_packetID ++ WriteHtonU32 h.m_hopCount ++
    WriteHtonU64 (Int64ToU64 h.m_timeStamp)

/-- `EpidemicHeader::Deserialize`: the header read and the distance covered by the
iterator. -/
def EpidemicHeader.Deserialize (start : List Nat) : Option (EpidemicHeader × Nat) :=
  match ReadNtohU32 start with
  | none => none
  | some (packetID, i1) =>
    match ReadNtohU32 i1 with
    | none => none
    | some (hopCount, i2) =>
      match ReadNtohU64 i2 with
      | none => none
      | some (ts, i3) =>
        some ({ m_packetID := packetID, m_hopCount := hopCount, m_timeStamp := TimeOfU64 ts },
              start.length - i3.length)

/-! ## TypeHeader, epidemic-packet.cc -/

/-- Modelled from the spec: the enumeration `TypeHeader::MessageType` is declared in
`epidemic-packet.h`, which is not among the sources; the spec gives its three values and
their numeric tags `BEACON=0, REPLY=1, REPLY_BACK=2`. -/
inductive MessageType where
  | BEACON
  | REPLY
  | REPLY_BACK
  deriving DecidableEq, Repr

/-- The cast `(uint8_t) m_type`. -/
def MessageType.toU8 : MessageType → Nat
  | .BEACON => 0
  | .REPLY => 1
  | .REPLY_BACK => 2

/-- The fields of `TypeHeader`. -/
structure TypeHeader where
  m_type : MessageType
  m_valid : Bool
  deriving DecidableEq, Repr

/-- The constructor `TypeHeader::TypeHeader (MessageType t)`. -/
def TypeHeader.new (t : MessageType) : TypeHeader := { m_type := t, m_valid := true }

/-- `TypeHeader::SetMessageType`. -/
def TypeHeader.SetMessageType (h : TypeHeader) (type : MessageType) : TypeHeader :=
  { h with m_type := type }

/-- `TypeHeader::GetMessageType`. -/
def TypeHeader.GetMessageType (h : TypeHeader) : MessageType := h.m_type

/-- `TypeHeader::GetSerializedSize`. -/
def TypeHeader.GetSerializedSize (_h : TypeHeader) : Nat := 1

/-- `TypeHeader::Serialize`. -/
def TypeHeader.Serialize (h : TypeHeader) : List Nat := [h.m_type.toU8]

/-- `TypeHeader::Deserialize`: `m_valid` is set, then the `switch` either stores the type
read or clears `m_valid`, leaving `m_type` as it was. -/
def TypeHeader.Deserialize (self : TypeHeader) (start : List Nat) : Option (TypeHeader × Nat) :=
  match ReadU8 start with
  | none => none
  | some (type, i) =>
    let self1 := { self with m_valid := true }
    let self2 :=
      if type = MessageType.BEACON.toU8 then { self1 with m_type := MessageType.BEACON }
      else if type = MessageType.REPLY.toU8 then { self1 with m_type := MessageType.REPLY }
      else if type = MessageType.REPLY_BACK.toU8 then
        { self1 with m_type := MessageType.REPLY_BACK }
      else { self1 with m_valid := false }
    some (self2, start.length - i.length)

/-! ## SummaryVectorHeader, epidemic-packet.cc -/

/-- The field of `SummaryVectorHeader`: the vector `m_packets`. -/
structure SummaryVectorHeader where
  m_packets : List Nat
  deriving DecidableEq, Repr

/-- The constructor `SummaryVectorHeader (size_t size)`: it only reserves capacity. -/
def SummaryVectorHeader.new : SummaryVectorHeader := { m_packets := [] }

/-- `SummaryVectorHeader::GetSerializedSize`, a `uint32_t`:
`sizeof(uint32_t) + (uint32_t) m_packets.size () * sizeof (uint32_t)`. -/
def SummaryVectorHeader.GetSerializedSize (h : SummaryVectorHeader) : Nat :=
  (4 + (h.m_packets.length % 2 ^ 32) * 4) % 2 ^ 32

/-- The `for` loop of `SummaryVectorHeader::Serialize`. -/
def SummaryVectorHeader.SerializeLoop : List Nat → List Nat
  | [] => []
  | j :: js => WriteHtonU32 j ++ SummaryVectorHeader.SerializeLoop js

/-- `SummaryVectorHeader::Serialize`. -/
def SummaryVectorHeader.Serialize (h : SummaryVectorHeader) : List Nat :=
  WriteHtonU32 h.m_packets.length ++ SummaryVectorHeader.SerializeLoop h.m_packets

/-- The `for` loop of `SummaryVectorHeader::Deserialize`: `n` reads, each pushed at the
back of `m_packets`. -/
def SummaryVectorHeader.DeserializeLoop : Nat → List Nat → List Nat → Option (List Nat × List Nat)
  | 0, i, packets => some (packets, i)
  | n + 1, i, packets =>
    match ReadNtohU32 i with
    | none => none
    | some (tmp, i1) => SummaryVectorHeader.DeserializeLoop n i1 (packets ++ [tmp])

/-- `SummaryVectorHeader::Deserialize`: the ids read are pushed behind the ids the header
already holds, then `NS_ASSERT (dist == GetSerializedSize ())` compares, as `uint32_t`
values, the distance covered with the size of the header as it now is. The result is
`none` when the buffer is read past its end or the assertion fails (the program aborts),
and otherwise the header and the distance covered. -/
def SummaryVectorHeader.Deserialize (self : SummaryVectorHeader) (start : List Nat) :
    Option (SummaryVectorHeader × Nat) :=
  match ReadNtohU32 start with
  | none => none
  | some (sm_length, i) =>
    match SummaryVectorHeader.DeserializeLoop sm_length i self.m_packets with
    | none => none
    | some (packets, i1) =>
      let dist := start.length - i1.length
      if dist % 2 ^ 32 = SummaryVectorHeader.GetSerializedSize { m_packets := packets } then
        some ({ m_packets := packets }, dist)
      else none

/-- `SummaryVectorHeader::Add`. -/
def SummaryVectorHeader.Add (h : SummaryVectorHeader) (pkt_ID : Nat) : SummaryVectorHeader :=
  { m_packets := h.m_packets ++ [pkt_ID] }

/-- `SummaryVectorHeader::Size`. -/
def SummaryVectorHeader.Size (h : SummaryVectorHeader) : Nat := h.m_packets.length

/-- `SummaryVectorHeader::Contains`. -/
def SummaryVectorHeader.Contains (h : SummaryVectorHeader) (pkt_ID : Nat) : Bool :=
  decide (pkt_ID ∈ h.m_packets)

/-- A summary vector whose length and ids are `uint32_t` values. -/
def SummaryVectorHeader.WF (h : SummaryVectorHeader) : Prop :=
  h.m_packets.length < 2 ^ 32 ∧ ∀ x ∈ h.m_packets, x < 2 ^ 32

/-! ## ControlTag, epidemic-tag.h -/

/-- `ControlTag::TagType`. -/
inductive TagType where
  | CONTROL
  | NOT_SET
  deriving DecidableEq, Repr

/-! ## Packets and IP headers of the host stack -/

/-- A `ns3::Packet`: the bytes of its buffer and the `ControlTag` attached to it, if any. -/
structure Packet where
  bytes : List Nat
  tag : Option TagType
  deriving DecidableEq, Repr

/-- `Create<Packet> ()`: an empty packet. -/
def Packet.Create : Packet := { bytes := [], tag := none }

/-- `Packet::GetSize`. -/
def Packet.GetSize (p : Packet) : Nat := p.bytes.length

/-- `Packet::AddHeader`: the serialized header is put in front of the buffer. -/
def Packet.AddHeader (p : Packet) (serialized : List Nat) : Packet :=
  { p with bytes := serialized ++ p.bytes }

/-- `Packet::RemoveHeader` for a `TypeHeader`: deserialize at the start of the buffer and
remove the bytes read. -/
def Packet.RemoveTypeHeader (p : Packet) (h : TypeHeader) : Option (TypeHeader × Packet) :=
  match h.Deserialize p.bytes with
  | none => none
  | some (h1, dist) => some (h1, { p with bytes := p.bytes.drop dist })

/-- `Packet::RemoveHeader` for a `SummaryVectorHeader`. -/
def Packet.RemoveSummaryVectorHeader (p : Packet) (h : SummaryVectorHeader) :
    Option (SummaryVectorHeader × Packet) :=
  match h.Deserialize p.bytes with
  | none => none
  | some (h1, dist) => some (h1, { p with bytes := p.bytes.drop dist })

/-- `Packet::PeekHeader` for an `EpidemicHeader`. -/
def Packet.PeekEpidemicHeader (p : Packet) : Option EpidemicHeader :=
  match EpidemicHeader.Deserialize p.bytes with
  | none => none
  | some (h1, _) => some h1

/-- `Packet::RemoveHeader` for an `EpidemicHeader`. -/
def Packet.RemoveEpidemicHeader (p : Packet) : Option (EpidemicHeader × Packet) :=
  match EpidemicHeader.Deserialize p.bytes with
  | none => none
  | some (h1, dist) => some (h1, { p with bytes := p.bytes.drop dist })

/-- `Packet::PeekPacketTag (tag)` on a `ControlTag` holding `dflt`: the tag of the packet
when it has one, the tag passed in otherwise. -/
def Packet.PeekPacketTag (p : Packet) (dflt : TagType) : TagType :=
  match p.tag with
  | some t => t
  | none => dflt

/-- `Packet::AddPacketTag`. -/
def Packet.AddPacketTag (p : Packet) (t : TagType) : Packet := { p with tag := some t }

/-- `Packet::RemovePacketTag`. -/
def Packet.RemovePacketTag (p : Packet) : Packet := { p with tag := none }

/-- The fields of `ns3::Ipv4Header` the agent reads or writes. -/
structure Ipv4Header where
  m_source : Nat
  m_destination : Nat
  m_ttl : Nat
  m_protocol : Nat
  m_payloadSize : Nat
  deriving DecidableEq, Repr

/-- The fields of `ns3::Ipv4InterfaceAddress` the agent reads. -/
structure Ipv4InterfaceAddress where
  m_local : Nat
  m_mask : Nat
  m_broadcast : Nat
  deriving DecidableEq, Repr

/-- A `ns3::Ipv4Route`; a field that was never set is `none`. -/
structure Ipv4Route where
  m_source : Option Nat
  m_dest : Option Nat
  m_gateway : Option Nat
  m_outputDevice : Option Nat
  deriving DecidableEq, Repr

/-- `Create<Ipv4Route> ()`. -/
def Ipv4Route.Create : Ipv4Route :=
  { m_source := none, m_dest := none, m_gateway := none, m_outputDevice := none }

/-- The queries of `m_ipv4` (the interface table of the host stack) the agent makes. -/
structure Ipv4 where
  GetInterfaceForAddress : Nat → Int
  GetInterfaceForDevice : Nat → Int
  GetNetDevice : Int → Nat

/-! ## The packet buffer (PacketQueue), declared in epidemic-packet-queue.h -/

/-- Modelled from the spec: `QueueEntry` (the spec's BufferEntry) is declared in
`epidemic-packet-queue.h`, which is not among the sources. It holds the packet, its IPv4
header, the packet id and the absolute expire time; the forward and error callbacks it also
carries are handles of the host stack and are left out. `m_packet` is `none` for the null
pointer of a default-constructed entry. -/
structure QueueEntry where
  m_packet : Option Packet
  m_header : Ipv4Header
  m_expire : Int
  m_packetID : Nat
  deriving DecidableEq, Repr

/-- `QueueEntry::GetPacketID`. -/
def QueueEntry.GetPacketID (e : QueueEntry) : Nat := e.m_packetID

/-- `QueueEntry::GetPacket`. -/
def QueueEntry.GetPacket (e : QueueEntry) : Option Packet := e.m_packet

/-- Modelled from the spec: the sentinel entry `Find` returns for a missing id, a
default-constructed `QueueEntry` whose packet id is 0. -/
def QueueEntry.sentinel : QueueEntry :=
  { m_packet := none,
    m_header := { m_source := 0, m_destination := 0, m_ttl := 0, m_protocol := 0,
                  m_payloadSize := 0 },
    m_expire := 0, m_packetID := 0 }

/-- Modelled from the spec: `PacketQueue` is implemented in `epidemic-packet-queue.{h,cc}`,
which are not among the sources: the entries in insertion order, oldest first, and the
capacity `maxQueueLen`. -/
structure PacketQueue where
  m_queue : List QueueEntry
  m_maxLen : Nat
  deriving DecidableEq, Repr

/-- Modelled from the spec: `GetSize` of the missing `PacketQueue`. -/
def PacketQueue.GetSize (q : PacketQueue) : Nat := q.m_queue.length

/-- Modelled from the spec: `SetMaxQueueLen` of the missing `PacketQueue`. -/
def PacketQueue.SetMaxQueueLen (q : PacketQueue) (len : Nat) : PacketQueue :=
  { q with m_maxLen := len }

/-- Modelled from the spec: the test `an entry with the same PacketId already exists` of
the missing `PacketQueue::Enqueue`. -/
def PacketQueue.Has (q : PacketQueue) (id : Nat) : Bool :=
  q.m_queue.any (fun e => e.m_packetID == id)

/-- Modelled from the spec: `Enqueue` of the missing `PacketQueue`: if an entry with the
same PacketId already exists, discard the new one; else if size == maxQueueLen, evict the
oldest entry by insertion order; then append. -/
def PacketQueue.Enqueue (q : PacketQueue) (entry : QueueEntry) : PacketQueue :=
  if q.Has entry.m_packetID then q
  else if q.m_queue.length = q.m_maxLen then { q with m_queue := q.m_queue.tail ++ [entry] }
  else { q with m_queue := q.m_queue ++ [entry] }

/-- Modelled from the spec: the scan of the missing `PacketQueue::Dequeue`, from the oldest
entry on: expired entries (`expireTime < now`) are dropped, the first other entry is
popped. -/
def PacketQueue.DequeueScan (now : Int) : List QueueEntry → Option (QueueEntry × List QueueEntry)
  | [] => none
  | e :: rest => if e.m_expire < now then PacketQueue.DequeueScan now rest else some (e, rest)

/-- Modelled from the spec: `Dequeue` of the missing `PacketQueue`: pop the oldest
non-expired entry; the result is `none` for the return value false, and the buffer is then
empty. -/
def PacketQueue.Dequeue (q : PacketQueue) (now : Int) : Option QueueEntry × PacketQueue :=
  match PacketQueue.DequeueScan now q.m_queue with
  | none => (none, { q with m_queue := [] })
  | some (e, rest) => (some e, { q with m_queue := rest })

/-- Modelled from the spec: `Find` of the missing `PacketQueue`: the matching entry, or a
sentinel entry whose packet id is 0. -/
def PacketQueue.Find (q : PacketQueue) (id : Nat) : QueueEntry :=
  match q.m_queue.find? (fun e => e.m_packetID == id) with
  | some e => e
  | none => QueueEntry.sentinel

/-- Modelled from the spec: `DropExpiredPackets` of the missing `PacketQueue`: remove every
entry with `expireTime < now`. -/
def PacketQueue.DropExpiredPackets (q : PacketQueue) (now : Int) : PacketQueue :=
  { q with m_queue := q.m_queue.filter (fun e => !decide (e.m_expire < now)) }

/-- Modelled from the spec: `GetSummaryVector` of the missing `PacketQueue`: after dropping
expired, the list of PacketIds in insertion order. -/
def PacketQueue.GetSummaryVector (q : PacketQueue) (now : Int) :
    PacketQueue × SummaryVectorHeader :=
  let q1 := q.DropExpiredPackets now
  (q1, { m_packets := q1.m_queue.map (fun e => e.m_packetID) })

/-- Modelled from the spec: `FindDisjointPackets` of the missing `PacketQueue`: the
PacketIds in this buffer that are absent from the peer's summary, in insertion order. -/
def PacketQueue.FindDisjointPackets (q : PacketQueue) (list : SummaryVectorHeader) :
    SummaryVectorHeader :=
  { m_packets := (q.m_queue.map (fun e => e.m_packetID)).filter (fun id => !list.Contains id) }

/-- The buffer after `k` successive `Dequeue` calls at time `now`. -/
def PacketQueue.DequeueTimes (now : Int) : Nat → PacketQueue → PacketQueue
  | 0, q => q
  | k + 1, q => PacketQueue.DequeueTimes now k (q.Dequeue now).2

/-- The PacketIds held in the buffer, oldest first. -/
def PacketQueue.ids (q : PacketQueue) : List Nat := q.m_queue.map (fun e => e.m_packetID)

/-! ## RoutingProtocol, epidemic-routing-protocol.{h,cc} -/

/-- `RoutingProtocol::EPIDEMIC_PORT`. -/
def EPIDEMIC_PORT : Nat := 269

/-- The member variables of `RoutingProtocol`; `m_socketAddresses` lists the pairs of the
map (socket handle, interface address) in iteration order, `m_hostContactTime` the pairs
(host address, contact time) of the map, one per host. The handle `m_ipv4`, the beacon
timer and the jitter variable belong to the host stack. -/
structure RoutingProtocol where
  m_mainAddress : Nat
  m_hopCount : Nat
  m_maxQueueLen : Nat
  m_queueEntryExpireTime : Int
  m_beaconInterval : Int
  m_hostRecentPeriod : Int
  m_beaconMaxJitterMs : Nat
  m_dataPacketCounter : Nat
  m_socketAddresses : List (Nat × Ipv4InterfaceAddress)
  m_queue : PacketQueue
  m_hostContactTime : List (Nat × Int)
  deriving DecidableEq, Repr

/-- The calls the agent makes to its environment, in program order. A unicast of a control
message is recorded as the call of `RoutingProtocol::SendPacket`, a broadcast as the call of
`RoutingProtocol::BroadcastPacket`; the functions `SendPacket` and `BroadcastPacket` below
give the sockets each call then uses. -/
inductive Action where
  /-- A call `SendPacket (p, InetSocketAddress (dest, port))`: the unicast datagram. -/
  | SendPacket (p : Packet) (dest : Nat) (port : Nat)
  /-- A call `BroadcastPacket (p)`. -/
  | BroadcastPacket (p : Packet)
  /-- A call `Simulator::Schedule (Time (0), &RoutingProtocol::SendPacketFromQueue, this,
  dst, queueEntry)`. -/
  | Schedule (dst : Nat) (queueEntry : QueueEntry)
  /-- A call of the unicast-forward callback `ucb (rt, copy, header)`. -/
  | ucb (rt : Ipv4Route) (p : Packet) (header : Ipv4Header)
  /-- A call of the local-deliver callback `lcb (local_copy, header, iif)`. -/
  | lcb (p : Packet) (header : Ipv4Header) (iif : Int)
  deriving DecidableEq, Repr

/-- `m_hostContactTime.find (hostID)`: the contact time recorded for the host, if any. -/
def HostContactFind (m : List (Nat × Int)) (hostID : Nat) : Option Int :=
  match m.find? (fun e => e.1 == hostID) with
  | some e => some e.2
  | none => none

/-- `RoutingProtocol::IsHostContactedRecently` at simulation time `now`. -/
def IsHostContactedRecently (st : RoutingProtocol) (now : Int) (hostID : Nat) :
    Bool × RoutingProtocol :=
  match HostContactFind st.m_hostContactTime hostID with
  | none =>
    (false, { st with m_hostContactTime := st.m_hostContactTime ++ [(hostID, now)] })
  | some second =>
    if now < TimeAdd second st.m_hostRecentPeriod then (true, st)
    else
      (false, { st with m_hostContactTime :=
        st.m_hostContactTime.map (fun e => if e.1 == hostID then (e.1, now) else e) })

/-- `RoutingProtocol::IsMyOwnAddress`. -/
def IsMyOwnAddress (st : RoutingProtocol) (src : Nat) : Bool :=
  st.m_socketAddresses.any (fun j => src == j.2.m_local)

/-- `RoutingProtocol::SendPacket`: the packet is handed, with `SendTo (p, 0, addr)`, to every
socket of `m_socketAddresses` whose interface address is the main address; the result lists
(socket, packet, destination address, port) for each. -/
def SendPacket (st : RoutingProtocol) (p : Packet) (dest port : Nat) :
    List (Nat × Packet × Nat × Nat) :=
  (st.m_socketAddresses.filter (fun j => j.2.m_local == st.m_mainAddress)).map
    (fun j => (j.1, p, dest, port))

/-- `RoutingProtocol::BroadcastPacket`: the packet is sent on every socket, to
255.255.255.255 on an interface with the all-ones mask and to the broadcast address of the
interface otherwise; the result lists (socket, packet, destination address, port). -/
def BroadcastPacket (st : RoutingProtocol) (p : Packet) : List (Nat × Packet × Nat × Nat) :=
  st.m_socketAddresses.map (fun j =>
    (j.1, p, (if j.2.m_mask = 4294967295 then 4294967295 else j.2.m_broadcast), EPIDEMIC_PORT))

/-- `RoutingProtocol::SendSummaryVector` at simulation time `now`. -/
def SendSummaryVector (st : RoutingProtocol) (now : Int) (dest : Nat) (firstNode : Bool) :
    RoutingProtocol × List Action :=
  let packet_summary := Packet.Create
  let (queue1, header_summary) := st.m_queue.GetSummaryVector now
  let packet_summary := packet_summary.AddHeader header_summary.Serialize
  -- `TypeHeader tHeader;` the type it starts with is overwritten on both branches
  let tHeader := TypeHeader.new MessageType.BEACON
  let tHeader :=
    if firstNode then tHeader.SetMessageType MessageType.REPLY
    else tHeader.SetMessageType MessageType.REPLY_BACK
  let packet_summary := packet_summary.AddHeader tHeader.Serialize
  let packet_summary := packet_summary.AddPacketTag TagType.CONTROL
  ({ st with m_queue := queue1 }, [Action.SendPacket packet_summary dest EPIDEMIC_PORT])

/-- The `for` loop of `RoutingProtocol::SendDisjointPackets` over the ids of `list`. -/
def SendDisjointPacketsLoop (st : RoutingProtocol) (dest : Nat) : List Nat → List Action
  | [] => []
  | i :: rest =>
    let newEntry := st.m_queue.Find i
    if newEntry.GetPacket.isSome then
      Action.Schedule dest newEntry :: SendDisjointPacketsLoop st dest rest
    else SendDisjointPacketsLoop st dest rest

/-- `RoutingProtocol::SendDisjointPackets`. -/
def SendDisjointPackets (st : RoutingProtocol) (packet_SMV : SummaryVectorHeader) (dest : Nat) :
    List Action :=
  let list := st.m_queue.FindDisjointPackets packet_SMV
  SendDisjointPacketsLoop st dest list.m_packets

/-- `RoutingProtocol::RecvEpidemic` at simulation time `now`, for the datagram `packet`
that `socket->RecvFrom` returns with the sender address `sender`. The result is `none`
when a header is read past the end of the packet or the assertion of
`SummaryVectorHeader::Deserialize` fails. -/
def RecvEpidemic (st : RoutingProtocol) (now : Int) (packet : Packet) (sender : Nat) :
    Option (RoutingProtocol × List Action) :=
  let st1 := { st with m_queue := st.m_queue.DropExpiredPackets now }
  match packet.RemoveTypeHeader (TypeHeader.new MessageType.BEACON) with
  | none => none
  | some (tHeader, packet1) =>
    if tHeader.GetMessageType = MessageType.BEACON then
      if st1.m_mainAddress < sender then
        let (recent, st2) := IsHostContactedRecently st1 now sender
        if !recent then some (SendSummaryVector st2 now sender true)
        else some (st2, [])
      else some (st1, [])
    else if tHeader.GetMessageType = MessageType.REPLY then
      match packet1.RemoveSummaryVectorHeader SummaryVectorHeader.new with
      | none => none
      | some (packet_SMV, _) =>
        let acts1 := SendDisjointPackets st1 packet_SMV sender
        let (st2, acts2) := SendSummaryVector st1 now sender false
        some (st2, acts1 ++ acts2)
    else if tHeader.GetMessageType = MessageType.REPLY_BACK then
      match packet1.RemoveSummaryVectorHeader SummaryVectorHeader.new with
      | none => none
      | some (packet_SMV, _) => some (st1, SendDisjointPackets st1 packet_SMV sender)
    else some (st1, [])

/-- `RoutingProtocol::SendPacketFromQueue`; `ipv4` answers the queries made to `m_ipv4`.
An entry without a packet is not passed to this function (`SendDisjointPackets` tests
`GetPacket ()` before scheduling the call). -/
def SendPacketFromQueue (st : RoutingProtocol) (ipv4 : Ipv4) (dst : Nat)
    (queueEntry : QueueEntry) : List Action :=
  match queueEntry.GetPacket with
  | none => []
  | some p =>
    let header := queueEntry.m_header
    let header := { header with m_ttl := (header.m_ttl + 1) % 2 ^ 8 }
    let header := { header with m_payloadSize := p.GetSize % 2 ^ 16 }
    let rt := Ipv4Route.Create
    let rt := { rt with m_source := some header.m_source }
    let rt := { rt with m_dest := some header.m_destination }
    let rt := { rt with m_gateway := some dst }
    let dev := ipv4.GetNetDevice (ipv4.GetInterfaceForAddress st.m_mainAddress)
    let rt :=
      if ipv4.GetInterfaceForAddress st.m_mainAddress ≠ -1 then
        { rt with m_outputDevice := some dev }
      else rt
    let copy := p
    if dst ≠ header.m_source ∧ ¬ IsMyOwnAddress st header.m_destination then
      [Action.ucb rt copy header]
    else []

/-- `RoutingProtocol::SendBeacons`; `header0` is the default-constructed `EpidemicHeader`
(its constructor is declared in `epidemic-packet.h`, which is not among the sources). The
re-arming of the beacon timer is left to the host stack. -/
def SendBeacons (st : RoutingProtocol) (header0 : EpidemicHeader) : List Action :=
  let packet := Packet.Create
  let header := { header0 with m_hopCount := st.m_hopCount }
  let packet := packet.AddHeader header.Serialize
  let tHeader := TypeHeader.new MessageType.BEACON
  let packet := packet.AddHeader tHeader.Serialize
  let packet := packet.AddPacketTag TagType.CONTROL
  [Action.BroadcastPacket packet]

/-- The test made on each pair `j` of `m_socketAddresses` by the loop of `RouteInput`: the
interface of the pair is the one the packet came in on, and the packet is addressed to the
broadcast address of that interface or to the main address. -/
def RouteInputIsLocal (st : RoutingProtocol) (ipv4 : Ipv4) (header : Ipv4Header) (iif : Int)
    (j : Nat × Ipv4InterfaceAddress) : Bool :=
  decide (ipv4.GetInterfaceForAddress j.2.m_local = iif) &&
    (header.m_destination == j.2.m_broadcast || header.m_destination == st.m_mainAddress)

/-- The body of the loop of `RouteInput` once the test succeeds: local delivery. -/
def RouteInputLocalDeliver (st : RoutingProtocol) (p : Packet) (header : Ipv4Header)
    (iif : Int) : Option (Bool × RoutingProtocol × List Action) :=
  let tag := p.PeekPacketTag TagType.NOT_SET
  let local_copy := p
  if tag = TagType.NOT_SET then
    let copy := p
    match copy.PeekEpidemicHeader with
    | none => none
    | some current_Header =>
      let newEntry : QueueEntry :=
        { m_packet := some copy, m_header := header,
          m_expire := TimeAdd st.m_queueEntryExpireTime current_Header.m_timeStamp,
          m_packetID := current_Header.m_packetID }
      match local_copy.RemoveEpidemicHeader with
      | none => none
      | some (_, local_copy1) =>
        if (st.m_queue.Find current_Header.m_packetID).GetPacketID = 0 then
          some (true, { st with m_queue := st.m_queue.Enqueue newEntry },
                [Action.lcb local_copy1.RemovePacketTag header iif])
        else some (true, st, [])
  else some (true, st, [Action.lcb local_copy.RemovePacketTag header iif])

/-- The part of `RouteInput` after the loop: the forward path, at simulation time `now`. -/
def RouteInputForward (st : RoutingProtocol) (now : Int) (p : Packet) (header : Ipv4Header) :
    Option (Bool × RoutingProtocol × List Action) :=
  let copy := p
  let hostID := header.m_source % 2 ^ 16
  let st1 := { st with m_dataPacketCounter := (st.m_dataPacketCounter + 1) % 2 ^ 16 }
  let global_packet_ID := ((hostID <<< 16) % 2 ^ 32) ||| st1.m_dataPacketCounter
  if IsMyOwnAddress st1 header.m_source then
    let new_Header : EpidemicHeader :=
      { m_packetID := global_packet_ID, m_hopCount := st1.m_hopCount, m_timeStamp := now }
    let copy := copy.AddHeader new_Header.Serialize
    let newEntry : QueueEntry :=
      { m_packet := some copy, m_header := header,
        m_expire := TimeAdd st1.m_queueEntryExpireTime now,
        m_packetID := global_packet_ID }
    some (true, { st1 with m_queue := st1.m_queue.Enqueue newEntry }, [])
  else
    match copy.RemoveEpidemicHeader with
    | none => none
    | some (current_Header, copy1) =>
      if current_Header.m_hopCount ≤ 1
          ∨ TimeAdd current_Header.m_timeStamp st1.m_queueEntryExpireTime < now then
        some (true, st1, [])
      else
        let current_Header1 :=
          { current_Header with m_hopCount := (current_Header.m_hopCount + 2 ^ 32 - 1) % 2 ^ 32 }
        let copy2 := copy1.AddHeader current_Header1.Serialize
        let newEntry : QueueEntry :=
          { m_packet := some copy2, m_header := header,
            m_expire := TimeAdd st1.m_queueEntryExpireTime current_Header.m_timeStamp,
            m_packetID := current_Header.m_packetID }
        some (true, { st1 with m_queue := st1.m_queue.Enqueue newEntry }, [])

/-- `RoutingProtocol::RouteInput` at simulation time `now` for a packet arriving on the
device `idev`; `ipv4` answers the queries made to `m_ipv4`. The result is the value
returned, the new state and the callbacks invoked; it is `none` when a header is read past
the end of the packet. -/
def RouteInput (st : RoutingProtocol) (ipv4 : Ipv4) (now : Int) (p : Packet)
    (header : Ipv4Header) (idev : Nat) : Option (Bool × RoutingProtocol × List Action) :=
  if st.m_socketAddresses.isEmpty then some (false, st, [])
  else if header.m_ttl < 1 then some (false, st, [])
  else if header.m_protocol = 1 then some (false, st, [])
  else
    let iif := ipv4.GetInterfaceForDevice idev
    if st.m_socketAddresses.any (RouteInputIsLocal st ipv4 header iif) then
      RouteInputLocalDeliver st p header iif
    else RouteInputForward st now p header

/-- A run of `RecvEpidemic` over the datagrams received from one `sender`, each with its
arrival time, in order: the arrival time and the calls made for each, and the final
state. -/
def RecvEpidemicSeq (sender : Nat) :
    RoutingProtocol → List (Int × Packet) → Option (List (Int × List Action) × RoutingProtocol)
  | st, [] => some ([], st)
  | st, (now, packet) :: rest =>
    match RecvEpidemic st now packet sender with
    | none => none
    | some (st1, acts) =>
      match RecvEpidemicSeq sender st1 rest with
      | none => none
      | some (outs, st2) => some ((now, acts) :: outs, st2)

/-- The call is a `SendPacket` of a control message of type `t` to `dest`. -/
def Action.IsControl (t : MessageType) (dest : Nat) : Action → Bool
  | .SendPacket p d _ => d == dest && p.bytes.head? == some t.toU8
  | _ => false

/-- The call is a `SendPacket`, whatever it carries. -/
def Action.IsSendPacket : Action → Bool
  | .SendPacket _ _ _ => true
  | _ => false

/-- The datagrams the calls of a handler hand to the sockets of the agent `st`, in
order: a call `SendPacket (p, addr)` runs `RoutingProtocol::SendPacket`, which passes the
packet to every socket bound to the main address, and a call `BroadcastPacket (p)` runs
`RoutingProtocol::BroadcastPacket`; each datagram is (socket, packet, destination address,
port). The scheduled calls and the callbacks of the host stack use no socket of the
agent. -/
def SentDatagrams (st : RoutingProtocol) : List Action → List (Nat × Packet × Nat × Nat)
  | [] => []
  | Action.SendPacket p dest port :: rest => SendPacket st p dest port ++ SentDatagrams st rest
  | Action.BroadcastPacket p :: rest => BroadcastPacket st p ++ SentDatagrams st rest
  | _ :: rest => SentDatagrams st rest

/-! ## One anti-entropy cycle between two agents -/

/-- A buffered data packet: IP source `src`, destination `dst`, TTL 64, protocol 17 (UDP),
the data header (`id`, `hop`, timestamp 0) in front of one payload byte, expiring at
time 100. -/
def exampleEntry (src dst id hop : Nat) : QueueEntry :=
  { m_packet := some ⟨EpidemicHeader.Serialize ⟨id, hop, 0⟩ ++ [42], none⟩,
    m_header := ⟨src, dst, 64, 17, 17⟩, m_expire := 100, m_packetID := id }

/-- A node with one socket on the address `addr` (broadcast address 255), a buffer of
capacity `cap` holding `entries`, queueEntryExpireTime 100, hostRecentPeriod 10 and an
empty contact map. -/
def exampleNode (addr cap : Nat) (entries : List QueueEntry) : RoutingProtocol :=
  { m_mainAddress := addr, m_hopCount := 64, m_maxQueueLen := cap,
    m_queueEntryExpireTime := 100, m_beaconInterval := 1, m_hostRecentPeriod := 10,
    m_beaconMaxJitterMs := 100, m_dataPacketCounter := 0,
    m_socketAddresses := [(0, ⟨addr, 4294967040, 255⟩)],
    m_queue := { m_queue := entries, m_maxLen := cap }, m_hostContactTime := [] }

/-- An interface table with one interface, number 1, on device 0. -/
def exampleIpv4 : Ipv4 :=
  { GetInterfaceForAddress := fun _ => 1, GetInterfaceForDevice := fun _ => 1,
    GetNetDevice := fun _ => 0 }

/-- A node whose only socket is on its main address 10.1.0.0 in the network 10.0.0.0/8
(167837696, an address whose low 16 bits are 0; broadcast address 10.255.255.255), with an
empty buffer of capacity 64 and the counter at 0; the rest as in `exampleNode`. -/
def exampleNodeLow16Zero : RoutingProtocol :=
  { exampleNode 167837696 64 [] with
      m_socketAddresses := [(0, ⟨167837696, 4278190080, 184549375⟩)] }

/-! ## RouteOutput, epidemic-routing-protocol.cc -/

/-- The loop of `FindOutputDeviceForAddress` from device `i` on; `devices` lists, for each
device of the node in order, the first address of its interface
(`m_ipv4->GetAddress (m_ipv4->GetInterfaceForDevice (mynode->GetDevice (i)), 0)`). -/
def FindOutputDeviceForAddressLoop (dst : Nat) : Nat → List Ipv4InterfaceAddress → Option Nat
  | _, [] => none
  | i, iface :: rest =>
    if dst &&& iface.m_mask = iface.m_local &&& iface.m_mask then some i
    else FindOutputDeviceForAddressLoop dst (i + 1) rest

/-- `RoutingProtocol::FindOutputDeviceForAddress`: the number of the first device whose
subnet contains `dst`, and `-1` as a `uint32_t` when there is none. -/
def FindOutputDeviceForAddress (devices : List Ipv4InterfaceAddress) (dst : Nat) : Nat :=
  match FindOutputDeviceForAddressLoop dst 0 devices with
  | some i => i
  | none => 2 ^ 32 - 1

/-- The loop of `FindLoopbackDevice` from device `i` on; 2130706433 is 127.0.0.1. -/
def FindLoopbackDeviceLoop : Nat → List Ipv4InterfaceAddress → Option Nat
  | _, [] => none
  | i, iface :: rest =>
    if iface.m_local = 2130706433 then some i else FindLoopbackDeviceLoop (i + 1) rest

/-- `RoutingProtocol::FindLoopbackDevice`: the number of the first device whose address
is 127.0.0.1, and `-1` as a `uint32_t` when there is none. -/
def FindLoopbackDevice (devices : List Ipv4InterfaceAddress) : Nat :=
  match FindLoopbackDeviceLoop 0 devices with
  | some i => i
  | none => 2 ^ 32 - 1

/-- `RoutingProtocol::RouteOutput` for the packet `p` with IP header `header`; `ipv4`
answers the queries made to `m_ipv4` and `devices` lists the interface address of each
device of the node. The result is the route returned. -/
def RouteOutput (st : RoutingProtocol) (ipv4 : Ipv4) (devices : List Ipv4InterfaceAddress)
    (p : Packet) (header : Ipv4Header) : Ipv4Route :=
  if IsMyOwnAddress st header.m_destination then
    let rt := Ipv4Route.Create
    let rt := { rt with m_source := some st.m_mainAddress }
    let rt := { rt with m_dest := some header.m_destination }
    rt
  else
    let rt := Ipv4Route.Create
    let rt := { rt with m_source := some st.m_mainAddress }
    let rt := { rt with m_dest := some header.m_destination }
    let rt := { rt with m_gateway := some header.m_destination }
    if ipv4.GetInterfaceForAddress st.m_mainAddress ≠ -1 then
      let tag := p.PeekPacketTag TagType.NOT_SET
      if tag = TagType.CONTROL then
        let dev := ipv4.GetNetDevice (FindLoopbackDevice devices)
        { rt with m_outputDevice := some dev }
      else
        let dev := ipv4.GetNetDevice (FindOutputDeviceForAddress devices header.m_destination)
        { rt with m_outputDevice := some dev }
    else rt

/-! ## Big-endian numbers, as the spec words the wire format -/

/-- The number a list of bytes stands for when read most significant byte first. -/
def BigEndianValue : List Nat → Nat
  | bytes => bytes.foldl (fun acc b => acc * 256 + b) 0

/-! ## Runs of `RouteInput` -/

/-- The tests `RouteInput` makes before its forward path, taken together: the agent has a
socket, the TTL is at least 1, the protocol is not ICMP, and no socket matches for local
delivery. When it is true the call goes on to the forward path; when it is false the call
returns false or delivers locally. -/
def RouteInputReachesForward (st : RoutingProtocol) (ipv4 : Ipv4) (header : Ipv4Header)
    (idev : Nat) : Bool :=
  !st.m_socketAddresses.isEmpty && !decide (header.m_ttl < 1)
    && !decide (header.m_protocol = 1)
    && !st.m_socketAddresses.any
        (RouteInputIsLocal st ipv4 header (ipv4.GetInterfaceForDevice idev))

/-- A run of `RouteInput` calls on one agent: each call is given by its time, packet, IP
header and input device; the result is the agent state after the last call, and `none`
when a header is read past the end of a packet. -/
def RouteInputSeq (ipv4 : Ipv4) :
    RoutingProtocol → List (Int × Packet × Ipv4Header × Nat) → Option RoutingProtocol
  | st, [] => some st
  | st, (now, p, header, idev) :: rest =>
    match RouteInput st ipv4 now p header idev with
    | none => none
    | some (_, st1, _) => RouteInputSeq ipv4 st1 rest

/-- The number of calls of a run that go on to the forward path of `RouteInput`. -/
def ForwardCalls (st : RoutingProtocol) (ipv4 : Ipv4)
    (calls : List (Int × Packet × Ipv4Header × Nat)) : Nat :=
  (calls.filter (fun c => RouteInputReachesForward st ipv4 c.2.2.1 c.2.2.2)).length

end Epidemic

namespace Epidemic

/-! ## Codec lemmas -/

theorem ReadNtohU32_WriteHtonU32 (v : Nat) (hv : v < 2 ^ 32) (rest : List Nat) :
    ReadNtohU32 (WriteHtonU32 v ++ rest) = some (v, rest) := by
  simp only [WriteHtonU32, List.cons_append, List.nil_append, ReadNtohU32, Option.some.injEq,
    Prod.mk.injEq, and_true]
  omega

theorem ReadNtohU64_WriteHtonU64 (v : Nat) (hv : v < 2 ^ 64) (rest : List Nat) :
    ReadNtohU64 (WriteHtonU64 v ++ rest) = some (v, rest) := by
  simp only [WriteHtonU64, List.cons_append, List.nil_append, ReadNtohU64, Option.some.injEq,
    Prod.mk.injEq, and_true]
  omega

theorem Int64ToU64_lt (t : Int) : Int64ToU64 t < 2 ^ 64 := by
  unfold Int64ToU64
  have h1 : 0 ≤ t % 2 ^ 64 := Int.emod_nonneg _ (by norm_num)
  have h2 : t % 2 ^ 64 < 2 ^ 64 := Int.emod_lt_of_pos _ (by norm_num)
  omega

theorem TimeOfU64_Int64ToU64 (t : Int) (h1 : -(2 : Int) ^ 63 ≤ t) (h2 : t < 2 ^ 63) :
    TimeOfU64 (Int64ToU64 t) = t := by
  unfold TimeOfU64 Int64ToU64
  have h3 : 0 ≤ t % 2 ^ 64 := Int.emod_nonneg _ (by norm_num)
  split <;> omega

theorem EpidemicHeader_Deserialize_Serialize (h : EpidemicHeader) (hwf : h.WF)
    (rest : List Nat) :
    EpidemicHeader.Deserialize (h.Serialize ++ rest) = some (h, 16) := by
  obtain ⟨h1, h2, h3, h4⟩ := hwf
  unfold EpidemicHeader.Deserialize EpidemicHeader.Serialize
  simp only [List.append_assoc]
  rw [ReadNtohU32_WriteHtonU32 _ h1]
  simp only
  rw [ReadNtohU32_WriteHtonU32 _ h2]
  simp only
  rw [ReadNtohU64_WriteHtonU64 _ (Int64ToU64_lt _)]
  simp only [TimeOfU64_Int64ToU64 _ h3 h4, Option.some.injEq, Prod.mk.injEq, true_and]
  simp only [WriteHtonU32, WriteHtonU64, List.cons_append, List.nil_append, List.length_cons]
  omega


/-! ## C1: the data header codec -/

/-- C1: for every data header H whose fields fit their types (packetId and hopCount
`uint32_t`, timestamp a 64-bit nanosecond count), `EpidemicHeader::Deserialize` applied to
the bytes written by `Serialize (H)`, whatever follows them, yields H and covers exactly 16
bytes; `Serialize` writes 16 bytes, `GetSerializedSize ()` is 16, and `RemoveHeader` after
`AddHeader` gives back H and the packet. -/
theorem C1_EpidemicHeader_roundtrip (H : EpidemicHeader) (hwf : H.WF) (rest : List Nat)
    (p : Packet) :
    EpidemicHeader.Deserialize (H.Serialize ++ rest) = some (H, 16)
      ∧ H.Serialize.length = 16
      ∧ H.GetSerializedSize = 16
      ∧ (p.AddHeader H.Serialize).RemoveEpidemicHeader = some (H, p) := by
  have hlen : H.Serialize.length = 16 := by
    simp [EpidemicHeader.Serialize, WriteHtonU32, WriteHtonU64]
  refine ⟨EpidemicHeader_Deserialize_Serialize H hwf rest, hlen, rfl, ?_⟩
  unfold Packet.RemoveEpidemicHeader Packet.AddHeader
  have hdrop : List.drop 16 (H.Serialize ++ p.bytes) = p.bytes := by
    rw [← hlen]; exact List.drop_left _ _
  simp only [EpidemicHeader_Deserialize_Serialize H hwf p.bytes, hdrop]

/-- C1 at the header of the test case: packetId 12345, hopCount 10, timestamp 0. -/
theorem C1_EpidemicHeader_roundtrip_witness :
    EpidemicHeader.WF ⟨12345, 10, 0⟩
      ∧ EpidemicHeader.Deserialize (EpidemicHeader.Serialize ⟨12345, 10, 0⟩ ++ []) =
          some (⟨12345, 10, 0⟩, 16) :=
  ⟨by decide, (C1_EpidemicHeader_roundtrip ⟨12345, 10, 0⟩ (by decide) [] Packet.Create).1⟩

/-! ## C2, C3: the packet buffer -/

theorem PacketQueue.Enqueue_of_Has (q : PacketQueue) (e : QueueEntry)
    (h : q.Has e.m_packetID = true) : q.Enqueue e = q := by
  simp [PacketQueue.Enqueue, h]

theorem PacketQueue.Has_iff (q : PacketQueue) (id : Nat) :
    q.Has id = true ↔ id ∈ q.ids := by
  simp only [PacketQueue.Has, PacketQueue.ids, List.any_eq_true, beq_iff_eq, List.mem_map]

/-- C2: for every buffer and every entry e whose PacketId is already present, `Enqueue (e)`
leaves the buffer, hence `GetSize ()`, unchanged; and enqueuing one entry three times into
an empty buffer of any capacity gives size 1. -/
theorem C2_Enqueue_duplicate (q : PacketQueue) (e : QueueEntry)
    (h : q.Has e.m_packetID = true) :
    (q.Enqueue e).GetSize = q.GetSize
      ∧ ∀ maxLen : Nat,
          ((((PacketQueue.mk [] maxLen).Enqueue e).Enqueue e).Enqueue e).GetSize = 1 := by
  refine ⟨by rw [PacketQueue.Enqueue_of_Has q e h], fun maxLen => ?_⟩
  have h1 : ((PacketQueue.mk [] maxLen).Enqueue e).m_queue = [e] := by
    unfold PacketQueue.Enqueue PacketQueue.Has
    by_cases hm : maxLen = 0 <;> simp [hm, eq_comm]
  have h2 : ((PacketQueue.mk [] maxLen).Enqueue e).Has e.m_packetID = true := by
    simp [PacketQueue.Has, h1]
  rw [PacketQueue.Enqueue_of_Has _ e h2, PacketQueue.Enqueue_of_Has _ e h2]
  simp [PacketQueue.GetSize, h1]

/-- C2 at the buffer of the test case: entry 1111 enqueued into a buffer holding 1111. -/
theorem C2_Enqueue_duplicate_witness :
    ((PacketQueue.mk [{ QueueEntry.sentinel with m_packetID := 1111 }] 32).Enqueue
        { QueueEntry.sentinel with m_packetID := 1111 }).GetSize = 1 :=
  (C2_Enqueue_duplicate (PacketQueue.mk [{ QueueEntry.sentinel with m_packetID := 1111 }] 32)
    { QueueEntry.sentinel with m_packetID := 1111 } (by decide)).1


theorem PacketQueue.foldl_Enqueue (es : List QueueEntry) :
    ∀ q : PacketQueue, (q.ids ++ es.map (fun e => e.m_packetID)).Nodup →
      q.m_queue.length + es.length ≤ q.m_maxLen →
      es.foldl PacketQueue.Enqueue q = { q with m_queue := q.m_queue ++ es } := by
  induction es with
  | nil => intro q _ _; simp
  | cons e es ih =>
    intro q hnd hcap
    have hnot : q.Has e.m_packetID = false := by
      rw [Bool.eq_false_iff, Ne, PacketQueue.Has_iff]
      intro hmem
      exact (List.nodup_append.mp hnd).2.2 hmem (by simp)
    have hlen : q.m_queue.length ≠ q.m_maxLen := by
      simp only [List.length_cons] at hcap; omega
    have hstep : q.Enqueue e = { q with m_queue := q.m_queue ++ [e] } := by
      simp [PacketQueue.Enqueue, hnot, hlen]
    rw [List.foldl_cons, hstep, ih]
    · simp
    · simpa [PacketQueue.ids, List.append_assoc] using hnd
    · simp only [List.length_append, List.length_cons, List.length_nil] at hcap ⊢; omega

theorem PacketQueue.Dequeue_live (e : QueueEntry) (rest : List QueueEntry) (maxLen : Nat)
    (now : Int) (h : ¬ e.m_expire < now) :
    (PacketQueue.mk (e :: rest) maxLen).Dequeue now = (some e, PacketQueue.mk rest maxLen) := by
  simp [PacketQueue.Dequeue, PacketQueue.DequeueScan, h]

theorem PacketQueue.DequeueTimes_live (now : Int) (maxLen : Nat) :
    ∀ (k : Nat) (es : List QueueEntry), (∀ e ∈ es, ¬ e.m_expire < now) →
      PacketQueue.DequeueTimes now k (PacketQueue.mk es maxLen) =
        PacketQueue.mk (es.drop k) maxLen := by
  intro k
  induction k with
  | zero => intro es _; simp [PacketQueue.DequeueTimes]
  | succ k ih =>
    intro es hlive
    cases es with
    | nil =>
      simp only [PacketQueue.DequeueTimes, PacketQueue.Dequeue, PacketQueue.DequeueScan]
      rw [ih [] (by simp)]; simp
    | cons e rest =>
      simp only [PacketQueue.DequeueTimes]
      rw [PacketQueue.Dequeue_live e rest maxLen now (hlive e (by simp))]
      rw [ih rest (fun x hx => hlive x (by simp [hx]))]
      simp

/-- C3: for every list of entries with pairwise distinct PacketIds, none expired at time
`now` (`expireTime ≥ now`), enqueued in order into an empty buffer whose capacity is at
least their number: the buffer holds them in order; for every k below their number, the
Dequeue call made after k earlier ones returns true with the k-th entry and lowers
`GetSize ()` by one; and the Dequeue call made after all of them returns false. -/
theorem C3_Dequeue_insertion_order (es : List QueueEntry) (maxLen : Nat) (now : Int)
    (hdistinct : (es.map (fun e => e.m_packetID)).Nodup)
    (hlive : ∀ e ∈ es, ¬ e.m_expire < now)
    (hcap : es.length ≤ maxLen) :
    (es.foldl PacketQueue.Enqueue (PacketQueue.mk [] maxLen)).m_queue = es
      ∧ (∀ (k : Nat) (hk : k < es.length),
          ((PacketQueue.DequeueTimes now k
              (es.foldl PacketQueue.Enqueue (PacketQueue.mk [] maxLen))).Dequeue now).1
            = some (es.get ⟨k, hk⟩)
          ∧ ((PacketQueue.DequeueTimes now k
                (es.foldl PacketQueue.Enqueue (PacketQueue.mk [] maxLen))).Dequeue now).2.GetSize
              + 1
            = (PacketQueue.DequeueTimes now k
                (es.foldl PacketQueue.Enqueue (PacketQueue.mk [] maxLen))).GetSize)
      ∧ ((PacketQueue.DequeueTimes now es.length
            (es.foldl PacketQueue.Enqueue (PacketQueue.mk [] maxLen))).Dequeue now).1 = none := by
  have hfold : es.foldl PacketQueue.Enqueue (PacketQueue.mk [] maxLen) =
      PacketQueue.mk es maxLen := by
    rw [PacketQueue.foldl_Enqueue es (PacketQueue.mk [] maxLen)
      (by simpa [PacketQueue.ids] using hdistinct) (by simpa using hcap)]
    simp
  rw [hfold]
  refine ⟨rfl, ?_, ?_⟩
  · intro k hk
    rw [PacketQueue.DequeueTimes_live now maxLen k es hlive]
    have hdrop : es.drop k = es.get ⟨k, hk⟩ :: es.drop (k + 1) :=
      List.drop_eq_getElem_cons hk
    have hl : ¬ (es.get ⟨k, hk⟩).m_expire < now := hlive _ (List.get_mem es k hk)
    rw [hdrop, PacketQueue.Dequeue_live _ _ maxLen now hl]
    simp only [PacketQueue.GetSize, List.length_drop, List.length_cons, true_and]
  · rw [PacketQueue.DequeueTimes_live now maxLen es.length es hlive]
    simp [PacketQueue.Dequeue, PacketQueue.DequeueScan]

/-- C3 at the entries of the test case, ids 1111, 2222, 3333 expiring at 1 s, dequeued at
time 0 from a buffer of capacity 32: the buffer holds the three entries in order. -/
theorem C3_Dequeue_insertion_order_witness :
    ([{ QueueEntry.sentinel with m_expire := 1000000000, m_packetID := 1111 },
      { QueueEntry.sentinel with m_expire := 1000000000, m_packetID := 2222 },
      { QueueEntry.sentinel with m_expire := 1000000000, m_packetID := 3333 }].foldl
        PacketQueue.Enqueue (PacketQueue.mk [] 32)).m_queue =
      [{ QueueEntry.sentinel with m_expire := 1000000000, m_packetID := 1111 },
       { QueueEntry.sentinel with m_expire := 1000000000, m_packetID := 2222 },
       { QueueEntry.sentinel with m_expire := 1000000000, m_packetID := 3333 }] :=
  (C3_Dequeue_insertion_order
    [{ QueueEntry.sentinel with m_expire := 1000000000, m_packetID := 1111 },
     { QueueEntry.sentinel with m_expire := 1000000000, m_packetID := 2222 },
     { QueueEntry.sentinel with m_expire := 1000000000, m_packetID := 3333 }] 32 0
    (by decide) (by decide) (by decide)).1


/-! ## C4 to C8: the anti-entropy handler `RecvEpidemic` -/

theorem SerializeLoop_length (xs : List Nat) :
    (SummaryVectorHeader.SerializeLoop xs).length = 4 * xs.length := by
  induction xs with
  | nil => rfl
  | cons x xs ih =>
    simp only [SummaryVectorHeader.SerializeLoop, List.length_append, ih, List.length_cons,
      WriteHtonU32, List.length_nil]
    omega

theorem DeserializeLoop_SerializeLoop (xs : List Nat) :
    ∀ (acc rest : List Nat), (∀ x ∈ xs, x < 2 ^ 32) →
      SummaryVectorHeader.DeserializeLoop xs.length
          (SummaryVectorHeader.SerializeLoop xs ++ rest) acc = some (acc ++ xs, rest) := by
  induction xs with
  | nil => intro acc rest _; simp [SummaryVectorHeader.DeserializeLoop,
      SummaryVectorHeader.SerializeLoop]
  | cons x xs ih =>
    intro acc rest hx
    simp only [List.length_cons, SummaryVectorHeader.DeserializeLoop,
      SummaryVectorHeader.SerializeLoop, List.append_assoc]
    rw [ReadNtohU32_WriteHtonU32 x (hx x (by simp))]
    simp only
    rw [ih (acc ++ [x]) rest (fun y hy => hx y (by simp [hy]))]
    simp

/-- Decoding the encoding of `V` into a header that holds the ids of `self`: the ids of
`V` are pushed behind them, and the assertion of `Deserialize` holds exactly when the
number of ids held before is a multiple of 2^30 (so that the size of the header and the
distance covered agree as `uint32_t` values), in particular for a fresh header. -/
theorem SummaryVectorHeader_Deserialize_Serialize (self V : SummaryVectorHeader) (hwf : V.WF)
    (rest : List Nat) :
    SummaryVectorHeader.Deserialize self (V.Serialize ++ rest) =
      if self.m_packets.length % 2 ^ 30 = 0 then
        some ({ m_packets := self.m_packets ++ V.m_packets }, 4 + 4 * V.m_packets.length)
      else none := by
  have hdist : (WriteHtonU32 V.m_packets.length
        ++ (SummaryVectorHeader.SerializeLoop V.m_packets ++ rest)).length - rest.length
      = 4 + 4 * V.m_packets.length := by
    simp only [List.length_append, SerializeLoop_length, WriteHtonU32, List.length_cons,
      List.length_nil]
    omega
  unfold SummaryVectorHeader.Deserialize SummaryVectorHeader.Serialize
  simp only [List.append_assoc]
  rw [ReadNtohU32_WriteHtonU32 _ hwf.1]
  simp only
  rw [DeserializeLoop_SerializeLoop V.m_packets self.m_packets rest hwf.2]
  simp only [hdist]
  simp only [SummaryVectorHeader.GetSerializedSize, List.length_append]
  by_cases hL : self.m_packets.length % 2 ^ 30 = 0
  · rw [if_pos hL, if_pos (by omega)]
  · rw [if_neg hL, if_neg (by omega)]

theorem Packet.RemoveSummaryVectorHeader_Serialize (V : SummaryVectorHeader) (hwf : V.WF)
    (rest : List Nat) (tag : Option TagType) :
    Packet.RemoveSummaryVectorHeader ⟨V.Serialize ++ rest, tag⟩ SummaryVectorHeader.new =
      some (V, ⟨rest, tag⟩) := by
  unfold Packet.RemoveSummaryVectorHeader
  simp only [SummaryVectorHeader_Deserialize_Serialize SummaryVectorHeader.new V hwf rest]
  have hlen : V.Serialize.length = 4 + 4 * V.m_packets.length := by
    simp only [SummaryVectorHeader.Serialize, SerializeLoop_length, WriteHtonU32,
      List.length_append, List.length_cons, List.length_nil]
  have hdrop : List.drop (4 + 4 * V.m_packets.length) (V.Serialize ++ rest) = rest := by
    rw [← hlen]; exact List.drop_left _ _
  simp [hdrop, SummaryVectorHeader.new]

theorem Packet.RemoveTypeHeader_cons (b : Nat) (rest : List Nat) (tag : Option TagType) :
    Packet.RemoveTypeHeader ⟨b :: rest, tag⟩ (TypeHeader.new MessageType.BEACON) =
      some (⟨if b = 1 then MessageType.REPLY else if b = 2 then MessageType.REPLY_BACK
              else MessageType.BEACON, decide (b ≤ 2)⟩, ⟨rest, tag⟩) := by
  unfold Packet.RemoveTypeHeader TypeHeader.Deserialize ReadU8 TypeHeader.new
  simp only [MessageType.toU8]
  by_cases h0 : b = 0
  · subst h0; simp
  by_cases h1 : b = 1
  · subst h1; simp
  by_cases h2 : b = 2
  · subst h2; simp
  have h3 : ¬ b ≤ 2 := by omega
  simp [h0, h1, h2, h3]

theorem PacketQueue.DropExpiredPackets_idem (q : PacketQueue) (now : Int) :
    (q.DropExpiredPackets now).DropExpiredPackets now = q.DropExpiredPackets now := by
  simp [PacketQueue.DropExpiredPackets, List.filter_filter]


theorem HostContactFind_nil (Q : Nat) : HostContactFind [] Q = none := rfl

theorem HostContactFind_cons (e : Nat × Int) (m : List (Nat × Int)) (Q : Nat) :
    HostContactFind (e :: m) Q = if e.1 = Q then some e.2 else HostContactFind m Q := by
  unfold HostContactFind
  rw [List.find?_cons]
  by_cases he : e.1 = Q
  · simp [he]
  · have hb : (e.1 == Q) = false := by simp [he]
    simp only [hb, he, if_false]

theorem HostContactFind_append_self (m : List (Nat × Int)) (P : Nat) (now : Int)
    (h : HostContactFind m P = none) : HostContactFind (m ++ [(P, now)]) P = some now := by
  induction m with
  | nil => simp [HostContactFind_cons]
  | cons e m ih =>
    rw [HostContactFind_cons] at h
    rw [List.cons_append, HostContactFind_cons]
    by_cases he : e.1 = P
    · simp [he] at h
    · simp only [he, if_false] at h ⊢
      exact ih h

theorem HostContactFind_append_other (m : List (Nat × Int)) (P Q : Nat) (now : Int)
    (h : Q ≠ P) : HostContactFind (m ++ [(P, now)]) Q = HostContactFind m Q := by
  induction m with
  | nil => simp [HostContactFind_cons, HostContactFind_nil, Ne.symm h]
  | cons e m ih =>
    rw [List.cons_append, HostContactFind_cons, HostContactFind_cons, ih]

theorem HostContactFind_update_self (m : List (Nat × Int)) (P : Nat) (now t : Int)
    (h : HostContactFind m P = some t) :
    HostContactFind (m.map (fun e => if e.1 == P then (e.1, now) else e)) P = some now := by
  induction m with
  | nil => simp [HostContactFind_nil] at h
  | cons e m ih =>
    rw [HostContactFind_cons] at h
    rw [List.map_cons, HostContactFind_cons]
    by_cases he : e.1 = P
    · simp [he]
    · simp only [he, if_false] at h
      have hb : (e.1 == P) = false := by simp [he]
      simp only [hb, he, if_false, Bool.false_eq_true]
      exact ih h

theorem HostContactFind_update_other (m : List (Nat × Int)) (P Q : Nat) (now : Int)
    (h : Q ≠ P) :
    HostContactFind (m.map (fun e => if e.1 == P then (e.1, now) else e)) Q =
      HostContactFind m Q := by
  induction m with
  | nil => rfl
  | cons e m ih =>
    rw [List.map_cons, HostContactFind_cons, HostContactFind_cons, ih]
    by_cases heP : e.1 = P
    · have heQ : ¬ e.1 = Q := by rw [heP]; exact Ne.symm h
      simp [heP, heQ, Ne.symm h]
    · simp [heP]

/-- The three cases of `IsHostContactedRecently` and what it leaves unchanged. -/
theorem IsHostContactedRecently_cases (st : RoutingProtocol) (now : Int) (P : Nat) :
    (HostContactFind st.m_hostContactTime P = none →
        IsHostContactedRecently st now P =
            (false, { st with m_hostContactTime := st.m_hostContactTime ++ [(P, now)] })
          ∧ HostContactFind (IsHostContactedRecently st now P).2.m_hostContactTime P = some now)
      ∧ (∀ t : Int, HostContactFind st.m_hostContactTime P = some t →
          now < TimeAdd t st.m_hostRecentPeriod →
          IsHostContactedRecently st now P = (true, st))
      ∧ (∀ t : Int, HostContactFind st.m_hostContactTime P = some t →
          ¬ now < TimeAdd t st.m_hostRecentPeriod →
          (IsHostContactedRecently st now P).1 = false
            ∧ HostContactFind (IsHostContactedRecently st now P).2.m_hostContactTime P
                = some now)
      ∧ (∀ Q : Nat, Q ≠ P →
          HostContactFind (IsHostContactedRecently st now P).2.m_hostContactTime Q
            = HostContactFind st.m_hostContactTime Q)
      ∧ { (IsHostContactedRecently st now P).2 with
            m_hostContactTime := st.m_hostContactTime } = st := by
  refine ⟨?_, ?_, ?_, ?_, ?_⟩
  · intro h
    simp only [IsHostContactedRecently, h, true_and]
    exact HostContactFind_append_self _ _ _ h
  · intro t h hlt
    simp [IsHostContactedRecently, h, hlt]
  · intro t h hlt
    simp only [IsHostContactedRecently, h, hlt, if_false, true_and]
    exact HostContactFind_update_self _ _ _ t h
  · intro Q hQ
    unfold IsHostContactedRecently
    cases h : HostContactFind st.m_hostContactTime P with
    | none => exact HostContactFind_append_other _ _ _ _ hQ
    | some t =>
      by_cases hlt : now < TimeAdd t st.m_hostRecentPeriod
      · simp [hlt]
      · simp only [hlt, if_false]
        exact HostContactFind_update_other _ _ _ _ hQ
  · unfold IsHostContactedRecently
    cases h : HostContactFind st.m_hostContactTime P with
    | none => rfl
    | some t =>
      by_cases hlt : now < TimeAdd t st.m_hostRecentPeriod
      · simp [hlt]
      · simp [hlt]

/-- C5: `IsHostContactedRecently (P)` at time `now`, for every agent state and peer P. If
P has no entry in the contact map, the pair (P, now) is inserted and false is returned. If
P has the entry t and `now < t + hostRecentPeriod`, true is returned and the state is
unchanged. If P has the entry t and not `now < t + hostRecentPeriod`, false is returned
and the entry of P becomes `now`. In every case the entry of every other peer, and every
other member of the agent, is unchanged. Here `+` is the addition of `ns3::Time`
(`TimeAdd`), as in the code. -/
theorem C5_IsHostContactedRecently (st : RoutingProtocol) (now : Int) (P : Nat) :
    (HostContactFind st.m_hostContactTime P = none →
        IsHostContactedRecently st now P =
            (false, { st with m_hostContactTime := st.m_hostContactTime ++ [(P, now)] })
          ∧ HostContactFind (IsHostContactedRecently st now P).2.m_hostContactTime P = some now)
      ∧ (∀ t : Int, HostContactFind st.m_hostContactTime P = some t →
          now < TimeAdd t st.m_hostRecentPeriod →
          IsHostContactedRecently st now P = (true, st))
      ∧ (∀ t : Int, HostContactFind st.m_hostContactTime P = some t →
          ¬ now < TimeAdd t st.m_hostRecentPeriod →
          (IsHostContactedRecently st now P).1 = false
            ∧ HostContactFind (IsHostContactedRecently st now P).2.m_hostContactTime P
                = some now)
      ∧ (∀ Q : Nat, Q ≠ P →
          HostContactFind (IsHostContactedRecently st now P).2.m_hostContactTime Q
            = HostContactFind st.m_hostContactTime Q)
      ∧ { (IsHostContactedRecently st now P).2 with
            m_hostContactTime := st.m_hostContactTime } = st :=
  IsHostContactedRecently_cases st now P


/-- C5 at an agent with an empty contact map, peer 2, time 5: the pair (2, 5) is
inserted and false is returned. -/
theorem C5_IsHostContactedRecently_witness :
    IsHostContactedRecently
        (RoutingProtocol.mk 1 64 64 100 1 10 100 0 [] (PacketQueue.mk [] 64) []) 5 2 =
      (false, RoutingProtocol.mk 1 64 64 100 1 10 100 0 [] (PacketQueue.mk [] 64) [(2, 5)]) :=
  ((C5_IsHostContactedRecently
      (RoutingProtocol.mk 1 64 64 100 1 10 100 0 [] (PacketQueue.mk [] 64) []) 5 2).1 rfl).1

theorem IsHostContactedRecently_queue (st : RoutingProtocol) (q : PacketQueue) (now : Int)
    (P : Nat) :
    IsHostContactedRecently { st with m_queue := q } now P =
      ((IsHostContactedRecently st now P).1,
       { (IsHostContactedRecently st now P).2 with m_queue := q }) := by
  unfold IsHostContactedRecently
  cases h : HostContactFind st.m_hostContactTime P with
  | none => simp
  | some t =>
    by_cases hlt : now < TimeAdd t st.m_hostRecentPeriod
    · simp [hlt]
    · simp [hlt]

theorem IsHostContactedRecently_fields (st : RoutingProtocol) (now : Int) (P : Nat) :
    (IsHostContactedRecently st now P).2.m_queue = st.m_queue
      ∧ (IsHostContactedRecently st now P).2.m_mainAddress = st.m_mainAddress
      ∧ (IsHostContactedRecently st now P).2.m_hostRecentPeriod = st.m_hostRecentPeriod := by
  unfold IsHostContactedRecently
  cases h : HostContactFind st.m_hostContactTime P with
  | none => simp
  | some t =>
    by_cases hlt : now < TimeAdd t st.m_hostRecentPeriod
    · simp [hlt]
    · simp [hlt]

/-- The calls `SendSummaryVector` makes: one `SendPacket` of the type byte followed by the
encoded summary vector of the buffer, tagged CONTROL, to `dest` on the epidemic port. -/
theorem SendSummaryVector_snd (st : RoutingProtocol) (now : Int) (dest : Nat)
    (firstNode : Bool) :
    (SendSummaryVector st now dest firstNode).2 =
      [Action.SendPacket
        ⟨(if firstNode then MessageType.REPLY else MessageType.REPLY_BACK).toU8 ::
            (st.m_queue.GetSummaryVector now).2.Serialize, some TagType.CONTROL⟩
        dest EPIDEMIC_PORT] := by
  cases firstNode <;>
    simp [SendSummaryVector, Packet.AddHeader, Packet.Create, Packet.AddPacketTag,
      TypeHeader.Serialize, TypeHeader.SetMessageType, TypeHeader.new]

theorem SendSummaryVector_fst (st : RoutingProtocol) (now : Int) (dest : Nat)
    (firstNode : Bool) :
    (SendSummaryVector st now dest firstNode).1 =
      { st with m_queue := st.m_queue.DropExpiredPackets now } := by
  simp [SendSummaryVector, PacketQueue.GetSummaryVector]

theorem GetSummaryVector_DropExpiredPackets (q : PacketQueue) (now : Int) :
    ((q.DropExpiredPackets now).GetSummaryVector now).2 = (q.GetSummaryVector now).2 := by
  simp [PacketQueue.GetSummaryVector, PacketQueue.DropExpiredPackets_idem]

/-- The handler on a datagram whose first byte is neither 1 nor 2: the BEACON branch. -/
theorem RecvEpidemic_beacon (st : RoutingProtocol) (now : Int) (b : Nat) (rest : List Nat)
    (tag : Option TagType) (P : Nat) (hb1 : b ≠ 1) (hb2 : b ≠ 2) :
    RecvEpidemic st now ⟨b :: rest, tag⟩ P =
      some (if st.m_mainAddress < P then
              if (IsHostContactedRecently st now P).1 then
                ({ (IsHostContactedRecently st now P).2 with
                    m_queue := st.m_queue.DropExpiredPackets now }, [])
              else
                ({ (IsHostContactedRecently st now P).2 with
                    m_queue := st.m_queue.DropExpiredPackets now },
                 [Action.SendPacket
                    ⟨MessageType.REPLY.toU8 :: (st.m_queue.GetSummaryVector now).2.Serialize,
                      some TagType.CONTROL⟩ P EPIDEMIC_PORT])
            else ({ st with m_queue := st.m_queue.DropExpiredPackets now }, [])) := by
  unfold RecvEpidemic
  simp only [Packet.RemoveTypeHeader_cons, hb1, hb2, if_false, TypeHeader.GetMessageType,
    if_true]
  by_cases hlt : st.m_mainAddress < P
  · simp only [hlt, if_true, IsHostContactedRecently_queue]
    cases hr : (IsHostContactedRecently st now P).1
    · have h1 := SendSummaryVector_snd
        { (IsHostContactedRecently st now P).2 with
            m_queue := st.m_queue.DropExpiredPackets now } now P true
      have h2 := SendSummaryVector_fst
        { (IsHostContactedRecently st now P).2 with
            m_queue := st.m_queue.DropExpiredPackets now } now P true
      simp only [GetSummaryVector_DropExpiredPackets, PacketQueue.DropExpiredPackets_idem,
        if_true] at h1 h2
      simp only [Bool.not_false, if_true, Bool.false_eq_true, if_false, Option.some.injEq]
      exact Prod.ext h2 h1
    · simp
  · simp [hlt]

theorem IsHostContactedRecently_sockets (st : RoutingProtocol) (now : Int) (P : Nat) :
    (IsHostContactedRecently st now P).2.m_socketAddresses = st.m_socketAddresses := by
  unfold IsHostContactedRecently
  cases h : HostContactFind st.m_hostContactTime P with
  | none => simp
  | some t =>
    by_cases hlt : now < TimeAdd t st.m_hostRecentPeriod
    · simp [hlt]
    · simp [hlt]

/-- The datagrams of one `SendPacket` call: one for each socket bound to the main
address. -/
theorem SentDatagrams_SendPacket (st : RoutingProtocol) (p : Packet) (dest port : Nat) :
    SentDatagrams st [Action.SendPacket p dest port] =
      (st.m_socketAddresses.filter (fun j => j.2.m_local == st.m_mainAddress)).map
        (fun j => (j.1, p, dest, port)) := by
  simp only [SentDatagrams, SendPacket, List.append_nil]

theorem SentDatagrams_append (st : RoutingProtocol) (l1 l2 : List Action) :
    SentDatagrams st (l1 ++ l2) = SentDatagrams st l1 ++ SentDatagrams st l2 := by
  induction l1 with
  | nil => rfl
  | cons a l ih => cases a <;> simp [SentDatagrams, ih]

/-- The datagrams depend on the agent only through its sockets and its main address. -/
theorem SentDatagrams_congr (st st1 : RoutingProtocol) (acts : List Action)
    (hs : st1.m_socketAddresses = st.m_socketAddresses)
    (hm : st1.m_mainAddress = st.m_mainAddress) :
    SentDatagrams st1 acts = SentDatagrams st acts := by
  induction acts with
  | nil => rfl
  | cons a l ih => cases a <;> simp [SentDatagrams, SendPacket, BroadcastPacket, ih, hs, hm]

/-- The scheduled sends of `SendDisjointPackets` hand nothing to the sockets of the
agent. -/
theorem SentDatagrams_SendDisjointPacketsLoop (st st1 : RoutingProtocol) (dest : Nat)
    (l : List Nat) : SentDatagrams st1 (SendDisjointPacketsLoop st dest l) = [] := by
  induction l with
  | nil => rfl
  | cons i l ih =>
    simp only [SendDisjointPacketsLoop]
    split
    · simp only [SentDatagrams, ih]
    · exact ih

/-- C4 (amended): for every agent state and every datagram whose TypeHeader byte is BEACON
(0), received from sender P at time `now`. If the agent's main address is numerically less
than P and `IsHostContactedRecently (P)` returns false, `RecvEpidemic` makes exactly one
call, `SendPacket` of a REPLY (type byte 1) followed by the encoded local summary vector,
to P on the epidemic port, and `SendPacket` hands that packet to every socket bound to the
main address: one unicast datagram when exactly one socket is bound to it. Otherwise no
call is made and no datagram is sent. Consequently an agent B whose main address is greater
than P answers a beacon from P with nothing. -/
theorem C4_beacon_reply (st : RoutingProtocol) (now : Int) (rest : List Nat)
    (tag : Option TagType) (P : Nat) :
    (∃ st1 acts, RecvEpidemic st now ⟨MessageType.BEACON.toU8 :: rest, tag⟩ P =
          some (st1, acts)
        ∧ acts =
          (if st.m_mainAddress < P ∧ (IsHostContactedRecently st now P).1 = false then
            [Action.SendPacket
              ⟨MessageType.REPLY.toU8 :: (st.m_queue.GetSummaryVector now).2.Serialize,
                some TagType.CONTROL⟩ P EPIDEMIC_PORT]
          else [])
        ∧ SentDatagrams st1 acts =
          (if st.m_mainAddress < P ∧ (IsHostContactedRecently st now P).1 = false then
            (st.m_socketAddresses.filter (fun j => j.2.m_local == st.m_mainAddress)).map
              (fun j => (j.1,
                ⟨MessageType.REPLY.toU8 :: (st.m_queue.GetSummaryVector now).2.Serialize,
                  some TagType.CONTROL⟩, P, EPIDEMIC_PORT))
          else [])
        ∧ (∀ j, st.m_socketAddresses.filter (fun j => j.2.m_local == st.m_mainAddress) = [j] →
            SentDatagrams st1 acts =
              if st.m_mainAddress < P ∧ (IsHostContactedRecently st now P).1 = false then
                [(j.1,
                  ⟨MessageType.REPLY.toU8 :: (st.m_queue.GetSummaryVector now).2.Serialize,
                    some TagType.CONTROL⟩, P, EPIDEMIC_PORT)]
              else []))
      ∧ (∀ B : RoutingProtocol, P < B.m_mainAddress →
          ∃ B1, RecvEpidemic B now ⟨MessageType.BEACON.toU8 :: rest, tag⟩ P = some (B1, [])
            ∧ SentDatagrams B1 [] = []) := by
  constructor
  · have hkey : ∃ st1 acts, RecvEpidemic st now ⟨MessageType.BEACON.toU8 :: rest, tag⟩ P =
          some (st1, acts)
        ∧ st1.m_socketAddresses = st.m_socketAddresses
        ∧ st1.m_mainAddress = st.m_mainAddress
        ∧ acts =
          (if st.m_mainAddress < P ∧ (IsHostContactedRecently st now P).1 = false then
            [Action.SendPacket
              ⟨MessageType.REPLY.toU8 :: (st.m_queue.GetSummaryVector now).2.Serialize,
                some TagType.CONTROL⟩ P EPIDEMIC_PORT]
          else []) := by
      rw [RecvEpidemic_beacon st now _ rest tag P (by decide) (by decide)]
      by_cases hlt : st.m_mainAddress < P
      · cases hr : (IsHostContactedRecently st now P).1
        · simp only [hlt, if_true, true_and, Bool.false_eq_true, if_false]
          exact ⟨_, _, rfl, IsHostContactedRecently_sockets st now P,
            (IsHostContactedRecently_fields st now P).2.1, rfl⟩
        · simp only [hlt, if_true, true_and, Bool.true_eq_false, if_false]
          exact ⟨_, _, rfl, IsHostContactedRecently_sockets st now P,
            (IsHostContactedRecently_fields st now P).2.1, rfl⟩
      · simp only [hlt, if_false, false_and]
        exact ⟨_, _, rfl, rfl, rfl, rfl⟩
    obtain ⟨st1, acts, hrun, hs, hm, hacts⟩ := hkey
    have hdg : SentDatagrams st1 acts =
        (if st.m_mainAddress < P ∧ (IsHostContactedRecently st now P).1 = false then
          (st.m_socketAddresses.filter (fun j => j.2.m_local == st.m_mainAddress)).map
            (fun j => (j.1,
              ⟨MessageType.REPLY.toU8 :: (st.m_queue.GetSummaryVector now).2.Serialize,
                some TagType.CONTROL⟩, P, EPIDEMIC_PORT))
        else []) := by
      rw [SentDatagrams_congr st st1 acts hs hm, hacts]
      split
      · exact SentDatagrams_SendPacket st _ _ _
      · rfl
    refine ⟨st1, acts, hrun, hacts, hdg, ?_⟩
    intro j hj
    rw [hdg, hj]
    rfl
  · intro B hB
    rw [RecvEpidemic_beacon B now _ rest tag P (by decide) (by decide)]
    have hlt : ¬ B.m_mainAddress < P := by omega
    simp only [hlt, if_false]
    exact ⟨_, rfl, rfl⟩

/-- C4 as stated fails: an agent whose main address 1 is not the address of any of its
sockets (its only socket is on address 5) receives at time 7 a beacon from sender 2. Its
main address is less than 2 and `IsHostContactedRecently (2)` returns false, the handler
calls `SendPacket` with the REPLY, and `SendPacket` finds no socket bound to the main
address: no datagram is sent. -/
theorem C4_beacon_reply_counterexample :
    ({ exampleNode 5 64 [] with m_mainAddress := 1 } : RoutingProtocol).m_mainAddress < 2
      ∧ (IsHostContactedRecently { exampleNode 5 64 [] with m_mainAddress := 1 } 7 2).1 = false
      ∧ (RecvEpidemic { exampleNode 5 64 [] with m_mainAddress := 1 } 7 ⟨[0], none⟩ 2).map
          (fun r => (r.2, SentDatagrams r.1 r.2))
        = some ([Action.SendPacket ⟨[1, 0, 0, 0, 0], some TagType.CONTROL⟩ 2 269], []) := by
  decide

/-- C4 (amended) at the node 1 with one socket, number 0, on its main address, for a
beacon from the node 2: one datagram, the REPLY with the empty summary vector, leaves on
that socket; and the node 2 answers the beacon of the node 1 with nothing. -/
theorem C4_beacon_reply_witness :
    (∃ st1 acts, RecvEpidemic (exampleNode 1 64 []) 5 ⟨MessageType.BEACON.toU8 :: [], none⟩ 2
          = some (st1, acts)
        ∧ SentDatagrams st1 acts = [(0, ⟨[1, 0, 0, 0, 0], some TagType.CONTROL⟩, 2, 269)])
      ∧ ∃ B1, RecvEpidemic (exampleNode 2 64 []) 5 ⟨MessageType.BEACON.toU8 :: [], none⟩ 1
          = some (B1, []) := by
  obtain ⟨⟨st1, acts, hrun, _, _, hone⟩, hB⟩ :=
    C4_beacon_reply (exampleNode 1 64 []) 5 [] none 2
  obtain ⟨⟨_, _, _, _, _, _⟩, hB2⟩ := C4_beacon_reply (exampleNode 2 64 []) 5 [] none 1
  refine ⟨⟨st1, acts, hrun, ?_⟩, ?_⟩
  · rw [hone (0, ⟨1, 4294967040, 255⟩) (by decide)]
    decide
  · obtain ⟨B1, hB1, _⟩ := hB2 (exampleNode 2 64 []) (by decide)
    exact ⟨B1, hB1⟩


/-! ### C6: the `hostRecentPeriod` damper over a run of beacons -/

theorem TimeAdd_eq (a b : Int) (h1 : -(2 : Int) ^ 63 ≤ a + b) (h2 : a + b < 2 ^ 63) :
    TimeAdd a b = a + b := by
  unfold TimeAdd wrapInt64
  omega

theorem TimeAdd_comm (a b : Int) : TimeAdd a b = TimeAdd b a := by
  unfold TimeAdd; rw [add_comm]

/-- One beacon from P handled at time `now`: the handler returns; it makes no call and
leaves the contact map alone, or it makes the one REPLY call, stores `now` for P, and the
time stored before, if any, was not recent. -/
theorem RecvEpidemic_beacon_step (st : RoutingProtocol) (now : Int) (pkt : Packet) (P : Nat)
    (hb : pkt.bytes.head? = some MessageType.BEACON.toU8) :
    ∃ st1 acts, RecvEpidemic st now pkt P = some (st1, acts)
      ∧ st1.m_mainAddress = st.m_mainAddress
      ∧ st1.m_hostRecentPeriod = st.m_hostRecentPeriod
      ∧ acts.length ≤ 1
      ∧ (acts = [] → st1.m_hostContactTime = st.m_hostContactTime)
      ∧ (acts ≠ [] → HostContactFind st1.m_hostContactTime P = some now
          ∧ ∀ s, HostContactFind st.m_hostContactTime P = some s →
              ¬ now < TimeAdd s st.m_hostRecentPeriod) := by
  obtain ⟨bytes, tag⟩ := pkt
  cases bytes with
  | nil => simp at hb
  | cons b rest =>
    simp only [List.head?_cons, Option.some.injEq] at hb
    subst hb
    rw [RecvEpidemic_beacon st now _ rest tag P (by decide) (by decide)]
    have hf := IsHostContactedRecently_fields st now P
    have hc := IsHostContactedRecently_cases st now P
    by_cases hlt : st.m_mainAddress < P
    · cases hr : (IsHostContactedRecently st now P).1
      · simp only [hlt, if_true, Bool.false_eq_true, if_false]
        refine ⟨_, _, rfl, ?_, ?_, by simp, by simp, ?_⟩
        · exact hf.2.1
        · exact hf.2.2
        · intro _
          cases hfind : HostContactFind st.m_hostContactTime P with
          | none => exact ⟨(hc.1 hfind).2, by simp⟩
          | some t =>
            have hnot : ¬ now < TimeAdd t st.m_hostRecentPeriod := by
              intro hlt2
              have := hc.2.1 t hfind hlt2
              rw [this] at hr
              simp at hr
            refine ⟨(hc.2.2.1 t hfind hnot).2, ?_⟩
            intro s hs
            simp only [Option.some.injEq] at hs
            subst hs
            exact hnot
      · simp only [hlt, if_true]
        refine ⟨_, _, rfl, ?_, ?_, by simp, ?_, by simp⟩
        · exact hf.2.1
        · exact hf.2.2
        · intro _
          cases hfind : HostContactFind st.m_hostContactTime P with
          | none =>
            have := (hc.1 hfind).1
            rw [this] at hr
            simp at hr
          | some t =>
            by_cases hlt2 : now < TimeAdd t st.m_hostRecentPeriod
            · have := hc.2.1 t hfind hlt2
              simp [this]
            · have := (hc.2.2.1 t hfind hlt2).1
              rw [this] at hr
              simp at hr
    · simp only [hlt, if_false]
      exact ⟨_, _, rfl, rfl, rfl, by simp, by simp, by simp⟩

theorem RecvEpidemicSeq_times (P : Nat) (events : List (Int × Packet)) :
    ∀ (st : RoutingProtocol) (outs : List (Int × List Action)) (stf : RoutingProtocol),
      RecvEpidemicSeq P st events = some (outs, stf) →
      outs.map (fun o => o.1) = events.map (fun ev => ev.1) := by
  induction events with
  | nil =>
    intro st outs stf h
    simp only [RecvEpidemicSeq, Option.some.injEq, Prod.mk.injEq] at h
    simp [← h.1]
  | cons ev rest ih =>
    intro st outs stf h
    obtain ⟨now, pkt⟩ := ev
    simp only [RecvEpidemicSeq] at h
    cases h1 : RecvEpidemic st now pkt P with
    | none => simp [h1] at h
    | some r1 =>
      obtain ⟨st1, acts⟩ := r1
      simp only [h1] at h
      cases h2 : RecvEpidemicSeq P st1 rest with
      | none => simp [h2] at h
      | some r2 =>
        obtain ⟨outs1, st2⟩ := r2
        simp only [h2, Option.some.injEq, Prod.mk.injEq] at h
        rw [← h.1]
        simp [ih st1 outs1 st2 h2]


/-- Once a contact time `s` is stored for P, every later beacon of a run that triggers a
call comes at least `period` after `s`. -/
theorem RecvEpidemicSeq_after (P : Nat) (period : Int) (events : List (Int × Packet)) :
    ∀ (st : RoutingProtocol) (s : Int) (outs : List (Int × List Action))
      (stf : RoutingProtocol),
      st.m_hostRecentPeriod = period →
      HostContactFind st.m_hostContactTime P = some s →
      -(2 : Int) ^ 63 ≤ s + period → s + period < 2 ^ 63 →
      (∀ ev ∈ events, ev.2.bytes.head? = some MessageType.BEACON.toU8) →
      events.Pairwise (fun a b => a.1 ≤ b.1) →
      RecvEpidemicSeq P st events = some (outs, stf) →
      ∀ o ∈ outs, o.2 ≠ [] → s + period ≤ o.1 := by
  induction events with
  | nil =>
    intro st s outs stf _ _ _ _ _ _ h
    simp only [RecvEpidemicSeq, Option.some.injEq, Prod.mk.injEq] at h
    simp [← h.1]
  | cons ev rest ih =>
    intro st s outs stf hper hfind hlo hhi hbeacon hsorted h
    obtain ⟨now, pkt⟩ := ev
    obtain ⟨st1, acts, hstep, _, hper1, _, hnil, hcons⟩ :=
      RecvEpidemic_beacon_step st now pkt P (hbeacon (now, pkt) (by simp))
    simp only [RecvEpidemicSeq, hstep] at h
    cases h2 : RecvEpidemicSeq P st1 rest with
    | none => simp [h2] at h
    | some r2 =>
      obtain ⟨outs1, st2⟩ := r2
      simp only [h2, Option.some.injEq, Prod.mk.injEq] at h
      have htimes := RecvEpidemicSeq_times P rest st1 outs1 st2 h2
      rw [List.pairwise_cons] at hsorted
      intro o ho hne
      rw [← h.1, List.mem_cons] at ho
      have hfirst : acts ≠ [] → s + period ≤ now := by
        intro hact
        have hnot := (hcons hact).2 s hfind
        rw [hper, TimeAdd_eq s period hlo hhi] at hnot
        omega
      rcases ho with ho | ho
      · subst ho
        exact hfirst hne
      · by_cases hact : acts = []
        · have hfind1 : HostContactFind st1.m_hostContactTime P = some s := by
            rw [hnil hact]; exact hfind
          exact ih st1 s outs1 st2 (hper1.trans hper) hfind1 hlo hhi
            (fun ev hev => hbeacon ev (by simp [hev])) hsorted.2 h2 o ho hne
        · have hmem : o.1 ∈ rest.map (fun ev => ev.1) := by
            rw [← htimes]; exact List.mem_map_of_mem _ ho
          obtain ⟨ev, hev, heq⟩ := List.mem_map.mp hmem
          have hle : now ≤ o.1 := by rw [← heq]; exact hsorted.1 ev hev
          have := hfirst hact
          omega

/-- The run of the handler over beacons from P: it returns, each beacon makes at most one
call, and two beacons that each make a call are at least `period` apart. -/
theorem RecvEpidemicSeq_spacing (P : Nat) (period : Int) (events : List (Int × Packet)) :
    ∀ (st : RoutingProtocol),
      st.m_hostRecentPeriod = period →
      (∀ ev ∈ events, ev.2.bytes.head? = some MessageType.BEACON.toU8) →
      events.Pairwise (fun a b => a.1 ≤ b.1) →
      (∀ ev ∈ events, -(2 : Int) ^ 63 ≤ ev.1 + period ∧ ev.1 + period < 2 ^ 63) →
      ∃ outs stf, RecvEpidemicSeq P st events = some (outs, stf)
        ∧ outs.map (fun o => o.1) = events.map (fun ev => ev.1)
        ∧ (∀ o ∈ outs, o.2.length ≤ 1)
        ∧ outs.Pairwise (fun a b => a.2 ≠ [] → b.2 ≠ [] → a.1 + period ≤ b.1) := by
  induction events with
  | nil =>
    intro st _ _ _ _
    exact ⟨[], st, rfl, rfl, by simp, List.Pairwise.nil⟩
  | cons ev rest ih =>
    intro st hper hbeacon hsorted hrange
    obtain ⟨now, pkt⟩ := ev
    obtain ⟨st1, acts, hstep, _, hper1, hlen, _, hcons⟩ :=
      RecvEpidemic_beacon_step st now pkt P (hbeacon (now, pkt) (by simp))
    rw [List.pairwise_cons] at hsorted
    obtain ⟨outs1, st2, hrun, htimes, hone, hpair⟩ :=
      ih st1 (hper1.trans hper) (fun ev hev => hbeacon ev (by simp [hev])) hsorted.2
        (fun ev hev => hrange ev (by simp [hev]))
    refine ⟨(now, acts) :: outs1, st2, by simp [RecvEpidemicSeq, hstep, hrun],
      by simp [htimes], ?_, ?_⟩
    · intro o ho
      rw [List.mem_cons] at ho
      rcases ho with ho | ho
      · subst ho; exact hlen
      · exact hone o ho
    · rw [List.pairwise_cons]
      refine ⟨?_, hpair⟩
      intro o ho hact hne
      have hr := hrange (now, pkt) (by simp)
      exact RecvEpidemicSeq_after P period rest st1 now outs1 st2 (hper1.trans hper)
        (hcons hact).1 hr.1 hr.2 (fun ev hev => hbeacon ev (by simp [hev])) hsorted.2 hrun
        o ho hne

/-- C6 (amended): for every agent state, peer P and sequence of BEACONs from P handled
at non-decreasing times, each time t with t + hostRecentPeriod inside the 64-bit range of
`ns3::Time`, so that the addition of the recency test does not wrap: the handler returns for each beacon,
each beacon triggers at most one call (the REPLY), any two beacons that each trigger a
REPLY are at least hostRecentPeriod apart, and so of two beacons less than
hostRecentPeriod apart at most one triggers a REPLY, and at most one puts a datagram on
a socket of the agent. -/
theorem C6_reply_spacing (st : RoutingProtocol) (P : Nat) (events : List (Int × Packet))
    (hbeacon : ∀ ev ∈ events, ev.2.bytes.head? = some MessageType.BEACON.toU8)
    (hsorted : events.Pairwise (fun a b => a.1 ≤ b.1))
    (hrange : ∀ ev ∈ events, -(2 : Int) ^ 63 ≤ ev.1 + st.m_hostRecentPeriod
        ∧ ev.1 + st.m_hostRecentPeriod < 2 ^ 63) :
    ∃ outs stf, RecvEpidemicSeq P st events = some (outs, stf)
      ∧ outs.map (fun o => o.1) = events.map (fun ev => ev.1)
      ∧ (∀ o ∈ outs, o.2.length ≤ 1)
      ∧ outs.Pairwise (fun a b => a.2 ≠ [] → b.2 ≠ [] → a.1 + st.m_hostRecentPeriod ≤ b.1)
      ∧ outs.Pairwise (fun a b => b.1 < a.1 + st.m_hostRecentPeriod → a.2 = [] ∨ b.2 = [])
      ∧ outs.Pairwise (fun a b => b.1 < a.1 + st.m_hostRecentPeriod →
          SentDatagrams st a.2 = [] ∨ SentDatagrams st b.2 = []) := by
  obtain ⟨outs, stf, hrun, htimes, hone, hpair⟩ :=
    RecvEpidemicSeq_spacing P st.m_hostRecentPeriod events st rfl hbeacon hsorted hrange
  have hlast : outs.Pairwise
      (fun a b => b.1 < a.1 + st.m_hostRecentPeriod → a.2 = [] ∨ b.2 = []) := by
    refine hpair.imp ?_
    intro a b hab hlt
    by_cases ha : a.2 = []
    · exact Or.inl ha
    · by_cases hb : b.2 = []
      · exact Or.inr hb
      · have := hab ha hb
        omega
  refine ⟨outs, stf, hrun, htimes, hone, hpair, hlast, ?_⟩
  refine hlast.imp ?_
  intro a b hab hlt
  rcases hab hlt with h | h
  · exact Or.inl (by rw [h]; rfl)
  · exact Or.inr (by rw [h]; rfl)


/-- C6 (amended) at an agent with address 1, one socket on it and hostRecentPeriod 10 s,
for two beacons from peer 2 at 0 s and 5 s. -/
theorem C6_reply_spacing_witness :
    ∃ outs stf,
      RecvEpidemicSeq 2
          (RoutingProtocol.mk 1 64 64 100000000000 1000000000 10000000000 100 0
            [(0, ⟨1, 4294967040, 255⟩)] (PacketQueue.mk [] 64) [])
          [(0, ⟨[0], none⟩), (5000000000, ⟨[0], none⟩)] = some (outs, stf)
        ∧ outs.map (fun o => o.1) = [0, 5000000000]
        ∧ (∀ o ∈ outs, o.2.length ≤ 1)
        ∧ outs.Pairwise (fun a b => a.2 ≠ [] → b.2 ≠ [] → a.1 + 10000000000 ≤ b.1)
        ∧ outs.Pairwise (fun a b => b.1 < a.1 + 10000000000 → a.2 = [] ∨ b.2 = [])
        ∧ outs.Pairwise (fun a b => b.1 < a.1 + 10000000000 →
            SentDatagrams
                (RoutingProtocol.mk 1 64 64 100000000000 1000000000 10000000000 100 0
                  [(0, ⟨1, 4294967040, 255⟩)] (PacketQueue.mk [] 64) []) a.2 = []
              ∨ SentDatagrams
                (RoutingProtocol.mk 1 64 64 100000000000 1000000000 10000000000 100 0
                  [(0, ⟨1, 4294967040, 255⟩)] (PacketQueue.mk [] 64) []) b.2 = []) :=
  C6_reply_spacing
    (RoutingProtocol.mk 1 64 64 100000000000 1000000000 10000000000 100 0
      [(0, ⟨1, 4294967040, 255⟩)] (PacketQueue.mk [] 64) [])
    2 [(0, ⟨[0], none⟩), (5000000000, ⟨[0], none⟩)] (by decide) (by decide) (by decide)

set_option maxRecDepth 100000 in
/-- C6 as stated fails: the node 1 (one socket on its main address) is configured with
hostRecentPeriod 2^63 - 1 ns (9223372036854775807) and handles two beacons from the node 2,
at the times 1 and 2, less than hostRecentPeriod apart. At time 2 the sum
`1 + hostRecentPeriod` of the recency test wraps to -2^63 in the 64-bit `ns3::Time`, the
contact does not count as recent, and both beacons trigger a REPLY, each sent on the
socket. -/
theorem C6_reply_spacing_counterexample :
    (RecvEpidemicSeq 2 { exampleNode 1 64 [] with m_hostRecentPeriod := 9223372036854775807 }
        [(1, ⟨[0], none⟩), (2, ⟨[0], none⟩)]).map (fun r => r.1)
      = some [(1, [Action.SendPacket ⟨[1, 0, 0, 0, 0], some TagType.CONTROL⟩ 2 269]),
              (2, [Action.SendPacket ⟨[1, 0, 0, 0, 0], some TagType.CONTROL⟩ 2 269])]
      ∧ (2 : Int) - 1
          < ({ exampleNode 1 64 [] with m_hostRecentPeriod := 9223372036854775807 } :
              RoutingProtocol).m_hostRecentPeriod
      ∧ TimeAdd 1 9223372036854775807 = -9223372036854775808
      ∧ SentDatagrams { exampleNode 1 64 [] with m_hostRecentPeriod := 9223372036854775807 }
          [Action.SendPacket ⟨[1, 0, 0, 0, 0], some TagType.CONTROL⟩ 2 269]
        = [(0, ⟨[1, 0, 0, 0, 0], some TagType.CONTROL⟩, 2, 269)] := by
  decide

/-! ### C7: REPLY and REPLY_BACK -/

theorem SendDisjointPacketsLoop_congr (st st1 : RoutingProtocol) (dest : Nat)
    (h : st.m_queue = st1.m_queue) (l : List Nat) :
    SendDisjointPacketsLoop st dest l = SendDisjointPacketsLoop st1 dest l := by
  induction l with
  | nil => rfl
  | cons i l ih => simp only [SendDisjointPacketsLoop, h, ih]

theorem SendDisjointPackets_congr (st st1 : RoutingProtocol) (SV : SummaryVectorHeader)
    (dest : Nat) (h : st.m_queue = st1.m_queue) :
    SendDisjointPackets st SV dest = SendDisjointPackets st1 SV dest := by
  unfold SendDisjointPackets
  rw [SendDisjointPacketsLoop_congr st st1 dest h, h]

theorem SendDisjointPacketsLoop_IsSendPacket (st : RoutingProtocol) (dest : Nat)
    (l : List Nat) : ∀ a ∈ SendDisjointPacketsLoop st dest l, a.IsSendPacket = false := by
  induction l with
  | nil => simp [SendDisjointPacketsLoop]
  | cons i l ih =>
    intro a ha
    simp only [SendDisjointPacketsLoop] at ha
    split at ha
    · rw [List.mem_cons] at ha
      rcases ha with ha | ha
      · subst ha; rfl
      · exact ih a ha
    · exact ih a ha

/-- The handler on a REPLY carrying the well-formed summary vector `SV`. -/
theorem RecvEpidemic_reply (st : RoutingProtocol) (now : Int) (P : Nat)
    (SV : SummaryVectorHeader) (rest : List Nat) (tag : Option TagType) (hwf : SV.WF) :
    RecvEpidemic st now ⟨MessageType.REPLY.toU8 :: (SV.Serialize ++ rest), tag⟩ P =
      some ({ st with m_queue := st.m_queue.DropExpiredPackets now },
            SendDisjointPackets { st with m_queue := st.m_queue.DropExpiredPackets now } SV P
              ++ [Action.SendPacket
                    ⟨MessageType.REPLY_BACK.toU8 ::
                        (st.m_queue.GetSummaryVector now).2.Serialize,
                      some TagType.CONTROL⟩ P EPIDEMIC_PORT]) := by
  unfold RecvEpidemic
  simp only [MessageType.toU8, Packet.RemoveTypeHeader_cons, if_true, TypeHeader.GetMessageType,
    Packet.RemoveSummaryVectorHeader_Serialize SV hwf rest tag]
  have h1 := SendSummaryVector_snd
    { st with m_queue := st.m_queue.DropExpiredPackets now } now P false
  have h2 := SendSummaryVector_fst
    { st with m_queue := st.m_queue.DropExpiredPackets now } now P false
  simp only [GetSummaryVector_DropExpiredPackets, PacketQueue.DropExpiredPackets_idem,
    Bool.false_eq_true, if_false, MessageType.toU8] at h1 h2
  simp only [reduceCtorEq, if_false, if_true, Option.some.injEq]
  exact Prod.ext h2 (by simp only [h1])

/-- The handler on a REPLY_BACK carrying the well-formed summary vector `SV`. -/
theorem RecvEpidemic_reply_back (st : RoutingProtocol) (now : Int) (P : Nat)
    (SV : SummaryVectorHeader) (rest : List Nat) (tag : Option TagType) (hwf : SV.WF) :
    RecvEpidemic st now ⟨MessageType.REPLY_BACK.toU8 :: (SV.Serialize ++ rest), tag⟩ P =
      some ({ st with m_queue := st.m_queue.DropExpiredPackets now },
            SendDisjointPackets { st with m_queue := st.m_queue.DropExpiredPackets now }
              SV P) := by
  unfold RecvEpidemic
  simp [MessageType.toU8, Packet.RemoveTypeHeader_cons, TypeHeader.GetMessageType,
    Packet.RemoveSummaryVectorHeader_Serialize SV hwf rest tag]


/-- C7 (amended): for every agent state, at time `now`, with `st1` the state after the
expired entries are dropped. On a REPLY from P carrying the summary vector SV,
`RecvEpidemic` makes the calls of `SendDisjointPackets (SV, P)` and then exactly one
`SendPacket`, to P, of a REPLY_BACK (type byte 2) followed by the encoded local summary
vector. On a REPLY_BACK from P carrying SV it makes the calls of
`SendDisjointPackets (SV, P)` only, none of which is a `SendPacket`. In both cases the
contact map is unchanged and the calls are the same whatever the contact map holds. A
BEACON leads to at most one call. `SendPacket` hands the REPLY_BACK to every socket bound
to the main address, so on a REPLY exactly one control datagram is sent when exactly one
socket is bound to the main address, and on a REPLY_BACK no datagram is sent. -/
theorem C7_reply_and_reply_back (st : RoutingProtocol) (now : Int) (P : Nat)
    (SV : SummaryVectorHeader) (rest : List Nat) (tag : Option TagType) (hwf : SV.WF) :
    RecvEpidemic st now ⟨MessageType.REPLY.toU8 :: (SV.Serialize ++ rest), tag⟩ P =
        some ({ st with m_queue := st.m_queue.DropExpiredPackets now },
              SendDisjointPackets { st with m_queue := st.m_queue.DropExpiredPackets now } SV P
                ++ [Action.SendPacket
                      ⟨MessageType.REPLY_BACK.toU8 ::
                          (st.m_queue.GetSummaryVector now).2.Serialize,
                        some TagType.CONTROL⟩ P EPIDEMIC_PORT])
      ∧ RecvEpidemic st now ⟨MessageType.REPLY_BACK.toU8 :: (SV.Serialize ++ rest), tag⟩ P =
        some ({ st with m_queue := st.m_queue.DropExpiredPackets now },
              SendDisjointPackets { st with m_queue := st.m_queue.DropExpiredPackets now } SV P)
      ∧ (∀ a ∈ SendDisjointPackets { st with m_queue := st.m_queue.DropExpiredPackets now } SV P,
          a.IsSendPacket = false)
      ∧ ({ st with m_queue := st.m_queue.DropExpiredPackets now } : RoutingProtocol).m_hostContactTime
          = st.m_hostContactTime
      ∧ (∀ m : List (Nat × Int),
          (RecvEpidemic { st with m_hostContactTime := m } now
              ⟨MessageType.REPLY.toU8 :: (SV.Serialize ++ rest), tag⟩ P).map (fun r => r.2)
            = (RecvEpidemic st now
                ⟨MessageType.REPLY.toU8 :: (SV.Serialize ++ rest), tag⟩ P).map (fun r => r.2)
          ∧ (RecvEpidemic { st with m_hostContactTime := m } now
              ⟨MessageType.REPLY_BACK.toU8 :: (SV.Serialize ++ rest), tag⟩ P).map (fun r => r.2)
            = (RecvEpidemic st now
                ⟨MessageType.REPLY_BACK.toU8 :: (SV.Serialize ++ rest), tag⟩ P).map
                  (fun r => r.2))
      ∧ (∀ (rest1 : List Nat) (tag1 : Option TagType),
          ∃ st2 acts, RecvEpidemic st now ⟨MessageType.BEACON.toU8 :: rest1, tag1⟩ P =
            some (st2, acts) ∧ acts.length ≤ 1)
      ∧ SentDatagrams { st with m_queue := st.m_queue.DropExpiredPackets now }
          (SendDisjointPackets { st with m_queue := st.m_queue.DropExpiredPackets now } SV P
            ++ [Action.SendPacket
                  ⟨MessageType.REPLY_BACK.toU8 ::
                      (st.m_queue.GetSummaryVector now).2.Serialize,
                    some TagType.CONTROL⟩ P EPIDEMIC_PORT])
        = (st.m_socketAddresses.filter (fun j => j.2.m_local == st.m_mainAddress)).map
            (fun j => (j.1,
              ⟨MessageType.REPLY_BACK.toU8 :: (st.m_queue.GetSummaryVector now).2.Serialize,
                some TagType.CONTROL⟩, P, EPIDEMIC_PORT))
      ∧ (∀ j, st.m_socketAddresses.filter (fun j => j.2.m_local == st.m_mainAddress) = [j] →
          SentDatagrams { st with m_queue := st.m_queue.DropExpiredPackets now }
            (SendDisjointPackets { st with m_queue := st.m_queue.DropExpiredPackets now } SV P
              ++ [Action.SendPacket
                    ⟨MessageType.REPLY_BACK.toU8 ::
                        (st.m_queue.GetSummaryVector now).2.Serialize,
                      some TagType.CONTROL⟩ P EPIDEMIC_PORT])
          = [(j.1,
              ⟨MessageType.REPLY_BACK.toU8 :: (st.m_queue.GetSummaryVector now).2.Serialize,
                some TagType.CONTROL⟩, P, EPIDEMIC_PORT)])
      ∧ SentDatagrams { st with m_queue := st.m_queue.DropExpiredPackets now }
          (SendDisjointPackets { st with m_queue := st.m_queue.DropExpiredPackets now } SV P)
        = [] := by
  have hdj : SentDatagrams { st with m_queue := st.m_queue.DropExpiredPackets now }
      (SendDisjointPackets { st with m_queue := st.m_queue.DropExpiredPackets now } SV P)
      = [] := SentDatagrams_SendDisjointPacketsLoop _ _ P _
  have hdg : SentDatagrams { st with m_queue := st.m_queue.DropExpiredPackets now }
      (SendDisjointPackets { st with m_queue := st.m_queue.DropExpiredPackets now } SV P
        ++ [Action.SendPacket
              ⟨MessageType.REPLY_BACK.toU8 ::
                  (st.m_queue.GetSummaryVector now).2.Serialize,
                some TagType.CONTROL⟩ P EPIDEMIC_PORT])
      = (st.m_socketAddresses.filter (fun j => j.2.m_local == st.m_mainAddress)).map
          (fun j => (j.1,
            ⟨MessageType.REPLY_BACK.toU8 :: (st.m_queue.GetSummaryVector now).2.Serialize,
              some TagType.CONTROL⟩, P, EPIDEMIC_PORT)) := by
    rw [SentDatagrams_append, hdj, List.nil_append]
    exact (SentDatagrams_congr st { st with m_queue := st.m_queue.DropExpiredPackets now } _
      rfl rfl).trans (SentDatagrams_SendPacket st _ _ _)
  refine ⟨RecvEpidemic_reply st now P SV rest tag hwf,
    RecvEpidemic_reply_back st now P SV rest tag hwf, ?_, rfl, ?_, ?_, hdg,
    fun j hj => by rw [hdg, hj]; rfl, hdj⟩
  · intro a ha
    exact SendDisjointPacketsLoop_IsSendPacket _ P _ a ha
  · intro m
    rw [RecvEpidemic_reply st now P SV rest tag hwf,
      RecvEpidemic_reply_back st now P SV rest tag hwf,
      RecvEpidemic_reply _ now P SV rest tag hwf,
      RecvEpidemic_reply_back _ now P SV rest tag hwf]
    simp only [Option.map_some']
    have hq : SendDisjointPackets
        { ({ st with m_hostContactTime := m } : RoutingProtocol) with
            m_queue := st.m_queue.DropExpiredPackets now } SV P
        = SendDisjointPackets { st with m_queue := st.m_queue.DropExpiredPackets now } SV P :=
      SendDisjointPackets_congr _ _ SV P rfl
    exact ⟨by rw [hq], by rw [hq]⟩
  · intro rest1 tag1
    obtain ⟨st2, acts, hrun, _, _, hlen, _, _⟩ :=
      RecvEpidemic_beacon_step st now ⟨MessageType.BEACON.toU8 :: rest1, tag1⟩ P rfl
    exact ⟨st2, acts, hrun, hlen⟩

/-- C7 as stated fails: an agent whose main address 1 is not the address of any of its
sockets (its only socket is on address 5) receives a REPLY from the node 2 carrying the
summary vector [7]. The handler calls `SendPacket` with the REPLY_BACK, and `SendPacket`
finds no socket bound to the main address: no control message is sent. -/
theorem C7_reply_and_reply_back_counterexample :
    (RecvEpidemic { exampleNode 5 64 [] with m_mainAddress := 1 } 5
        ⟨MessageType.REPLY.toU8 :: (SummaryVectorHeader.Serialize ⟨[7]⟩ ++ []), none⟩ 2).map
        (fun r => (r.2, SentDatagrams r.1 r.2))
      = some ([Action.SendPacket ⟨[2, 0, 0, 0, 0], some TagType.CONTROL⟩ 2 269], []) := by
  decide

/-- C7 (amended) at the node 1 with one socket, number 0, on its main address and an empty
buffer, for a REPLY from the node 2 carrying the summary vector [7]: the one call is the
REPLY_BACK with the empty local summary vector, and it leaves as one datagram on that
socket. -/
theorem C7_reply_and_reply_back_witness :
    RecvEpidemic (exampleNode 1 64 []) 5
        ⟨MessageType.REPLY.toU8 :: (SummaryVectorHeader.Serialize ⟨[7]⟩ ++ []), none⟩ 2 =
      some (exampleNode 1 64 [],
            [Action.SendPacket ⟨[2, 0, 0, 0, 0], some TagType.CONTROL⟩ 2 269])
      ∧ SentDatagrams (exampleNode 1 64 [])
          [Action.SendPacket ⟨[2, 0, 0, 0, 0], some TagType.CONTROL⟩ 2 269]
        = [(0, ⟨[2, 0, 0, 0, 0], some TagType.CONTROL⟩, 2, 269)] :=
  ⟨(C7_reply_and_reply_back (exampleNode 1 64 []) 5 2 ⟨[7]⟩ [] none
      ⟨by decide, by decide⟩).1,
   (C7_reply_and_reply_back (exampleNode 1 64 []) 5 2 ⟨[7]⟩ [] none
      ⟨by decide, by decide⟩).2.2.2.2.2.2.2.1 (0, ⟨1, 4294967040, 255⟩) (by decide)⟩

/-! ### C8: a datagram with an unknown TypeHeader byte -/

/-- C8 (the code at the failing input): an agent with main address 1, an empty buffer and
an empty contact map receives at time 5 from sender 2 a datagram whose only byte is 0xFF.
`TypeHeader::Deserialize` clears `m_valid` and leaves `m_type` at BEACON, the handler takes
the BEACON branch: it records the contact (2, 5) and sends a REPLY with its summary vector
to 2. -/
theorem C8_unknown_type_handled_as_beacon :
    (Packet.RemoveTypeHeader ⟨[255], none⟩ (TypeHeader.new MessageType.BEACON)).map
        (fun r => r.1) = some ⟨MessageType.BEACON, false⟩
      ∧ RecvEpidemic (RoutingProtocol.mk 1 64 64 100 1 10 100 0 [] (PacketQueue.mk [] 64) []) 5
          ⟨[255], none⟩ 2 =
        some (RoutingProtocol.mk 1 64 64 100 1 10 100 0 [] (PacketQueue.mk [] 64) [(2, 5)],
              [Action.SendPacket ⟨[1, 0, 0, 0, 0], some TagType.CONTROL⟩ 2 269]) := by
  decide


/-! ## C10: `RouteInput`, forward path, packet in transit -/

theorem EpidemicHeader.Serialize_length (h : EpidemicHeader) : h.Serialize.length = 16 := by
  simp [EpidemicHeader.Serialize, WriteHtonU32, WriteHtonU64]

theorem Packet.RemoveEpidemicHeader_Serialize (h : EpidemicHeader) (hwf : h.WF)
    (payload : List Nat) (tag : Option TagType) :
    Packet.RemoveEpidemicHeader ⟨h.Serialize ++ payload, tag⟩ = some (h, ⟨payload, tag⟩) := by
  unfold Packet.RemoveEpidemicHeader
  have hdrop : List.drop 16 (h.Serialize ++ payload) = payload := by
    rw [← EpidemicHeader.Serialize_length h]; exact List.drop_left _ _
  simp only [EpidemicHeader_Deserialize_Serialize h hwf payload, hdrop]

theorem Packet.PeekEpidemicHeader_Serialize (h : EpidemicHeader) (hwf : h.WF)
    (payload : List Nat) (tag : Option TagType) :
    Packet.PeekEpidemicHeader ⟨h.Serialize ++ payload, tag⟩ = some h := by
  unfold Packet.PeekEpidemicHeader
  simp only [EpidemicHeader_Deserialize_Serialize h hwf payload]

/-- `RouteInput` when no reject test fires and no socket matches for local delivery: the
forward path. -/
theorem RouteInput_forward (st : RoutingProtocol) (ipv4 : Ipv4) (now : Int) (p : Packet)
    (header : Ipv4Header) (idev : Nat)
    (hsock : st.m_socketAddresses.isEmpty = false)
    (httl : ¬ header.m_ttl < 1)
    (hproto : header.m_protocol ≠ 1)
    (hfwd : st.m_socketAddresses.any
        (RouteInputIsLocal st ipv4 header (ipv4.GetInterfaceForDevice idev)) = false) :
    RouteInput st ipv4 now p header idev = RouteInputForward st now p header := by
  unfold RouteInput
  simp [hsock, httl, hproto, hfwd]

/-- The forward path for a packet in transit that starts with the data header `h`. -/
theorem RouteInputForward_transit (st : RoutingProtocol) (now : Int) (payload : List Nat)
    (tag : Option TagType) (header : Ipv4Header) (h : EpidemicHeader)
    (htransit : IsMyOwnAddress st header.m_source = false) (hwf : h.WF) :
    RouteInputForward st now ⟨h.Serialize ++ payload, tag⟩ header =
      if h.m_hopCount ≤ 1 ∨ TimeAdd h.m_timeStamp st.m_queueEntryExpireTime < now then
        some (true, { st with m_dataPacketCounter := (st.m_dataPacketCounter + 1) % 2 ^ 16 }, [])
      else
        some (true,
          { st with
              m_dataPacketCounter := (st.m_dataPacketCounter + 1) % 2 ^ 16,
              m_queue := st.m_queue.Enqueue
                { m_packet := some ⟨({ h with m_hopCount := h.m_hopCount - 1 } :
                      EpidemicHeader).Serialize ++ payload, tag⟩,
                  m_header := header,
                  m_expire := TimeAdd h.m_timeStamp st.m_queueEntryExpireTime,
                  m_packetID := h.m_packetID } }, []) := by
  have hown : IsMyOwnAddress
      { st with m_dataPacketCounter := (st.m_dataPacketCounter + 1) % 2 ^ 16 }
      header.m_source = false := htransit
  unfold RouteInputForward
  simp only [hown, Bool.false_eq_true, if_false,
    Packet.RemoveEpidemicHeader_Serialize h hwf payload tag]
  by_cases hdrop : h.m_hopCount ≤ 1 ∨ TimeAdd h.m_timeStamp st.m_queueEntryExpireTime < now
  · simp only [hdrop, if_true]
  · simp only [hdrop, if_false]
    have hhop : (h.m_hopCount + 2 ^ 32 - 1) % 2 ^ 32 = h.m_hopCount - 1 := by
      have h1 := hwf.2.1
      have h2 : 1 < h.m_hopCount := by
        by_contra hc; exact hdrop (Or.inl (by omega))
      omega
    simp only [hhop, Packet.AddHeader, TimeAdd_comm st.m_queueEntryExpireTime]

/-- C10: for every packet that reaches the forward path of `RouteInput` (the agent has a
socket, TTL at least 1, not ICMP, no socket matches for local delivery), whose IP source is
not an address of the node, and that starts with the data header h. If `h.hopCount ≤ 1` or
`h.timestamp + queueEntryExpireTime < now`, `RouteInput` returns true, invokes no callback
and leaves the buffer unchanged. Otherwise it returns true and calls `Enqueue` once, with an
entry whose packetId is `h.packetId`, whose expireTime is
`h.timestamp + queueEntryExpireTime`, and whose packet starts with the data header of the
same packetId and timestamp and of hopCount `h.hopCount - 1`, which is at least 1. Here `+`
is the addition of `ns3::Time` (`TimeAdd`), as in the code. -/
theorem C10_RouteInput_transit (st : RoutingProtocol) (ipv4 : Ipv4) (now : Int)
    (payload : List Nat) (tag : Option TagType) (header : Ipv4Header) (idev : Nat)
    (h : EpidemicHeader)
    (hsock : st.m_socketAddresses.isEmpty = false)
    (httl : ¬ header.m_ttl < 1)
    (hproto : header.m_protocol ≠ 1)
    (hfwd : st.m_socketAddresses.any
        (RouteInputIsLocal st ipv4 header (ipv4.GetInterfaceForDevice idev)) = false)
    (htransit : IsMyOwnAddress st header.m_source = false)
    (hwf : h.WF) :
    (h.m_hopCount ≤ 1 ∨ TimeAdd h.m_timeStamp st.m_queueEntryExpireTime < now →
        RouteInput st ipv4 now ⟨h.Serialize ++ payload, tag⟩ header idev =
          some (true,
            { st with m_dataPacketCounter := (st.m_dataPacketCounter + 1) % 2 ^ 16 }, []))
      ∧ (¬ (h.m_hopCount ≤ 1 ∨ TimeAdd h.m_timeStamp st.m_queueEntryExpireTime < now) →
          RouteInput st ipv4 now ⟨h.Serialize ++ payload, tag⟩ header idev =
            some (true,
              { st with
                  m_dataPacketCounter := (st.m_dataPacketCounter + 1) % 2 ^ 16,
                  m_queue := st.m_queue.Enqueue
                    { m_packet := some ⟨({ h with m_hopCount := h.m_hopCount - 1 } :
                          EpidemicHeader).Serialize ++ payload, tag⟩,
                      m_header := header,
                      m_expire := TimeAdd h.m_timeStamp st.m_queueEntryExpireTime,
                      m_packetID := h.m_packetID } }, [])
            ∧ Packet.PeekEpidemicHeader
                ⟨({ h with m_hopCount := h.m_hopCount - 1 } : EpidemicHeader).Serialize
                  ++ payload, tag⟩
              = some { m_packetID := h.m_packetID, m_hopCount := h.m_hopCount - 1,
                       m_timeStamp := h.m_timeStamp }
            ∧ 1 ≤ h.m_hopCount - 1) := by
  rw [RouteInput_forward st ipv4 now _ header idev hsock httl hproto hfwd,
    RouteInputForward_transit st now payload tag header h htransit hwf]
  refine ⟨fun hdrop => by simp only [hdrop, if_true], fun hkeep => ?_⟩
  refine ⟨by simp only [hkeep, if_false], ?_, ?_⟩
  · have hwf1 : ({ h with m_hopCount := h.m_hopCount - 1 } : EpidemicHeader).WF := by
      obtain ⟨h1, h2, h3, h4⟩ := hwf
      exact ⟨h1, by simp only; omega, h3, h4⟩
    exact Packet.PeekEpidemicHeader_Serialize _ hwf1 payload tag
  · by_contra hc
    exact hkeep (Or.inl (by omega))


/-- C10 at an agent with address 1 and one socket, for a packet from source 3 to
destination 9 carrying the data header (id 196609, hopCount 64, timestamp 0) and one
payload byte, at time 5 with queueEntryExpireTime 100: the entry is enqueued with
hopCount 63. -/
theorem C10_RouteInput_transit_witness :
    RouteInput
        (RoutingProtocol.mk 1 64 64 100 1 10 100 0 [(0, ⟨1, 4294967040, 255⟩)]
          (PacketQueue.mk [] 64) [])
        ⟨fun _ => 1, fun _ => 1, fun _ => 0⟩ 5
        ⟨EpidemicHeader.Serialize ⟨196609, 64, 0⟩ ++ [42], none⟩ ⟨3, 9, 64, 17, 17⟩ 0 =
      some (true,
        RoutingProtocol.mk 1 64 64 100 1 10 100 1 [(0, ⟨1, 4294967040, 255⟩)]
          (PacketQueue.mk
            [⟨some ⟨EpidemicHeader.Serialize ⟨196609, 63, 0⟩ ++ [42], none⟩,
              ⟨3, 9, 64, 17, 17⟩, 100, 196609⟩] 64) [], []) :=
  ((C10_RouteInput_transit
      (RoutingProtocol.mk 1 64 64 100 1 10 100 0 [(0, ⟨1, 4294967040, 255⟩)]
        (PacketQueue.mk [] 64) [])
      ⟨fun _ => 1, fun _ => 1, fun _ => 0⟩ 5 [42] none ⟨3, 9, 64, 17, 17⟩ 0 ⟨196609, 64, 0⟩
      (by decide) (by decide) (by decide) (by decide) (by decide) (by decide)).2
    (by decide)).1


/-! ## C9: one anti-entropy cycle -/

theorem PacketQueue.Find_mem (q : PacketQueue) (id : Nat) (h : id ∈ q.ids) :
    q.Find id ∈ q.m_queue ∧ (q.Find id).m_packetID = id := by
  unfold PacketQueue.Find
  cases hf : q.m_queue.find? (fun e => e.m_packetID == id) with
  | none =>
    rw [List.find?_eq_none] at hf
    simp only [PacketQueue.ids, List.mem_map] at h
    obtain ⟨e, he, hid⟩ := h
    exact absurd (by simpa using hid) (hf e he)
  | some e =>
    have h1 := List.find?_some hf
    have h2 := List.mem_of_find?_eq_some hf
    exact ⟨h2, by simpa using h1⟩

theorem RouteInputIsLocal_congr (R peer : RoutingProtocol) (ipv4 : Ipv4)
    (header header1 : Ipv4Header) (iif : Int) (hm : R.m_mainAddress = peer.m_mainAddress)
    (hd : header.m_destination = header1.m_destination) :
    RouteInputIsLocal R ipv4 header iif = RouteInputIsLocal peer ipv4 header1 iif := by
  funext j
  simp only [RouteInputIsLocal, hm, hd]

/-- The local-delivery body on a data packet that starts with the data header `h`: the
entry is enqueued under the id of `h` unless `Find` returns an entry with a nonzero id. -/
theorem RouteInputLocalDeliver_data (R : RoutingProtocol) (header : Ipv4Header) (iif : Int)
    (h : EpidemicHeader) (hwf : h.WF) (payload : List Nat) (tag : Option TagType)
    (htag : tag ≠ some TagType.CONTROL) :
    RouteInputLocalDeliver R ⟨h.Serialize ++ payload, tag⟩ header iif =
      if (R.m_queue.Find h.m_packetID).GetPacketID = 0 then
        some (true,
          { R with
              m_queue := R.m_queue.Enqueue
                { m_packet := some ⟨h.Serialize ++ payload, tag⟩, m_header := header,
                  m_expire := TimeAdd R.m_queueEntryExpireTime h.m_timeStamp,
                  m_packetID := h.m_packetID } },
          [Action.lcb ⟨payload, none⟩ header iif])
      else some (true, R, []) := by
  have hpeek : Packet.PeekPacketTag ⟨h.Serialize ++ payload, tag⟩ TagType.NOT_SET
      = TagType.NOT_SET := by
    cases tag with
    | none => rfl
    | some t =>
      cases t with
      | CONTROL => exact absurd rfl htag
      | NOT_SET => rfl
  unfold RouteInputLocalDeliver
  simp only [hpeek, if_true, Packet.PeekEpidemicHeader_Serialize h hwf payload tag,
    Packet.RemoveEpidemicHeader_Serialize h hwf payload tag, Packet.RemovePacketTag]

/-- The global packet id: the low 16 bits of the source address shifted left by 16, or-ed
with the counter, is their sum. -/
theorem global_packet_ID_eq (src c : Nat) (hc : c < 2 ^ 16) :
    ((src % 2 ^ 16) <<< 16) % 2 ^ 32 ||| c = ((src % 2 ^ 16) <<< 16) ||| c
      ∧ ((src % 2 ^ 16) <<< 16) ||| c = (src % 2 ^ 16) * 2 ^ 16 + c := by
  have hlt : src % 2 ^ 16 < 2 ^ 16 := Nat.mod_lt _ (by norm_num)
  have hsh : (src % 2 ^ 16) <<< 16 = 2 ^ 16 * (src % 2 ^ 16) := by
    rw [Nat.shiftLeft_eq, Nat.mul_comm]
  have hmod : ((src % 2 ^ 16) <<< 16) % 2 ^ 32 = (src % 2 ^ 16) <<< 16 := by
    rw [hsh]; apply Nat.mod_eq_of_lt; omega
  refine ⟨by rw [hmod], ?_⟩
  rw [hsh, ← Nat.mul_add_lt_is_or hc, Nat.mul_comm]

/-- The forward path for a packet whose IP source is an address of the node: a fresh data
header is put in front of the packet and the entry is enqueued. -/
theorem RouteInputForward_own (st : RoutingProtocol) (now : Int) (p : Packet)
    (header : Ipv4Header) (hown : IsMyOwnAddress st header.m_source = true) :
    RouteInputForward st now p header =
      some (true,
        { st with
            m_dataPacketCounter := (st.m_dataPacketCounter + 1) % 2 ^ 16,
            m_queue := st.m_queue.Enqueue
              { m_packet := some
                  ⟨EpidemicHeader.Serialize
                      ⟨((header.m_source % 2 ^ 16) <<< 16) |||
                          ((st.m_dataPacketCounter + 1) % 2 ^ 16),
                        st.m_hopCount, now⟩ ++ p.bytes, p.tag⟩,
                m_header := header,
                m_expire := TimeAdd now st.m_queueEntryExpireTime,
                m_packetID := ((header.m_source % 2 ^ 16) <<< 16) |||
                  ((st.m_dataPacketCounter + 1) % 2 ^ 16) } }, []) := by
  have hown1 : IsMyOwnAddress
      { st with m_dataPacketCounter := (st.m_dataPacketCounter + 1) % 2 ^ 16 }
      header.m_source = true := hown
  have hc : (st.m_dataPacketCounter + 1) % 2 ^ 16 < 2 ^ 16 := Nat.mod_lt _ (by norm_num)
  unfold RouteInputForward
  simp only [hown1, if_true, Packet.AddHeader,
    (global_packet_ID_eq header.m_source _ hc).1, TimeAdd_comm st.m_queueEntryExpireTime]

/-- C13: for every agent state and every input packet, if the agent has no sockets, or the
IP TTL is less than 1, or the IP protocol number is 1 (ICMP), `RouteInput` returns false,
invokes no callback and leaves the whole agent state, in particular the buffer and
`dataPacketCounter`, unchanged. -/
theorem C13_RouteInput_reject (st : RoutingProtocol) (ipv4 : Ipv4) (now : Int) (p : Packet)
    (header : Ipv4Header) (idev : Nat)
    (h : st.m_socketAddresses.isEmpty = true ∨ header.m_ttl < 1 ∨ header.m_protocol = 1) :
    RouteInput st ipv4 now p header idev = some (false, st, []) := by
  unfold RouteInput
  rcases h with h | h | h
  · simp [h]
  · by_cases h1 : st.m_socketAddresses.isEmpty = true
    · simp [h1]
    · simp [h1, h]
  · by_cases h1 : st.m_socketAddresses.isEmpty = true
    · simp [h1]
    · by_cases h2 : header.m_ttl < 1
      · simp [h1, h2]
      · simp [h1, h2, h]

/-- C13 at a node with one socket for an ICMP packet (protocol 1) with TTL 64. -/
theorem C13_RouteInput_reject_witness :
    RouteInput (exampleNode 1 64 []) exampleIpv4 5 ⟨[1, 2, 3], none⟩ ⟨3, 9, 64, 1, 3⟩ 0 =
      some (false, exampleNode 1 64 [], []) :=
  C13_RouteInput_reject (exampleNode 1 64 []) exampleIpv4 5 ⟨[1, 2, 3], none⟩ ⟨3, 9, 64, 1, 3⟩ 0
    (Or.inr (Or.inr rfl))

/-- C11 (amended): for every packet that reaches the forward path of `RouteInput` (the
agent has a socket, TTL at least 1, not ICMP, no socket matches for local delivery) with
`h.source == mainAddress`, when the main address is the address of one of the agent's
sockets (`IsMyOwnAddress`): `RouteInput` returns true, invokes no callback and calls
`Enqueue` once, with an entry whose packet is the packet received with the data header
{packetId = (low16(mainAddress) << 16) | c, hopCount = configured HopCount, timestamp = now}
put in front, where c is `dataPacketCounter` after its increment modulo 2^16, whose
packetId is that id and whose expireTime is `now + queueEntryExpireTime` (the addition of
`ns3::Time`). The id is also `low16(mainAddress) * 2^16 + c`. -/
theorem C11_RouteInput_local_origin (st : RoutingProtocol) (ipv4 : Ipv4) (now : Int)
    (p : Packet) (header : Ipv4Header) (idev : Nat)
    (hsock : st.m_socketAddresses.isEmpty = false)
    (httl : ¬ header.m_ttl < 1)
    (hproto : header.m_protocol ≠ 1)
    (hfwd : st.m_socketAddresses.any
        (RouteInputIsLocal st ipv4 header (ipv4.GetInterfaceForDevice idev)) = false)
    (hsrc : header.m_source = st.m_mainAddress)
    (hown : IsMyOwnAddress st st.m_mainAddress = true) :
    RouteInput st ipv4 now p header idev =
        some (true,
          { st with
              m_dataPacketCounter := (st.m_dataPacketCounter + 1) % 2 ^ 16,
              m_queue := st.m_queue.Enqueue
                { m_packet := some
                    ⟨EpidemicHeader.Serialize
                        ⟨((st.m_mainAddress % 2 ^ 16) <<< 16) |||
                            ((st.m_dataPacketCounter + 1) % 2 ^ 16),
                          st.m_hopCount, now⟩ ++ p.bytes, p.tag⟩,
                  m_header := header,
                  m_expire := TimeAdd now st.m_queueEntryExpireTime,
                  m_packetID := ((st.m_mainAddress % 2 ^ 16) <<< 16) |||
                    ((st.m_dataPacketCounter + 1) % 2 ^ 16) } }, [])
      ∧ ((st.m_mainAddress % 2 ^ 16) <<< 16) ||| ((st.m_dataPacketCounter + 1) % 2 ^ 16)
          = (st.m_mainAddress % 2 ^ 16) * 2 ^ 16 + (st.m_dataPacketCounter + 1) % 2 ^ 16 := by
  have hc : (st.m_dataPacketCounter + 1) % 2 ^ 16 < 2 ^ 16 := Nat.mod_lt _ (by norm_num)
  refine ⟨?_, (global_packet_ID_eq st.m_mainAddress _ hc).2⟩
  rw [RouteInput_forward st ipv4 now p header idev hsock httl hproto hfwd,
    RouteInputForward_own st now p header (by rw [hsrc]; exact hown), hsrc]

set_option maxRecDepth 100000 in
/-- C11 as stated fails: an agent whose main address 1 is not the address of any of its
sockets (its only socket is on address 5) receives on the forward path a packet with IP
source 1, seventeen zero bytes long. `IsMyOwnAddress (1)` is false, so the packet is taken
as in transit: its first 16 bytes are read as a data header with hopCount 0 and it is
dropped; `RouteInput` returns true with the buffer unchanged and no entry enqueued. -/
theorem C11_RouteInput_local_origin_counterexample :
    (⟨1, 9, 64, 17, 17⟩ : Ipv4Header).m_source
        = ({ exampleNode 5 64 [] with m_mainAddress := 1 } : RoutingProtocol).m_mainAddress
      ∧ RouteInput { exampleNode 5 64 [] with m_mainAddress := 1 } exampleIpv4 7
          ⟨[0, 0, 0, 0, 0, 0, 0, 0, 0, 0, 0, 0, 0, 0, 0, 0, 0], none⟩ ⟨1, 9, 64, 17, 17⟩ 0
        = some (true,
            { exampleNode 5 64 [] with m_mainAddress := 1, m_dataPacketCounter := 1 }, []) := by
  decide

/-- C11 (amended) at a node with address 1 and a socket on it, counter 0, HopCount 64,
for a packet of one byte from source 1 to destination 9 at time 5: the entry has the id
65537. -/
theorem C11_RouteInput_local_origin_witness :
    (RouteInput (exampleNode 1 64 []) exampleIpv4 5 ⟨[42], none⟩ ⟨1, 9, 64, 17, 1⟩ 0).map
        (fun r => (r.1, r.2.1.m_queue.ids, r.2.1.m_dataPacketCounter)) =
      some (true, [65537], 1) := by
  rw [(C11_RouteInput_local_origin (exampleNode 1 64 []) exampleIpv4 5 ⟨[42], none⟩
    ⟨1, 9, 64, 17, 1⟩ 0 (by decide) (by decide) (by decide) (by decide) (by decide)
    (by decide)).1]
  decide

theorem PacketQueue.Find_not_mem (q : PacketQueue) (id : Nat) (h : id ∉ q.ids) :
    q.Find id = QueueEntry.sentinel := by
  unfold PacketQueue.Find
  cases hf : q.m_queue.find? (fun e => e.m_packetID == id) with
  | none => rfl
  | some e =>
    have h1 := List.find?_some hf
    have h2 := List.mem_of_find?_eq_some hf
    exact absurd (List.mem_map.mpr ⟨e, h2, by simpa using h1⟩) h

/-- `Enqueue` of an entry whose id the buffer lacks puts the entry at the end. -/
theorem PacketQueue.Enqueue_new_mem (q : PacketQueue) (e : QueueEntry)
    (h : e.m_packetID ∉ q.ids) : e ∈ (q.Enqueue e).m_queue := by
  have hhas : q.Has e.m_packetID = false := by
    rw [Bool.eq_false_iff, Ne, PacketQueue.Has_iff]; exact h
  unfold PacketQueue.Enqueue
  by_cases hlen : q.m_queue.length = q.m_maxLen
  · simp [hhas, hlen]
  · simp [hhas, hlen]

/-- `RouteInput` when no reject test fires and a socket matches for local delivery. -/
theorem RouteInput_local (st : RoutingProtocol) (ipv4 : Ipv4) (now : Int) (p : Packet)
    (header : Ipv4Header) (idev : Nat)
    (hsock : st.m_socketAddresses.isEmpty = false)
    (httl : ¬ header.m_ttl < 1)
    (hproto : header.m_protocol ≠ 1)
    (hloc : st.m_socketAddresses.any
        (RouteInputIsLocal st ipv4 header (ipv4.GetInterfaceForDevice idev)) = true) :
    RouteInput st ipv4 now p header idev =
      RouteInputLocalDeliver st p header (ipv4.GetInterfaceForDevice idev) := by
  unfold RouteInput
  simp [hsock, httl, hproto, hloc]

/-- C12 (amended): for every data packet (no CONTROL tag) arriving on the local-delivery
path of `RouteInput` (the agent has a socket, TTL at least 1, not ICMP, a socket matches
for local delivery) that starts with the data header h with packetId p. If p is not in the
buffer, `Enqueue` is called once with an entry of packetId p and expireTime
`h.timestamp + queueEntryExpireTime` (the addition of `ns3::Time`), which is in the buffer
afterwards, and the local-deliver callback is invoked once with the 16-byte data header
and the tag removed. If p is in the buffer and p is not 0, the agent state is unchanged and
the callback is not invoked. `RouteInput` returns true in both cases. -/
theorem C12_RouteInput_local_delivery (st : RoutingProtocol) (ipv4 : Ipv4) (now : Int)
    (payload : List Nat) (tag : Option TagType) (header : Ipv4Header) (idev : Nat)
    (h : EpidemicHeader)
    (hsock : st.m_socketAddresses.isEmpty = false)
    (httl : ¬ header.m_ttl < 1)
    (hproto : header.m_protocol ≠ 1)
    (hloc : st.m_socketAddresses.any
        (RouteInputIsLocal st ipv4 header (ipv4.GetInterfaceForDevice idev)) = true)
    (htag : tag ≠ some TagType.CONTROL)
    (hwf : h.WF) :
    (h.m_packetID ∉ st.m_queue.ids →
        RouteInput st ipv4 now ⟨h.Serialize ++ payload, tag⟩ header idev =
          some (true,
            { st with
                m_queue := st.m_queue.Enqueue
                  { m_packet := some ⟨h.Serialize ++ payload, tag⟩, m_header := header,
                    m_expire := TimeAdd h.m_timeStamp st.m_queueEntryExpireTime,
                    m_packetID := h.m_packetID } },
            [Action.lcb ⟨payload, none⟩ header (ipv4.GetInterfaceForDevice idev)])
          ∧ ({ m_packet := some ⟨h.Serialize ++ payload, tag⟩, m_header := header,
               m_expire := TimeAdd h.m_timeStamp st.m_queueEntryExpireTime,
               m_packetID := h.m_packetID } : QueueEntry)
              ∈ (st.m_queue.Enqueue
                  { m_packet := some ⟨h.Serialize ++ payload, tag⟩, m_header := header,
                    m_expire := TimeAdd h.m_timeStamp st.m_queueEntryExpireTime,
                    m_packetID := h.m_packetID }).m_queue)
      ∧ (h.m_packetID ∈ st.m_queue.ids → h.m_packetID ≠ 0 →
          RouteInput st ipv4 now ⟨h.Serialize ++ payload, tag⟩ header idev =
            some (true, st, [])) := by
  rw [RouteInput_local st ipv4 now _ header idev hsock httl hproto hloc,
    RouteInputLocalDeliver_data st header _ h hwf payload tag htag,
    TimeAdd_comm st.m_queueEntryExpireTime]
  constructor
  · intro hnew
    have hfind : (st.m_queue.Find h.m_packetID).GetPacketID = 0 := by
      rw [PacketQueue.Find_not_mem _ _ hnew]; rfl
    exact ⟨by simp only [hfind, if_true], PacketQueue.Enqueue_new_mem _ _ hnew⟩
  · intro hold hne
    have hfind : ¬ (st.m_queue.Find h.m_packetID).GetPacketID = 0 := by
      unfold QueueEntry.GetPacketID
      rw [(PacketQueue.Find_mem _ _ hold).2]; exact hne
    simp only [hfind, if_false]

set_option maxRecDepth 100000 in
/-- C12 as stated fails: a node with address 1 whose buffer holds an entry with packetId 0
receives, addressed to itself, a data packet whose data header has packetId 0.
`Find (0).GetPacketID ()` is 0, the packet is not taken as a duplicate: the buffer is
unchanged but the local-deliver callback is invoked. -/
theorem C12_RouteInput_local_delivery_counterexample :
    (0 : Nat) ∈ (exampleNode 1 64 [exampleEntry 3 1 0 64]).m_queue.ids
      ∧ RouteInput (exampleNode 1 64 [exampleEntry 3 1 0 64]) exampleIpv4 5
          ⟨EpidemicHeader.Serialize ⟨0, 64, 0⟩ ++ [42], none⟩ ⟨3, 1, 64, 17, 17⟩ 0
        = some (true, exampleNode 1 64 [exampleEntry 3 1 0 64],
            [Action.lcb ⟨[42], none⟩ ⟨3, 1, 64, 17, 17⟩ 1]) := by
  decide

set_option maxRecDepth 100000 in
/-- C12 (amended) at a node with address 1 whose buffer holds packetId 196609, for a second
arrival of that packet addressed to the node: nothing changes and nothing is delivered. -/
theorem C12_RouteInput_local_delivery_witness :
    RouteInput (exampleNode 1 64 [exampleEntry 3 1 196609 64]) exampleIpv4 5
        ⟨EpidemicHeader.Serialize ⟨196609, 64, 0⟩ ++ [42], none⟩ ⟨3, 1, 64, 17, 17⟩ 0
      = some (true, exampleNode 1 64 [exampleEntry 3 1 196609 64], []) :=
  (C12_RouteInput_local_delivery (exampleNode 1 64 [exampleEntry 3 1 196609 64]) exampleIpv4 5
    [42] none ⟨3, 1, 64, 17, 17⟩ 0 ⟨196609, 64, 0⟩ (by decide) (by decide) (by decide)
    (by decide) (by decide) (by decide)).2 (by decide) (by decide)

/-- C14 (amended): for every packet in transit (IP source not an address of the node) that
reaches the forward path of `RouteInput` and starts with the data header h. If
`h.hopCount ≤ 1`, `RouteInput` returns true and the buffer is unchanged: no entry is
enqueued for it. And whenever the call changes the buffer, it does so by one `Enqueue` of
an entry whose packet starts with the data header of hopCount `h.hopCount - 1`, which is
at least 1. -/
theorem C14_forward_hopCount (st : RoutingProtocol) (ipv4 : Ipv4) (now : Int)
    (payload : List Nat) (tag : Option TagType) (header : Ipv4Header) (idev : Nat)
    (h : EpidemicHeader)
    (hsock : st.m_socketAddresses.isEmpty = false)
    (httl : ¬ header.m_ttl < 1)
    (hproto : header.m_protocol ≠ 1)
    (hfwd : st.m_socketAddresses.any
        (RouteInputIsLocal st ipv4 header (ipv4.GetInterfaceForDevice idev)) = false)
    (htransit : IsMyOwnAddress st header.m_source = false)
    (hwf : h.WF) :
    (h.m_hopCount ≤ 1 →
        RouteInput st ipv4 now ⟨h.Serialize ++ payload, tag⟩ header idev =
          some (true,
            { st with m_dataPacketCounter := (st.m_dataPacketCounter + 1) % 2 ^ 16 }, []))
      ∧ (∀ (b : Bool) (st1 : RoutingProtocol) (acts : List Action),
          RouteInput st ipv4 now ⟨h.Serialize ++ payload, tag⟩ header idev =
            some (b, st1, acts) →
          st1.m_queue ≠ st.m_queue →
          ∃ e : QueueEntry, st1.m_queue = st.m_queue.Enqueue e
            ∧ e.m_packet.bind Packet.PeekEpidemicHeader =
                some { m_packetID := h.m_packetID, m_hopCount := h.m_hopCount - 1,
                       m_timeStamp := h.m_timeStamp }
            ∧ 1 ≤ h.m_hopCount - 1) := by
  rw [RouteInput_forward st ipv4 now _ header idev hsock httl hproto hfwd,
    RouteInputForward_transit st now payload tag header h htransit hwf]
  constructor
  · intro hhop
    simp only [hhop, true_or, if_true]
  · intro b st1 acts hrun hchanged
    by_cases hdrop : h.m_hopCount ≤ 1
        ∨ TimeAdd h.m_timeStamp st.m_queueEntryExpireTime < now
    · simp only [hdrop, if_true, Option.some.injEq, Prod.mk.injEq] at hrun
      exact absurd (by rw [← hrun.2.1]) hchanged
    · simp only [hdrop, if_false, Option.some.injEq, Prod.mk.injEq] at hrun
      have hhop : 1 < h.m_hopCount := by
        by_contra hc; exact hdrop (Or.inl (by omega))
      have hwf1 : ({ h with m_hopCount := h.m_hopCount - 1 } : EpidemicHeader).WF := by
        obtain ⟨h1, h2, h3, h4⟩ := hwf
        exact ⟨h1, by simp only; omega, h3, h4⟩
      refine ⟨_, by rw [← hrun.2.1], ?_, by omega⟩
      simp only [Option.bind]
      exact Packet.PeekEpidemicHeader_Serialize _ hwf1 payload tag

set_option maxRecDepth 100000 in
/-- C14 as stated fails: a node with address 1 and an empty buffer receives, addressed to
itself, a data packet whose data header has hopCount 0. The local-delivery path makes no
test on hopCount: the entry is enqueued, with the data header of hopCount 0 still in front
of its packet. -/
theorem C14_forward_hopCount_counterexample :
    (RouteInput (exampleNode 1 64 []) exampleIpv4 5
        ⟨EpidemicHeader.Serialize ⟨196609, 0, 0⟩ ++ [42], none⟩ ⟨3, 1, 64, 17, 17⟩ 0).map
          (fun r => r.2.1.m_queue.m_queue.map
            (fun e => (e.m_packetID, (e.m_packet.bind Packet.PeekEpidemicHeader).map
              (fun hdr => hdr.m_hopCount))))
      = some [(196609, some 0)] := by
  decide

set_option maxRecDepth 100000 in
/-- C14 (amended) at a node with address 1 for a packet in transit from 3 to 9 whose data
header has hopCount 1: nothing is enqueued. -/
theorem C14_forward_hopCount_witness :
    RouteInput (exampleNode 1 64 []) exampleIpv4 5
        ⟨EpidemicHeader.Serialize ⟨196609, 1, 0⟩ ++ [42], none⟩ ⟨3, 9, 64, 17, 17⟩ 0
      = some (true, { exampleNode 1 64 [] with m_dataPacketCounter := 1 }, []) :=
  (C14_forward_hopCount (exampleNode 1 64 []) exampleIpv4 5 [42] none ⟨3, 9, 64, 17, 17⟩ 0
    ⟨196609, 1, 0⟩ (by decide) (by decide) (by decide) (by decide) (by decide) (by decide)).1
    (by decide)

/-! ## C15 to C18: the wire codecs -/

/-- C16: for every T in {BEACON, REPLY, REPLY_BACK}, `TypeHeader::Deserialize`, on any
header, applied to the single byte written by `Serialize` for the type T yields message
type T with the valid flag set and covers one byte; the bytes written are 0, 1 and 2. For
every byte value b outside {0, 1, 2} `Deserialize` covers one byte and leaves the valid
flag clear (and the message type as it was). -/
theorem C16_TypeHeader_roundtrip (self : TypeHeader) (rest : List Nat) (b : Nat)
    (hb : 2 < b) :
    (∀ (T : MessageType) (v : Bool),
        TypeHeader.Deserialize self (TypeHeader.Serialize ⟨T, v⟩ ++ rest) = some (⟨T, true⟩, 1)
          ∧ (TypeHeader.Serialize ⟨T, v⟩).length = 1)
      ∧ TypeHeader.Serialize (TypeHeader.new MessageType.BEACON) = [0]
      ∧ TypeHeader.Serialize (TypeHeader.new MessageType.REPLY) = [1]
      ∧ TypeHeader.Serialize (TypeHeader.new MessageType.REPLY_BACK) = [2]
      ∧ TypeHeader.Deserialize self (b :: rest) = some (⟨self.m_type, false⟩, 1) := by
  refine ⟨?_, rfl, rfl, rfl, ?_⟩
  · intro T v
    cases T <;>
      simp [TypeHeader.Deserialize, TypeHeader.Serialize, ReadU8, MessageType.toU8]
  · have h0 : b ≠ 0 := by omega
    have h1 : b ≠ 1 := by omega
    have h2 : b ≠ 2 := by omega
    simp [TypeHeader.Deserialize, ReadU8, MessageType.toU8, h0, h1, h2]

/-- C16 at the byte 0xFF, decoded into a header constructed with BEACON. -/
theorem C16_TypeHeader_roundtrip_witness :
    TypeHeader.Deserialize (TypeHeader.new MessageType.BEACON) (255 :: []) =
      some (⟨MessageType.BEACON, false⟩, 1) :=
  (C16_TypeHeader_roundtrip (TypeHeader.new MessageType.BEACON) [] 255 (by decide)).2.2.2.2

theorem WriteHtonU32_BigEndianValue (v : Nat) (hv : v < 2 ^ 32) :
    BigEndianValue (WriteHtonU32 v) = v ∧ ∀ b ∈ WriteHtonU32 v, b < 256 := by
  constructor
  · simp only [BigEndianValue, WriteHtonU32, List.foldl]
    omega
  · intro b hb
    simp only [WriteHtonU32, List.mem_cons, List.mem_singleton, List.not_mem_nil,
      or_false] at hb
    rcases hb with hb | hb | hb | hb <;> omega

theorem WriteHtonU64_BigEndianValue (v : Nat) (hv : v < 2 ^ 64) :
    BigEndianValue (WriteHtonU64 v) = v ∧ ∀ b ∈ WriteHtonU64 v, b < 256 := by
  constructor
  · simp only [BigEndianValue, WriteHtonU64, List.foldl]
    omega
  · intro b hb
    simp only [WriteHtonU64, List.mem_cons, List.mem_singleton, List.not_mem_nil,
      or_false] at hb
    rcases hb with hb | hb | hb | hb | hb | hb | hb | hb <;> omega

/-- C17: for every data header H whose fields fit their types, `EpidemicHeader::Serialize`
writes exactly 16 bytes, each below 256: bytes 0-3 read big-endian are the packetId, bytes
4-7 read big-endian are the hopCount, and bytes 8-15 read big-endian are the timestamp in
nanoseconds as a 64-bit integer (the timestamp itself when it is not negative, two's
complement otherwise). -/
theorem C17_EpidemicHeader_layout (H : EpidemicHeader) (hwf : H.WF) :
    H.Serialize.length = 16
      ∧ (∀ b ∈ H.Serialize, b < 256)
      ∧ BigEndianValue (H.Serialize.take 4) = H.m_packetID
      ∧ BigEndianValue ((H.Serialize.drop 4).take 4) = H.m_hopCount
      ∧ BigEndianValue (H.Serialize.drop 8) = Int64ToU64 H.m_timeStamp
      ∧ ((Int64ToU64 H.m_timeStamp : Int) =
          if 0 ≤ H.m_timeStamp then H.m_timeStamp else H.m_timeStamp + 2 ^ 64) := by
  obtain ⟨h1, h2, h3, h4⟩ := hwf
  have hp := WriteHtonU32_BigEndianValue H.m_packetID h1
  have hh := WriteHtonU32_BigEndianValue H.m_hopCount h2
  have ht := WriteHtonU64_BigEndianValue (Int64ToU64 H.m_timeStamp) (Int64ToU64_lt _)
  refine ⟨EpidemicHeader.Serialize_length H, ?_, ?_, ?_, ?_, ?_⟩
  · intro b hb
    simp only [EpidemicHeader.Serialize, List.mem_append] at hb
    rcases hb with (hb | hb) | hb
    · exact hp.2 b hb
    · exact hh.2 b hb
    · exact ht.2 b hb
  · have : H.Serialize.take 4 = WriteHtonU32 H.m_packetID := by
      simp [EpidemicHeader.Serialize, WriteHtonU32]
    rw [this]; exact hp.1
  · have : (H.Serialize.drop 4).take 4 = WriteHtonU32 H.m_hopCount := by
      simp [EpidemicHeader.Serialize, WriteHtonU32]
    rw [this]; exact hh.1
  · have : H.Serialize.drop 8 = WriteHtonU64 (Int64ToU64 H.m_timeStamp) := by
      simp [EpidemicHeader.Serialize, WriteHtonU32]
    rw [this]; exact ht.1
  · unfold Int64ToU64
    have h5 : 0 ≤ H.m_timeStamp % 2 ^ 64 := Int.emod_nonneg _ (by norm_num)
    rw [Int.toNat_of_nonneg h5]
    split <;> omega

/-- C17 at the header of the test case: packetId 12345, hopCount 10, timestamp 0. -/
theorem C17_EpidemicHeader_layout_witness :
    EpidemicHeader.Serialize ⟨12345, 10, 0⟩ =
        [0, 0, 48, 57, 0, 0, 0, 10, 0, 0, 0, 0, 0, 0, 0, 0]
      ∧ BigEndianValue ((EpidemicHeader.Serialize ⟨12345, 10, 0⟩).take 4) = 12345 :=
  ⟨by decide, (C17_EpidemicHeader_layout ⟨12345, 10, 0⟩ (by decide)).2.2.1⟩

theorem SerializeLoop_bytes (xs : List Nat) :
    ∀ b ∈ SummaryVectorHeader.SerializeLoop xs, b < 256 := by
  induction xs with
  | nil => simp [SummaryVectorHeader.SerializeLoop]
  | cons x xs ih =>
    intro b hb
    simp only [SummaryVectorHeader.SerializeLoop, List.mem_append] at hb
    rcases hb with hb | hb
    · simp only [WriteHtonU32, List.mem_cons, List.mem_singleton, List.not_mem_nil,
        or_false] at hb
      rcases hb with hb | hb | hb | hb <;> omega
    · exact ih b hb

/-- The id at position `k` of the list is what bytes `4 * k` to `4 * k + 3` written by the
loop of `Serialize` stand for, read big-endian. -/
theorem SerializeLoop_get (xs : List Nat) (hx : ∀ x ∈ xs, x < 2 ^ 32) :
    ∀ (k : Nat) (hk : k < xs.length),
      BigEndianValue (((SummaryVectorHeader.SerializeLoop xs).drop (4 * k)).take 4)
        = xs.get ⟨k, hk⟩ := by
  induction xs with
  | nil => intro k hk; simp at hk
  | cons x xs ih =>
    intro k hk
    cases k with
    | zero =>
      have htake : ((SummaryVectorHeader.SerializeLoop (x :: xs)).drop (4 * 0)).take 4
          = WriteHtonU32 x := by
        simp [SummaryVectorHeader.SerializeLoop, WriteHtonU32]
      rw [htake]
      exact (WriteHtonU32_BigEndianValue x (hx x (by simp))).1
    | succ k =>
      have hdrop : (SummaryVectorHeader.SerializeLoop (x :: xs)).drop (4 * (k + 1))
          = (SummaryVectorHeader.SerializeLoop xs).drop (4 * k) := by
        have h4 : 4 * (k + 1) = 4 * k + 4 := by omega
        rw [h4, ← List.drop_drop]
        simp [SummaryVectorHeader.SerializeLoop, WriteHtonU32]
      rw [hdrop]
      simp only [List.length_cons] at hk
      have := ih (fun y hy => hx y (by simp [hy])) k (by omega)
      simpa using this

/-- C18 (amended): for every list V of N PacketIds, each a `uint32_t`, with
`4 + 4 * N < 2^32`, `SummaryVectorHeader::Serialize` writes exactly
`GetSerializedSize () = 4 + 4 * N` bytes, each below 256: the first four read big-endian
are N, and for every k below N the four bytes from offset `4 + 4 * k` read big-endian are
the k-th id of the list. -/
theorem C18_SummaryVector_layout (V : SummaryVectorHeader)
    (hids : ∀ x ∈ V.m_packets, x < 2 ^ 32)
    (hsize : 4 + 4 * V.m_packets.length < 2 ^ 32) :
    V.Serialize.length = 4 + 4 * V.m_packets.length
      ∧ V.GetSerializedSize = 4 + 4 * V.m_packets.length
      ∧ (∀ b ∈ V.Serialize, b < 256)
      ∧ BigEndianValue (V.Serialize.take 4) = V.m_packets.length
      ∧ ∀ (k : Nat) (hk : k < V.m_packets.length),
          BigEndianValue ((V.Serialize.drop (4 + 4 * k)).take 4) = V.m_packets.get ⟨k, hk⟩ := by
  have hlen : V.m_packets.length < 2 ^ 32 := by omega
  have hN := WriteHtonU32_BigEndianValue V.m_packets.length hlen
  refine ⟨?_, ?_, ?_, ?_, ?_⟩
  · simp only [SummaryVectorHeader.Serialize, SerializeLoop_length, WriteHtonU32,
      List.length_append, List.length_cons, List.length_nil]
  · unfold SummaryVectorHeader.GetSerializedSize
    omega
  · intro b hb
    simp only [SummaryVectorHeader.Serialize, List.mem_append] at hb
    rcases hb with hb | hb
    · exact hN.2 b hb
    · exact SerializeLoop_bytes _ b hb
  · have : V.Serialize.take 4 = WriteHtonU32 V.m_packets.length := by
      simp [SummaryVectorHeader.Serialize, WriteHtonU32]
    rw [this]; exact hN.1
  · intro k hk
    have hdrop : V.Serialize.drop (4 + 4 * k)
        = (SummaryVectorHeader.SerializeLoop V.m_packets).drop (4 * k) := by
      have h4 : 4 + 4 * k = 4 * k + 4 := by omega
      rw [h4, ← List.drop_drop]
      simp [SummaryVectorHeader.Serialize, WriteHtonU32]
    rw [hdrop]
    exact SerializeLoop_get V.m_packets hids k hk

/-- The size announced and the number of bytes written for a list of `n` ids 0. -/
theorem SummaryVector_replicate (n : Nat) :
    (SummaryVectorHeader.mk (List.replicate n 0)).m_packets.length = n
      ∧ (SummaryVectorHeader.mk (List.replicate n 0)).GetSerializedSize
          = (4 + (n % 2 ^ 32) * 4) % 2 ^ 32
      ∧ (SummaryVectorHeader.mk (List.replicate n 0)).Serialize.length = 4 + 4 * n := by
  refine ⟨by simp, ?_, ?_⟩
  · simp only [SummaryVectorHeader.GetSerializedSize, List.length_replicate]
  · simp only [SummaryVectorHeader.Serialize, SerializeLoop_length, WriteHtonU32,
      List.length_append, List.length_cons, List.length_nil, List.length_replicate]

/-- C18 as stated fails: for the list of N = 1073741824 = 2^30 ids 0, with N below 2^32,
`GetSerializedSize ()` is 4 (the `uint32_t` result wraps) while `Serialize` writes
`4 + 4 * N` bytes. -/
theorem C18_SummaryVector_layout_counterexample :
    (SummaryVectorHeader.mk (List.replicate 1073741824 0)).m_packets.length < 2 ^ 32
      ∧ (SummaryVectorHeader.mk (List.replicate 1073741824 0)).GetSerializedSize = 4
      ∧ (SummaryVectorHeader.mk (List.replicate 1073741824 0)).Serialize.length
          = 4 + 4 * 1073741824 := by
  obtain ⟨h1, h2, h3⟩ := SummaryVector_replicate 1073741824
  exact ⟨by rw [h1]; norm_num, by rw [h2]; norm_num, h3⟩

/-- C18 (amended) at the list [7, 8]: twelve bytes, the length 2 and the ids 7 and 8. -/
theorem C18_SummaryVector_layout_witness :
    SummaryVectorHeader.Serialize ⟨[7, 8]⟩ = [0, 0, 0, 2, 0, 0, 0, 7, 0, 0, 0, 8]
      ∧ SummaryVectorHeader.GetSerializedSize ⟨[7, 8]⟩ = 4 + 4 * 2 :=
  ⟨by decide, (C18_SummaryVector_layout ⟨[7, 8]⟩ (by decide) (by decide)).2.1⟩

/-! ## C19: the control frames built by the agent -/

/-- C19 (amended): the control frames the agent builds. `SendSummaryVector` makes one
`SendPacket` call whose packet, tagged CONTROL, is the TypeHeader byte, REPLY (1) or
REPLY_BACK (2), followed by the encoding of the summary vector of the buffer and nothing
else. `SendBeacons` makes one `BroadcastPacket` call whose packet, tagged CONTROL, is the
TypeHeader byte BEACON (0) followed by the 16 bytes of a data header carrying the
configured HopCount: 17 bytes, no summary vector. -/
theorem C19_control_frames (st : RoutingProtocol) (now : Int) (dest : Nat)
    (firstNode : Bool) (header0 : EpidemicHeader) :
    (SendSummaryVector st now dest firstNode).2 =
        [Action.SendPacket
          ⟨(if firstNode then MessageType.REPLY else MessageType.REPLY_BACK).toU8 ::
              (st.m_queue.GetSummaryVector now).2.Serialize, some TagType.CONTROL⟩
          dest EPIDEMIC_PORT]
      ∧ SendBeacons st header0 =
        [Action.BroadcastPacket
          ⟨MessageType.BEACON.toU8 ::
              EpidemicHeader.Serialize
                ⟨header0.m_packetID, st.m_hopCount, header0.m_timeStamp⟩,
            some TagType.CONTROL⟩]
      ∧ (MessageType.BEACON.toU8 ::
            EpidemicHeader.Serialize
              ⟨header0.m_packetID, st.m_hopCount, header0.m_timeStamp⟩).length = 17 := by
  refine ⟨SendSummaryVector_snd st now dest firstNode, ?_, ?_⟩
  · simp [SendBeacons, Packet.AddHeader, Packet.Create, Packet.AddPacketTag,
      TypeHeader.Serialize, TypeHeader.new]
  · simp [EpidemicHeader.Serialize_length]

/-- C19 as stated fails: the beacon built by `SendBeacons` at a node with HopCount 64,
from a default data header with packetId 0 and timestamp 0, has a payload of 17 bytes: the
TypeHeader byte 0 followed by the data header with hopCount 64. -/
theorem C19_control_frames_counterexample :
    SendBeacons (exampleNode 1 64 []) ⟨0, 0, 0⟩ =
      [Action.BroadcastPacket
        ⟨[0, 0, 0, 0, 0, 0, 0, 0, 64, 0, 0, 0, 0, 0, 0, 0, 0], some TagType.CONTROL⟩] := by
  decide

/-! ## C20: `RouteOutput`, the output device -/

/-- The output device `RouteOutput` sets when the destination is not an address of the
node and the main address has an interface: the loopback device when the packet carries
the CONTROL tag, the device found for the destination otherwise. -/
theorem RouteOutput_outputDevice (st : RoutingProtocol) (ipv4 : Ipv4)
    (devices : List Ipv4InterfaceAddress) (p : Packet) (header : Ipv4Header)
    (hdst : IsMyOwnAddress st header.m_destination = false)
    (hmain : ipv4.GetInterfaceForAddress st.m_mainAddress ≠ -1) :
    (RouteOutput st ipv4 devices p header).m_outputDevice =
      if p.tag = some TagType.CONTROL then
        some (ipv4.GetNetDevice (FindLoopbackDevice devices))
      else some (ipv4.GetNetDevice (FindOutputDeviceForAddress devices header.m_destination)) := by
  unfold RouteOutput
  simp only [hdst, Bool.false_eq_true, if_false, hmain, ne_eq, not_false_eq_true, if_true]
  obtain ⟨bytes, tag⟩ := p
  cases tag with
  | none => simp [Packet.PeekPacketTag, Ipv4Route.Create]
  | some t => cases t <;> simp [Packet.PeekPacketTag, Ipv4Route.Create]

set_option maxRecDepth 100000 in
/-- C20 (the code at the failing input): a node with main address 10.0.0.1 (167772161)
whose device 0 is the loopback device (127.0.0.1/8) and whose device 1 is on 10.0.0.0/24
sends to 10.0.0.2 (167772162). For a packet tagged CONTROL `RouteOutput` picks device 0,
the loopback device; for a data packet (no tag) it picks device 1, the device whose subnet
contains the destination. -/
theorem C20_RouteOutput_device_by_tag :
    (RouteOutput (exampleNode 167772161 64 []) ⟨fun _ => 1, fun _ => 1, fun i => i.toNat⟩
        [⟨2130706433, 4278190080, 2147483647⟩, ⟨167772161, 4294967040, 167772415⟩]
        ⟨[1, 0, 0, 0, 0], some TagType.CONTROL⟩ ⟨167772161, 167772162, 64, 17, 5⟩).m_outputDevice
        = some 0
      ∧ (RouteOutput (exampleNode 167772161 64 []) ⟨fun _ => 1, fun _ => 1, fun i => i.toNat⟩
        [⟨2130706433, 4278190080, 2147483647⟩, ⟨167772161, 4294967040, 167772415⟩]
        ⟨[42], none⟩ ⟨167772161, 167772162, 64, 17, 1⟩).m_outputDevice
        = some 1
      ∧ FindLoopbackDevice
          [⟨2130706433, 4278190080, 2147483647⟩, ⟨167772161, 4294967040, 167772415⟩] = 0
      ∧ FindOutputDeviceForAddress
          [⟨2130706433, 4278190080, 2147483647⟩, ⟨167772161, 4294967040, 167772415⟩]
          167772162 = 1 := by
  decide

/-! ## C21: `RouteOutput`, a destination that is an address of the node -/

/-- C21 (amended): for every agent state and every outgoing packet whose IP destination is
one of the node's own addresses, `RouteOutput` returns a route whose source is the main
address of the node, whose destination is `h.destination`, and which has neither a gateway
nor an output device set. Hence its source equals its destination exactly when
`h.destination` is the main address. -/
theorem C21_RouteOutput_own_address (st : RoutingProtocol) (ipv4 : Ipv4)
    (devices : List Ipv4InterfaceAddress) (p : Packet) (header : Ipv4Header)
    (hown : IsMyOwnAddress st header.m_destination = true) :
    RouteOutput st ipv4 devices p header =
        { m_source := some st.m_mainAddress, m_dest := some header.m_destination,
          m_gateway := none, m_outputDevice := none }
      ∧ ((RouteOutput st ipv4 devices p header).m_source
            = (RouteOutput st ipv4 devices p header).m_dest
          ↔ header.m_destination = st.m_mainAddress) := by
  have h1 : RouteOutput st ipv4 devices p header =
      { m_source := some st.m_mainAddress, m_dest := some header.m_destination,
        m_gateway := none, m_outputDevice := none } := by
    unfold RouteOutput
    simp only [hown, if_true, Ipv4Route.Create]
  refine ⟨h1, ?_⟩
  rw [h1]
  simp only [Option.some.injEq]
  exact eq_comm

/-- C21 as stated fails: a node with main address 1 and two sockets, on the addresses 1
and 5, sends a packet to its own address 5. The destination is an address of the node, and
the route returned has source 1 (the main address) and destination 5: the source is
neither `h.destination` nor equal to the destination of the route. -/
theorem C21_RouteOutput_own_address_counterexample :
    IsMyOwnAddress
        { exampleNode 1 64 [] with
            m_socketAddresses := [(0, ⟨1, 4294967040, 255⟩), (1, ⟨5, 4294967040, 255⟩)] } 5
        = true
      ∧ RouteOutput
          { exampleNode 1 64 [] with
              m_socketAddresses := [(0, ⟨1, 4294967040, 255⟩), (1, ⟨5, 4294967040, 255⟩)] }
          exampleIpv4 [⟨1, 4294967040, 255⟩, ⟨5, 4294967040, 255⟩] ⟨[42], none⟩
          ⟨1, 5, 64, 17, 1⟩
        = { m_source := some 1, m_dest := some 5, m_gateway := none, m_outputDevice := none }
      ∧ (some 1 : Option Nat) ≠ some 5 := by
  decide

/-- C21 (amended) at a node with one socket on its main address 1, for a packet to the
address 1: source and destination of the route are both 1 and no gateway is set. -/
theorem C21_RouteOutput_own_address_witness :
    IsMyOwnAddress (exampleNode 1 64 []) 1 = true
      ∧ RouteOutput (exampleNode 1 64 []) exampleIpv4 [⟨1, 4294967040, 255⟩] ⟨[42], none⟩
          ⟨1, 1, 64, 17, 1⟩
        = { m_source := some 1, m_dest := some 1, m_gateway := none, m_outputDevice := none } :=
  ⟨by decide,
   (C21_RouteOutput_own_address (exampleNode 1 64 []) exampleIpv4 [⟨1, 4294967040, 255⟩]
      ⟨[42], none⟩ ⟨1, 1, 64, 17, 1⟩ (by decide)).1⟩

/-! ## C22, C23: `SendPacketFromQueue` -/

/-- `SendPacketFromQueue` on an entry that holds the packet `p`: one call of the
unicast-forward callback when the next hop is not the IP source of the stored packet and
its IP destination is not an address of the node, and no call otherwise. -/
theorem SendPacketFromQueue_eq (st : RoutingProtocol) (ipv4 : Ipv4) (dst : Nat)
    (e : QueueEntry) (p : Packet) (hp : e.m_packet = some p) :
    SendPacketFromQueue st ipv4 dst e =
      if dst ≠ e.m_header.m_source ∧ IsMyOwnAddress st e.m_header.m_destination = false then
        [Action.ucb
          { m_source := some e.m_header.m_source, m_dest := some e.m_header.m_destination,
            m_gateway := some dst,
            m_outputDevice :=
              if ipv4.GetInterfaceForAddress st.m_mainAddress ≠ -1 then
                some (ipv4.GetNetDevice (ipv4.GetInterfaceForAddress st.m_mainAddress))
              else none }
          p
          { e.m_header with
              m_ttl := (e.m_header.m_ttl + 1) % 2 ^ 8,
              m_payloadSize := p.GetSize % 2 ^ 16 }]
      else [] := by
  unfold SendPacketFromQueue
  simp only [QueueEntry.GetPacket, hp, Ipv4Route.Create, Bool.not_eq_true]
  by_cases hc : dst ≠ e.m_header.m_source ∧ IsMyOwnAddress st e.m_header.m_destination = false
  · rw [if_pos hc, if_pos hc]
    by_cases hi : ipv4.GetInterfaceForAddress st.m_mainAddress ≠ -1
    · simp only [hi, ne_eq, not_false_eq_true, if_true]
    · simp only [hi, if_false]
  · rw [if_neg hc, if_neg hc]

/-- C22 (amended): for every buffered entry (it holds a packet) with stored IP TTL t in
0..254 and every next hop, every IP header that `SendPacketFromQueue` hands to the
unicast-forward callback has TTL `t + 1`, so that one decrement gives back t; and the
callback is invoked with such a header whenever the next hop is not the IP source of the
stored packet and its IP destination is not an address of the node. -/
theorem C22_SendPacketFromQueue_ttl (st : RoutingProtocol) (ipv4 : Ipv4) (dst : Nat)
    (e : QueueEntry) (p : Packet) (hp : e.m_packet = some p)
    (ht : e.m_header.m_ttl ≤ 254) :
    (∀ rt c h, Action.ucb rt c h ∈ SendPacketFromQueue st ipv4 dst e →
        h.m_ttl = e.m_header.m_ttl + 1 ∧ h.m_ttl - 1 = e.m_header.m_ttl)
      ∧ (dst ≠ e.m_header.m_source ∧ IsMyOwnAddress st e.m_header.m_destination = false →
          ∃ rt h, SendPacketFromQueue st ipv4 dst e = [Action.ucb rt p h]
            ∧ h.m_ttl = e.m_header.m_ttl + 1) := by
  have hmod : (e.m_header.m_ttl + 1) % 2 ^ 8 = e.m_header.m_ttl + 1 := by
    apply Nat.mod_eq_of_lt; omega
  rw [SendPacketFromQueue_eq st ipv4 dst e p hp]
  constructor
  · intro rt c h hmem
    by_cases hc : dst ≠ e.m_header.m_source
        ∧ IsMyOwnAddress st e.m_header.m_destination = false
    · rw [if_pos hc] at hmem
      simp only [List.mem_singleton, Action.ucb.injEq] at hmem
      obtain ⟨_, _, hh⟩ := hmem
      subst hh
      show (e.m_header.m_ttl + 1) % 2 ^ 8 = e.m_header.m_ttl + 1
        ∧ (e.m_header.m_ttl + 1) % 2 ^ 8 - 1 = e.m_header.m_ttl
      rw [hmod]
      exact ⟨rfl, by omega⟩
    · rw [if_neg hc] at hmem
      exact absurd hmem (List.not_mem_nil _)
  · intro hc
    rw [if_pos hc]
    exact ⟨_, _, rfl, hmod⟩

/-- C22 as stated fails at t = 255: for a buffered entry whose stored IP header has TTL
255, forwarded by the node 1 to the next hop 2, the header handed to the unicast-forward
callback has TTL 0 (the 8-bit field wraps), not 256. -/
theorem C22_SendPacketFromQueue_ttl_counterexample :
    SendPacketFromQueue (exampleNode 1 64 []) exampleIpv4 2
        { exampleEntry 7 9 1 5 with m_header := ⟨7, 9, 255, 17, 17⟩ }
      = [Action.ucb ⟨some 7, some 9, some 2, some 0⟩
          ⟨EpidemicHeader.Serialize ⟨1, 5, 0⟩ ++ [42], none⟩ ⟨7, 9, 0, 17, 17⟩] := by
  decide

/-- C22 (amended) at the entry of TTL 64 forwarded by the node 1 to the next hop 2: the
header handed over has TTL 65. -/
theorem C22_SendPacketFromQueue_ttl_witness :
    ∃ rt h, SendPacketFromQueue (exampleNode 1 64 []) exampleIpv4 2 (exampleEntry 7 9 1 5)
        = [Action.ucb rt ⟨EpidemicHeader.Serialize ⟨1, 5, 0⟩ ++ [42], none⟩ h]
      ∧ h.m_ttl = 64 + 1 :=
  (C22_SendPacketFromQueue_ttl (exampleNode 1 64 []) exampleIpv4 2 (exampleEntry 7 9 1 5)
    ⟨EpidemicHeader.Serialize ⟨1, 5, 0⟩ ++ [42], none⟩ rfl (by decide)).2
    ⟨by decide, by decide⟩

/-- C23: for every buffered entry (it holds a packet p) and every next hop dest,
`SendPacketFromQueue` invokes the unicast-forward callback if and only if dest differs
from the IP source of the stored packet and the IP destination of the stored packet is not
an address of the node. When it does, it invokes it once, with the stored packet and a
route whose gateway is dest and whose source and destination are those of the stored IP
header; otherwise it makes no call at all. -/
theorem C23_SendPacketFromQueue_condition (st : RoutingProtocol) (ipv4 : Ipv4) (dest : Nat)
    (e : QueueEntry) (p : Packet) (hp : e.m_packet = some p) :
    ((∃ rt c h, Action.ucb rt c h ∈ SendPacketFromQueue st ipv4 dest e)
        ↔ (dest ≠ e.m_header.m_source ∧ IsMyOwnAddress st e.m_header.m_destination = false))
      ∧ (dest ≠ e.m_header.m_source ∧ IsMyOwnAddress st e.m_header.m_destination = false →
          ∃ rt h, SendPacketFromQueue st ipv4 dest e = [Action.ucb rt p h]
            ∧ rt.m_gateway = some dest
            ∧ rt.m_source = some e.m_header.m_source
            ∧ rt.m_dest = some e.m_header.m_destination
            ∧ h.m_source = e.m_header.m_source
            ∧ h.m_destination = e.m_header.m_destination)
      ∧ (¬ (dest ≠ e.m_header.m_source
            ∧ IsMyOwnAddress st e.m_header.m_destination = false) →
          SendPacketFromQueue st ipv4 dest e = []) := by
  rw [SendPacketFromQueue_eq st ipv4 dest e p hp]
  by_cases hc : dest ≠ e.m_header.m_source
      ∧ IsMyOwnAddress st e.m_header.m_destination = false
  · rw [if_pos hc]
    refine ⟨⟨fun _ => hc, fun _ => ⟨_, _, _, List.mem_singleton.mpr rfl⟩⟩, ?_, ?_⟩
    · intro _
      exact ⟨_, _, rfl, rfl, rfl, rfl, rfl, rfl⟩
    · intro hn
      exact absurd hc hn
  · rw [if_neg hc]
    refine ⟨⟨?_, fun h => absurd h hc⟩, fun h => absurd h hc, fun _ => rfl⟩
    rintro ⟨rt, c, h, hmem⟩
    exact absurd hmem (List.not_mem_nil _)

/-- C23 at the node 1 holding a packet from 7 to 9: it is forwarded to the next hop 2,
with gateway 2, source 7 and destination 9, and not to the next hop 7, its own source. -/
theorem C23_SendPacketFromQueue_condition_witness :
    (∃ rt h, SendPacketFromQueue (exampleNode 1 64 []) exampleIpv4 2 (exampleEntry 7 9 1 5)
          = [Action.ucb rt ⟨EpidemicHeader.Serialize ⟨1, 5, 0⟩ ++ [42], none⟩ h]
        ∧ rt.m_gateway = some 2 ∧ rt.m_source = some 7 ∧ rt.m_dest = some 9
        ∧ h.m_source = 7 ∧ h.m_destination = 9)
      ∧ SendPacketFromQueue (exampleNode 1 64 []) exampleIpv4 7 (exampleEntry 7 9 1 5) = [] :=
  ⟨(C23_SendPacketFromQueue_condition (exampleNode 1 64 []) exampleIpv4 2
      (exampleEntry 7 9 1 5) ⟨EpidemicHeader.Serialize ⟨1, 5, 0⟩ ++ [42], none⟩ rfl).2.1
      ⟨by decide, by decide⟩,
   (C23_SendPacketFromQueue_condition (exampleNode 1 64 []) exampleIpv4 7
      (exampleEntry 7 9 1 5) ⟨EpidemicHeader.Serialize ⟨1, 5, 0⟩ ++ [42], none⟩ rfl).2.2
      (by decide)⟩

/-! ## C24, C28: the counter of data packets -/

theorem ReadNtohU32_of_length (l : List Nat) (h : 4 ≤ l.length) :
    ∃ v rest, ReadNtohU32 l = some (v, rest) ∧ rest.length = l.length - 4 := by
  rcases l with _ | ⟨b0, _ | ⟨b1, _ | ⟨b2, _ | ⟨b3, rest⟩⟩⟩⟩ <;> simp at h
  exact ⟨_, _, rfl, by simp⟩

theorem ReadNtohU64_of_length (l : List Nat) (h : 8 ≤ l.length) :
    ∃ v rest, ReadNtohU64 l = some (v, rest) := by
  rcases l with _ | ⟨b0, _ | ⟨b1, _ | ⟨b2, _ | ⟨b3, _ | ⟨b4, _ | ⟨b5, _ | ⟨b6, _ | ⟨b7, rest⟩⟩⟩⟩⟩⟩⟩⟩
    <;> simp at h
  exact ⟨_, _, rfl⟩

/-- A buffer of at least 16 bytes always yields a data header. -/
theorem EpidemicHeader_Deserialize_of_length (bytes : List Nat) (h : 16 ≤ bytes.length) :
    ∃ hd d, EpidemicHeader.Deserialize bytes = some (hd, d) := by
  obtain ⟨v1, r1, e1, l1⟩ := ReadNtohU32_of_length bytes (by omega)
  obtain ⟨v2, r2, e2, l2⟩ := ReadNtohU32_of_length r1 (by omega)
  obtain ⟨v3, r3, e3⟩ := ReadNtohU64_of_length r2 (by omega)
  unfold EpidemicHeader.Deserialize
  simp only [e1, e2, e3]
  exact ⟨_, _, rfl⟩

/-- The local-delivery body changes neither the counter, nor the sockets and the main
address, nor the configured HopCount and queueEntryExpireTime. -/
theorem RouteInputLocalDeliver_frame (st : RoutingProtocol) (p : Packet) (header : Ipv4Header)
    (iif : Int) (r : Bool × RoutingProtocol × List Action)
    (h : RouteInputLocalDeliver st p header iif = some r) :
    r.2.1.m_dataPacketCounter = st.m_dataPacketCounter
      ∧ r.2.1.m_socketAddresses = st.m_socketAddresses
      ∧ r.2.1.m_mainAddress = st.m_mainAddress
      ∧ r.2.1.m_hopCount = st.m_hopCount
      ∧ r.2.1.m_queueEntryExpireTime = st.m_queueEntryExpireTime := by
  unfold RouteInputLocalDeliver at h
  simp only at h
  split at h
  · split at h
    · cases h
    · split at h
      · cases h
      · split at h <;> (cases h; exact ⟨rfl, rfl, rfl, rfl, rfl⟩)
  · cases h; exact ⟨rfl, rfl, rfl, rfl, rfl⟩

/-- The forward path increments the counter modulo 2^16 whatever it does with the packet,
and changes neither the sockets and the main address, nor the configured HopCount and
queueEntryExpireTime. -/
theorem RouteInputForward_frame (st : RoutingProtocol) (now : Int) (p : Packet)
    (header : Ipv4Header) (r : Bool × RoutingProtocol × List Action)
    (h : RouteInputForward st now p header = some r) :
    r.2.1.m_dataPacketCounter = (st.m_dataPacketCounter + 1) % 2 ^ 16
      ∧ r.2.1.m_socketAddresses = st.m_socketAddresses
      ∧ r.2.1.m_mainAddress = st.m_mainAddress
      ∧ r.2.1.m_hopCount = st.m_hopCount
      ∧ r.2.1.m_queueEntryExpireTime = st.m_queueEntryExpireTime := by
  unfold RouteInputForward at h
  simp only at h
  split at h
  · cases h; exact ⟨rfl, rfl, rfl, rfl, rfl⟩
  · split at h
    · cases h
    · split at h <;> (cases h; exact ⟨rfl, rfl, rfl, rfl, rfl⟩)

/-- `RouteInput` by the value of the tests made before the forward path. -/
theorem RouteInput_by_path (st : RoutingProtocol) (ipv4 : Ipv4) (now : Int) (p : Packet)
    (header : Ipv4Header) (idev : Nat) :
    (RouteInputReachesForward st ipv4 header idev = true →
        RouteInput st ipv4 now p header idev = RouteInputForward st now p header)
      ∧ (RouteInputReachesForward st ipv4 header idev = false →
          RouteInput st ipv4 now p header idev = some (false, st, [])
            ∨ RouteInput st ipv4 now p header idev =
                RouteInputLocalDeliver st p header (ipv4.GetInterfaceForDevice idev)) := by
  unfold RouteInputReachesForward RouteInput
  by_cases h1 : st.m_socketAddresses.isEmpty = true
  · simp [h1]
  · by_cases h2 : header.m_ttl < 1
    · simp [h1, h2]
    · by_cases h3 : header.m_protocol = 1
      · simp [h1, h2, h3]
      · cases h4 : st.m_socketAddresses.any
            (RouteInputIsLocal st ipv4 header (ipv4.GetInterfaceForDevice idev))
        · simp [h1, h2, h3, h4]
        · simp [h1, h2, h3, h4]

/-- What one call of `RouteInput` does to the counter, and the members it leaves as they
are. -/
theorem RouteInput_frame (st : RoutingProtocol) (ipv4 : Ipv4) (now : Int) (p : Packet)
    (header : Ipv4Header) (idev : Nat) (r : Bool × RoutingProtocol × List Action)
    (h : RouteInput st ipv4 now p header idev = some r) :
    r.2.1.m_dataPacketCounter =
        (if RouteInputReachesForward st ipv4 header idev = true then
          (st.m_dataPacketCounter + 1) % 2 ^ 16
        else st.m_dataPacketCounter)
      ∧ r.2.1.m_socketAddresses = st.m_socketAddresses
      ∧ r.2.1.m_mainAddress = st.m_mainAddress
      ∧ r.2.1.m_hopCount = st.m_hopCount
      ∧ r.2.1.m_queueEntryExpireTime = st.m_queueEntryExpireTime := by
  obtain ⟨hf, hn⟩ := RouteInput_by_path st ipv4 now p header idev
  cases hc : RouteInputReachesForward st ipv4 header idev
  · simp only [Bool.false_eq_true, if_false]
    rcases hn hc with h1 | h1
    · rw [h1] at h
      cases h
      exact ⟨rfl, rfl, rfl, rfl, rfl⟩
    · rw [h1] at h
      exact RouteInputLocalDeliver_frame st p header _ r h
  · simp only [if_true]
    rw [hf hc] at h
    exact RouteInputForward_frame st now p header r h

theorem RouteInputReachesForward_congr (st st1 : RoutingProtocol) (ipv4 : Ipv4)
    (header : Ipv4Header) (idev : Nat)
    (hs : st1.m_socketAddresses = st.m_socketAddresses)
    (hm : st1.m_mainAddress = st.m_mainAddress) :
    RouteInputReachesForward st1 ipv4 header idev
      = RouteInputReachesForward st ipv4 header idev := by
  unfold RouteInputReachesForward
  rw [hs, RouteInputIsLocal_congr st1 st ipv4 header header _ hm rfl]

theorem IsMyOwnAddress_congr (st st1 : RoutingProtocol) (a : Nat)
    (hs : st1.m_socketAddresses = st.m_socketAddresses) :
    IsMyOwnAddress st1 a = IsMyOwnAddress st a := by
  unfold IsMyOwnAddress
  rw [hs]

theorem ForwardCalls_congr (st st1 : RoutingProtocol) (ipv4 : Ipv4)
    (calls : List (Int × Packet × Ipv4Header × Nat))
    (hs : st1.m_socketAddresses = st.m_socketAddresses)
    (hm : st1.m_mainAddress = st.m_mainAddress) :
    ForwardCalls st1 ipv4 calls = ForwardCalls st ipv4 calls := by
  unfold ForwardCalls
  have hf : (fun c : Int × Packet × Ipv4Header × Nat =>
        RouteInputReachesForward st1 ipv4 c.2.2.1 c.2.2.2)
      = (fun c => RouteInputReachesForward st ipv4 c.2.2.1 c.2.2.2) := by
    funext c
    exact RouteInputReachesForward_congr st st1 ipv4 _ _ hs hm
  rw [hf]

/-- After a run of `RouteInput` calls the counter has advanced, modulo 2^16, by the number
of calls that went on to the forward path. -/
theorem RouteInputSeq_counter (ipv4 : Ipv4) (calls : List (Int × Packet × Ipv4Header × Nat)) :
    ∀ st st1 : RoutingProtocol, st.m_dataPacketCounter < 2 ^ 16 →
      RouteInputSeq ipv4 st calls = some st1 →
      st1.m_dataPacketCounter = (st.m_dataPacketCounter + ForwardCalls st ipv4 calls) % 2 ^ 16
        ∧ st1.m_socketAddresses = st.m_socketAddresses
        ∧ st1.m_mainAddress = st.m_mainAddress
        ∧ st1.m_hopCount = st.m_hopCount
        ∧ st1.m_queueEntryExpireTime = st.m_queueEntryExpireTime := by
  induction calls with
  | nil =>
    intro st st1 hc h
    simp only [RouteInputSeq, Option.some.injEq] at h
    subst h
    refine ⟨?_, rfl, rfl, rfl, rfl⟩
    simp only [ForwardCalls, List.filter_nil, List.length_nil, Nat.add_zero]
    exact (Nat.mod_eq_of_lt hc).symm
  | cons c rest ih =>
    intro st st1 hc h
    obtain ⟨now, p, header, idev⟩ := c
    simp only [RouteInputSeq] at h
    cases hr : RouteInput st ipv4 now p header idev with
    | none => rw [hr] at h; cases h
    | some r =>
      rw [hr] at h
      obtain ⟨b, st2, acts⟩ := r
      simp only at h
      obtain ⟨f1, f2, f3, f4, f5⟩ := RouteInput_frame st ipv4 now p header idev _ hr
      simp only at f1 f2 f3 f4 f5
      have hc2 : st2.m_dataPacketCounter < 2 ^ 16 := by
        rw [f1]
        split
        · exact Nat.mod_lt _ (by norm_num)
        · exact hc
      obtain ⟨g1, g2, g3, g4, g5⟩ := ih st2 st1 hc2 h
      refine ⟨?_, g2.trans f2, g3.trans f3, g4.trans f4, g5.trans f5⟩
      rw [g1, ForwardCalls_congr st st2 ipv4 rest f2 f3, f1]
      unfold ForwardCalls
      simp only [List.filter_cons]
      cases hfw : RouteInputReachesForward st ipv4 header idev
      · simp only [Bool.false_eq_true, if_false]
      · simp only [if_true, List.length_cons]
        omega

/-- `RouteInput` returns for every packet of at least 16 bytes, whatever path it takes. -/
theorem RouteInput_returns (st : RoutingProtocol) (ipv4 : Ipv4) (now : Int) (p : Packet)
    (header : Ipv4Header) (idev : Nat) (hlen : 16 ≤ p.bytes.length) :
    ∃ r, RouteInput st ipv4 now p header idev = some r := by
  obtain ⟨hd, d, hdes⟩ := EpidemicHeader_Deserialize_of_length p.bytes hlen
  obtain ⟨hf, hn⟩ := RouteInput_by_path st ipv4 now p header idev
  cases hc : RouteInputReachesForward st ipv4 header idev
  · rcases hn hc with h1 | h1
    · exact ⟨_, h1⟩
    · rw [h1]
      unfold RouteInputLocalDeliver
      simp only [Packet.PeekEpidemicHeader, Packet.RemoveEpidemicHeader, hdes]
      split
      · split <;> exact ⟨_, rfl⟩
      · exact ⟨_, rfl⟩
  · rw [hf hc]
    unfold RouteInputForward
    simp only [Packet.RemoveEpidemicHeader, hdes]
    split
    · exact ⟨_, rfl⟩
    · split <;> exact ⟨_, rfl⟩

/-- C28: for every call of `RouteInput` that returns, the new value of `dataPacketCounter`
is the old one plus one modulo 2^16 when the call reaches the forward path (not rejected,
not delivered locally) and the old one otherwise. The call does return for every packet of
at least 16 bytes and, on the forward path, for every packet sourced by the node. In
particular a packet in transit that the forward path drops for its hop count or its expiry
leaves the buffer as it was and still advances the counter; on the reject path the whole
state is unchanged. -/
theorem C28_dataPacketCounter (st : RoutingProtocol) (ipv4 : Ipv4) (now : Int) (p : Packet)
    (header : Ipv4Header) (idev : Nat) :
    (∀ r, RouteInput st ipv4 now p header idev = some r →
        r.2.1.m_dataPacketCounter =
          if RouteInputReachesForward st ipv4 header idev = true then
            (st.m_dataPacketCounter + 1) % 2 ^ 16
          else st.m_dataPacketCounter)
      ∧ (16 ≤ p.bytes.length → ∃ r, RouteInput st ipv4 now p header idev = some r)
      ∧ (RouteInputReachesForward st ipv4 header idev = true →
          IsMyOwnAddress st header.m_source = true →
          ∃ q, RouteInput st ipv4 now p header idev =
            some (true,
              { st with m_dataPacketCounter := (st.m_dataPacketCounter + 1) % 2 ^ 16,
                        m_queue := q }, []))
      ∧ (RouteInputReachesForward st ipv4 header idev = true →
          IsMyOwnAddress st header.m_source = false →
          ∀ (h : EpidemicHeader) (payload : List Nat) (tag : Option TagType),
            p = ⟨h.Serialize ++ payload, tag⟩ → h.WF →
            (h.m_hopCount ≤ 1 ∨ TimeAdd h.m_timeStamp st.m_queueEntryExpireTime < now) →
            RouteInput st ipv4 now p header idev =
              some (true,
                { st with m_dataPacketCounter := (st.m_dataPacketCounter + 1) % 2 ^ 16 }, []))
      ∧ (st.m_socketAddresses.isEmpty = true ∨ header.m_ttl < 1 ∨ header.m_protocol = 1 →
          RouteInputReachesForward st ipv4 header idev = false
            ∧ RouteInput st ipv4 now p header idev = some (false, st, [])) := by
  obtain ⟨hf, _⟩ := RouteInput_by_path st ipv4 now p header idev
  refine ⟨fun r hr => (RouteInput_frame st ipv4 now p header idev r hr).1,
    RouteInput_returns st ipv4 now p header idev, ?_, ?_, ?_⟩
  · intro hfw hown
    rw [hf hfw, RouteInputForward_own st now p header hown]
    exact ⟨_, rfl⟩
  · intro hfw htransit h payload tag hp hwf hdrop
    rw [hf hfw, hp, RouteInputForward_transit st now payload tag header h htransit hwf,
      if_pos hdrop]
  · intro hrej
    unfold RouteInputReachesForward RouteInput
    rcases hrej with h1 | h2 | h3
    · simp [h1]
    · by_cases h1 : st.m_socketAddresses.isEmpty = true
      · simp [h1]
      · simp [h1, h2]
    · by_cases h1 : st.m_socketAddresses.isEmpty = true
      · simp [h1]
      · by_cases h2 : header.m_ttl < 1
        · simp [h1, h2]
        · simp [h1, h2, h3]

theorem ForwardCalls_replicate (st : RoutingProtocol) (ipv4 : Ipv4)
    (c : Int × Packet × Ipv4Header × Nat)
    (hfw : RouteInputReachesForward st ipv4 c.2.2.1 c.2.2.2 = true) (n : Nat) :
    ForwardCalls st ipv4 (List.replicate n c) = n := by
  unfold ForwardCalls
  induction n with
  | zero => rfl
  | succ k ih =>
    rw [List.replicate_succ, List.filter_cons]
    simp only [hfw, if_true, List.length_cons, ih]

/-- A run of calls that all go on to the forward path with a packet sourced by the node
returns. -/
theorem RouteInputSeq_own_returns (ipv4 : Ipv4)
    (calls : List (Int × Packet × Ipv4Header × Nat)) :
    ∀ st : RoutingProtocol,
      (∀ c ∈ calls, RouteInputReachesForward st ipv4 c.2.2.1 c.2.2.2 = true
          ∧ IsMyOwnAddress st c.2.2.1.m_source = true) →
      ∃ st1, RouteInputSeq ipv4 st calls = some st1 := by
  induction calls with
  | nil => intro st _; exact ⟨st, rfl⟩
  | cons c rest ih =>
    intro st hall
    obtain ⟨now, p, header, idev⟩ := c
    obtain ⟨hfw, hown⟩ := hall _ (List.mem_cons_self _ _)
    have hr := (RouteInput_by_path st ipv4 now p header idev).1 hfw
    rw [RouteInputForward_own st now p header hown] at hr
    simp only [RouteInputSeq, hr]
    apply ih
    intro c hc
    obtain ⟨h1, h2⟩ := hall c (List.mem_cons_of_mem _ hc)
    exact ⟨(RouteInputReachesForward_congr st _ ipv4 _ _ rfl rfl).trans h1,
      (IsMyOwnAddress_congr st _ _ rfl).trans h2⟩

/-- The forward path of `RouteInput` for a packet sourced by the node, with the id, the
counter, the hop count and the expire time named. -/
theorem RouteInput_own_stamp (st : RoutingProtocol) (ipv4 : Ipv4) (now : Int) (p : Packet)
    (header : Ipv4Header) (idev : Nat)
    (hfwd : RouteInputReachesForward st ipv4 header idev = true)
    (hown : IsMyOwnAddress st header.m_source = true)
    (id c hop : Nat) (x : Int)
    (hid : id = ((header.m_source % 2 ^ 16) <<< 16) ||| ((st.m_dataPacketCounter + 1) % 2 ^ 16))
    (hc : c = (st.m_dataPacketCounter + 1) % 2 ^ 16)
    (hhop : hop = st.m_hopCount)
    (hx : x = TimeAdd now st.m_queueEntryExpireTime) :
    RouteInput st ipv4 now p header idev =
      some (true,
        { st with
            m_dataPacketCounter := c,
            m_queue := st.m_queue.Enqueue
              { m_packet := some ⟨EpidemicHeader.Serialize ⟨id, hop, now⟩ ++ p.bytes, p.tag⟩,
                m_header := header, m_expire := x, m_packetID := id } }, []) := by
  subst hid hc hhop hx
  rw [(RouteInput_by_path st ipv4 now p header idev).1 hfwd,
    RouteInputForward_own st now p header hown]

theorem RouteInputSeq_replicate_own (st : RoutingProtocol) (ipv4 : Ipv4)
    (c : Int × Packet × Ipv4Header × Nat)
    (hfw : RouteInputReachesForward st ipv4 c.2.2.1 c.2.2.2 = true)
    (hown : IsMyOwnAddress st c.2.2.1.m_source = true)
    (hc : st.m_dataPacketCounter < 2 ^ 16) (n : Nat) :
    ∃ st1, RouteInputSeq ipv4 st (List.replicate n c) = some st1
      ∧ st1.m_dataPacketCounter = (st.m_dataPacketCounter + n) % 2 ^ 16
      ∧ st1.m_socketAddresses = st.m_socketAddresses
      ∧ st1.m_mainAddress = st.m_mainAddress
      ∧ st1.m_hopCount = st.m_hopCount
      ∧ st1.m_queueEntryExpireTime = st.m_queueEntryExpireTime := by
  obtain ⟨st1, h1⟩ := RouteInputSeq_own_returns ipv4 (List.replicate n c) st (by
    intro c1 hc1
    rw [List.eq_of_mem_replicate hc1]
    exact ⟨hfw, hown⟩)
  have h2 := RouteInputSeq_counter ipv4 _ st st1 hc h1
  rw [ForwardCalls_replicate st ipv4 c hfw n] at h2
  exact ⟨st1, h1, h2⟩

/-- C24 (amended): for every run of `RouteInput` calls on an agent whose
`dataPacketCounter` starts at 0, a packet sourced by the node that then reaches the forward
path is stamped with the PacketId `(low16 (h.source) << 16) | c`, where c is the number of
forward-path calls made so far, this one included, modulo 2^16. The id is 0 exactly when
the low 16 bits of `h.source` are 0 and c is 0; so it is not 0 while fewer than 65535
forward-path calls came before, and never for a source whose low 16 bits are not 0. -/
theorem C24_PacketId_nonzero (st0 st1 : RoutingProtocol) (ipv4 : Ipv4)
    (calls : List (Int × Packet × Ipv4Header × Nat)) (now : Int) (p : Packet)
    (header : Ipv4Header) (idev : Nat)
    (h0 : st0.m_dataPacketCounter = 0)
    (hrun : RouteInputSeq ipv4 st0 calls = some st1)
    (hfwd : RouteInputReachesForward st1 ipv4 header idev = true)
    (hown : IsMyOwnAddress st1 header.m_source = true) :
    ∃ id c,
      c = (ForwardCalls st0 ipv4 calls + 1) % 2 ^ 16
      ∧ id = (header.m_source % 2 ^ 16) * 2 ^ 16 + c
      ∧ RouteInput st1 ipv4 now p header idev =
          some (true,
            { st1 with
                m_dataPacketCounter := c,
                m_queue := st1.m_queue.Enqueue
                  { m_packet := some
                      ⟨EpidemicHeader.Serialize ⟨id, st1.m_hopCount, now⟩ ++ p.bytes, p.tag⟩,
                    m_header := header,
                    m_expire := TimeAdd now st1.m_queueEntryExpireTime,
                    m_packetID := id } }, [])
      ∧ (id = 0 ↔ header.m_source % 2 ^ 16 = 0 ∧ c = 0)
      ∧ (ForwardCalls st0 ipv4 calls < 65535 → id ≠ 0)
      ∧ (header.m_source % 2 ^ 16 ≠ 0 → id ≠ 0) := by
  obtain ⟨g1, _⟩ := RouteInputSeq_counter ipv4 calls st0 st1 (by rw [h0]; norm_num) hrun
  rw [h0, Nat.zero_add] at g1
  have hc : (st1.m_dataPacketCounter + 1) % 2 ^ 16 = (ForwardCalls st0 ipv4 calls + 1) % 2 ^ 16 := by
    rw [g1]; omega
  have hlt : (ForwardCalls st0 ipv4 calls + 1) % 2 ^ 16 < 2 ^ 16 := Nat.mod_lt _ (by norm_num)
  refine ⟨_, _, rfl, rfl, ?_, ?_, ?_, ?_⟩
  · apply RouteInput_own_stamp st1 ipv4 now p header idev hfwd hown
    · rw [hc]
      exact (global_packet_ID_eq header.m_source _ hlt).2.symm
    · exact hc.symm
    · rfl
    · rfl
  · omega
  · intro hk
    omega
  · intro hs
    omega

/-- C24 as stated fails: the node 10.1.0.0 (low 16 bits 0), its counter at 0, handles
65535 packets it sourced itself on the forward path of `RouteInput`; the counter is then
65535, and the next packet it sources is stamped with the counter wrapped to 0 and the
PacketId 0: the entry enqueued and the data header put in front of the packet carry the
id 0. -/
theorem C24_PacketId_nonzero_counterexample :
    exampleNodeLow16Zero.m_dataPacketCounter = 0
      ∧ ∃ st1,
          RouteInputSeq exampleIpv4 exampleNodeLow16Zero
              (List.replicate 65535
                (5, ⟨[42], none⟩, ⟨167837696, 167772169, 64, 17, 1⟩, 0)) = some st1
          ∧ IsMyOwnAddress st1 167837696 = true
          ∧ RouteInput st1 exampleIpv4 5 ⟨[42], none⟩ ⟨167837696, 167772169, 64, 17, 1⟩ 0 =
              some (true,
                { st1 with
                    m_dataPacketCounter := 0,
                    m_queue := st1.m_queue.Enqueue
                      { m_packet := some ⟨EpidemicHeader.Serialize ⟨0, 64, 5⟩ ++ [42], none⟩,
                        m_header := ⟨167837696, 167772169, 64, 17, 1⟩,
                        m_expire := 105, m_packetID := 0 } }, []) := by
  obtain ⟨st1, hrun, hcnt, hs, hm, hh, hq⟩ :=
    RouteInputSeq_replicate_own exampleNodeLow16Zero exampleIpv4
      (5, ⟨[42], none⟩, ⟨167837696, 167772169, 64, 17, 1⟩, 0)
      (by decide) (by decide) (by decide) 65535
  have hown : IsMyOwnAddress st1 167837696 = true :=
    (IsMyOwnAddress_congr exampleNodeLow16Zero st1 _ hs).trans (by decide)
  have hfw : RouteInputReachesForward st1 exampleIpv4
      ⟨167837696, 167772169, 64, 17, 1⟩ 0 = true :=
    (RouteInputReachesForward_congr exampleNodeLow16Zero st1 exampleIpv4 _ _ hs hm).trans
      (by decide)
  refine ⟨rfl, st1, hrun, hown, ?_⟩
  exact RouteInput_own_stamp st1 exampleIpv4 5 ⟨[42], none⟩
    ⟨167837696, 167772169, 64, 17, 1⟩ 0 hfw hown 0 0 64 105
    (by rw [hcnt]; decide) (by rw [hcnt]; decide) (by rw [hh]; rfl) (by rw [hq]; decide)

set_option maxRecDepth 100000 in
/-- C24 (amended) at the node 1 after one packet it sourced (stamped 65537): the second
packet it sources is stamped with the id 65538, which is not 0. -/
theorem C24_PacketId_nonzero_witness :
    ∃ id c, id = 65538 ∧ id ≠ 0
      ∧ RouteInput
          { exampleNode 1 64
              [{ m_packet := some ⟨EpidemicHeader.Serialize ⟨65537, 64, 5⟩ ++ [42], none⟩,
                 m_header := ⟨1, 9, 64, 17, 1⟩, m_expire := 105, m_packetID := 65537 }] with
            m_dataPacketCounter := 1 }
          exampleIpv4 6 ⟨[43], none⟩ ⟨1, 9, 64, 17, 1⟩ 0 =
        some (true,
          { exampleNode 1 64
              [{ m_packet := some ⟨EpidemicHeader.Serialize ⟨65537, 64, 5⟩ ++ [42], none⟩,
                 m_header := ⟨1, 9, 64, 17, 1⟩, m_expire := 105, m_packetID := 65537 },
               { m_packet := some ⟨EpidemicHeader.Serialize ⟨id, 64, 6⟩ ++ [43], none⟩,
                 m_header := ⟨1, 9, 64, 17, 1⟩, m_expire := 106, m_packetID := id }] with
            m_dataPacketCounter := c }, []) := by
  obtain ⟨id, c, hc, hid, hr, _, hlt, _⟩ :=
    C24_PacketId_nonzero (exampleNode 1 64 [])
      { exampleNode 1 64
          [{ m_packet := some ⟨EpidemicHeader.Serialize ⟨65537, 64, 5⟩ ++ [42], none⟩,
             m_header := ⟨1, 9, 64, 17, 1⟩, m_expire := 105, m_packetID := 65537 }] with
        m_dataPacketCounter := 1 }
      exampleIpv4 [(5, ⟨[42], none⟩, ⟨1, 9, 64, 17, 1⟩, 0)] 6 ⟨[43], none⟩
      ⟨1, 9, 64, 17, 1⟩ 0 rfl (by decide) (by decide) (by decide)
  have hc1 : c = 2 := by rw [hc]; decide
  have hid1 : id = 65538 := by rw [hid, hc1]; decide
  refine ⟨id, c, hid1, hlt (by decide), ?_⟩
  rw [hr]
  subst hid1 hc1
  decide

/-! ## C25: the expire time of the entries `RouteInput` enqueues -/

/-- C25 (amended): for every configured `queueEntryExpireTime ≥ 0` and every entry that
`RouteInput` enqueues from a packet whose data header h carries a timestamp with
`h.timestamp + queueEntryExpireTime` inside the range of the 64-bit `ns3::Time` (below
2^63), the expire time of the entry is `h.timestamp + queueEntryExpireTime`, which is at
least `h.timestamp`. This holds for a packet in transit that the forward path stores, for a
data packet stored on the local-delivery path, and for a packet sourced by the node, whose
data header is stamped with the timestamp `now`. -/
theorem C25_expireTime (st : RoutingProtocol) (ipv4 : Ipv4) (now : Int)
    (payload : List Nat) (tag : Option TagType) (header : Ipv4Header) (idev : Nat)
    (h : EpidemicHeader)
    (hq : 0 ≤ st.m_queueEntryExpireTime) (hwf : h.WF)
    (hno : h.m_timeStamp + st.m_queueEntryExpireTime < 2 ^ 63) :
    (RouteInputReachesForward st ipv4 header idev = true →
        IsMyOwnAddress st header.m_source = false →
        ¬ (h.m_hopCount ≤ 1 ∨ TimeAdd h.m_timeStamp st.m_queueEntryExpireTime < now) →
        ∃ e, RouteInput st ipv4 now ⟨h.Serialize ++ payload, tag⟩ header idev =
              some (true,
                { st with m_dataPacketCounter := (st.m_dataPacketCounter + 1) % 2 ^ 16,
                          m_queue := st.m_queue.Enqueue e }, [])
          ∧ e.m_packet = some ⟨({ h with m_hopCount := h.m_hopCount - 1 } :
                EpidemicHeader).Serialize ++ payload, tag⟩
          ∧ e.m_expire = h.m_timeStamp + st.m_queueEntryExpireTime
          ∧ h.m_timeStamp ≤ e.m_expire)
      ∧ (st.m_socketAddresses.isEmpty = false → ¬ header.m_ttl < 1 →
          header.m_protocol ≠ 1 →
          st.m_socketAddresses.any
            (RouteInputIsLocal st ipv4 header (ipv4.GetInterfaceForDevice idev)) = true →
          tag ≠ some TagType.CONTROL → (st.m_queue.Find h.m_packetID).GetPacketID = 0 →
          ∃ e acts, RouteInput st ipv4 now ⟨h.Serialize ++ payload, tag⟩ header idev =
              some (true, { st with m_queue := st.m_queue.Enqueue e }, acts)
            ∧ e.m_packet = some ⟨h.Serialize ++ payload, tag⟩
            ∧ e.m_expire = h.m_timeStamp + st.m_queueEntryExpireTime
            ∧ h.m_timeStamp ≤ e.m_expire)
      ∧ (RouteInputReachesForward st ipv4 header idev = true →
          IsMyOwnAddress st header.m_source = true →
          h.m_timeStamp = now →
          ∀ p : Packet, ∃ e id, RouteInput st ipv4 now p header idev =
              some (true,
                { st with m_dataPacketCounter := (st.m_dataPacketCounter + 1) % 2 ^ 16,
                          m_queue := st.m_queue.Enqueue e }, [])
            ∧ e.m_packet = some
                ⟨EpidemicHeader.Serialize ⟨id, st.m_hopCount, now⟩ ++ p.bytes, p.tag⟩
            ∧ e.m_expire = now + st.m_queueEntryExpireTime
            ∧ now ≤ e.m_expire) := by
  have hlo : -(2 : Int) ^ 63 ≤ h.m_timeStamp + st.m_queueEntryExpireTime := by
    have := hwf.2.2.1
    omega
  have hadd : TimeAdd h.m_timeStamp st.m_queueEntryExpireTime
      = h.m_timeStamp + st.m_queueEntryExpireTime := TimeAdd_eq _ _ hlo hno
  refine ⟨?_, ?_, ?_⟩
  · intro hfw htransit hkeep
    rw [(RouteInput_by_path st ipv4 now _ header idev).1 hfw,
      RouteInputForward_transit st now payload tag header h htransit hwf, if_neg hkeep]
    exact ⟨_, rfl, rfl, hadd, by show h.m_timeStamp ≤ TimeAdd _ _; rw [hadd]; omega⟩
  · intro hsock httl hproto hloc htag hfind
    rw [RouteInput_local st ipv4 now _ header idev hsock httl hproto hloc,
      RouteInputLocalDeliver_data st header _ h hwf payload tag htag, if_pos hfind]
    refine ⟨_, _, rfl, rfl, ?_, ?_⟩
    · show TimeAdd _ _ = _
      rw [TimeAdd_comm, hadd]
    · show h.m_timeStamp ≤ TimeAdd _ _
      rw [TimeAdd_comm, hadd]; omega
  · intro hfw hown hnow p
    rw [(RouteInput_by_path st ipv4 now p header idev).1 hfw,
      RouteInputForward_own st now p header hown]
    refine ⟨_, _, rfl, rfl, ?_, ?_⟩
    · show TimeAdd _ _ = _
      rw [← hnow, hadd]
    · show now ≤ TimeAdd _ _
      rw [← hnow, hadd]; omega

set_option maxRecDepth 100000 in
/-- C25 as stated fails: the node 9, with queueEntryExpireTime 100, receives for local
delivery a data packet whose data header carries the timestamp 2^63 - 1
(9223372036854775807). The sum wraps in the 64-bit `ns3::Time`: the entry enqueued has the
expire time -9223372036854775709, which is less than the timestamp of its data header. -/
theorem C25_expireTime_counterexample :
    (0 : Int) ≤ (exampleNode 9 64 []).m_queueEntryExpireTime
      ∧ RouteInput (exampleNode 9 64 []) exampleIpv4 5
          ⟨EpidemicHeader.Serialize ⟨7, 5, 9223372036854775807⟩ ++ [42], none⟩
          ⟨1, 9, 64, 17, 17⟩ 0
        = some (true,
            exampleNode 9 64
              [{ m_packet := some
                   ⟨EpidemicHeader.Serialize ⟨7, 5, 9223372036854775807⟩ ++ [42], none⟩,
                 m_header := ⟨1, 9, 64, 17, 17⟩,
                 m_expire := -9223372036854775709, m_packetID := 7 }],
            [Action.lcb ⟨[42], none⟩ ⟨1, 9, 64, 17, 17⟩ 1])
      ∧ Packet.PeekEpidemicHeader
          ⟨EpidemicHeader.Serialize ⟨7, 5, 9223372036854775807⟩ ++ [42], none⟩
        = some ⟨7, 5, 9223372036854775807⟩
      ∧ (-9223372036854775709 : Int) < 9223372036854775807 := by
  decide

/-- C25 (amended) at the node 9, queueEntryExpireTime 100, for a data packet with
timestamp 3 delivered locally: the entry expires at 103. -/
theorem C25_expireTime_witness :
    ∃ e acts, RouteInput (exampleNode 9 64 []) exampleIpv4 5
          ⟨EpidemicHeader.Serialize ⟨7, 5, 3⟩ ++ [42], none⟩ ⟨1, 9, 64, 17, 17⟩ 0
        = some (true,
            { exampleNode 9 64 [] with m_queue := (exampleNode 9 64 []).m_queue.Enqueue e },
            acts)
      ∧ e.m_packet = some ⟨EpidemicHeader.Serialize ⟨7, 5, 3⟩ ++ [42], none⟩
      ∧ e.m_expire = 3 + 100
      ∧ (3 : Int) ≤ e.m_expire :=
  (C25_expireTime (exampleNode 9 64 []) exampleIpv4 5 [42] none ⟨1, 9, 64, 17, 17⟩ 0
    ⟨7, 5, 3⟩ (by decide) (by decide) (by decide)).2.1
    (by decide) (by decide) (by decide) (by decide) (by decide) (by decide)

/-! ## C26: `FindDisjointPackets` -/

/-- `Enqueue` keeps the PacketIds of the buffer distinct. -/
theorem PacketQueue.Enqueue_nodup (q : PacketQueue) (e : QueueEntry) (h : q.ids.Nodup) :
    (q.Enqueue e).ids.Nodup := by
  unfold PacketQueue.Enqueue
  cases hhas : q.Has e.m_packetID
  · have hnot : e.m_packetID ∉ q.ids := by
      intro hmem
      rw [(PacketQueue.Has_iff q _).mpr hmem] at hhas
      exact Bool.noConfusion hhas
    have happ : ∀ l : List Nat, l.Nodup → e.m_packetID ∉ l → (l ++ [e.m_packetID]).Nodup := by
      intro l hl hn
      rw [List.nodup_append]
      refine ⟨hl, List.nodup_singleton _, ?_⟩
      intro x hx hx2
      rw [List.mem_singleton] at hx2
      exact hn (hx2 ▸ hx)
    simp only [Bool.false_eq_true, if_false]
    split
    · simp only [PacketQueue.ids, List.map_append, List.map_cons, List.map_nil, List.map_tail]
      exact happ _ (h.sublist (List.tail_sublist _))
        (fun hmem => hnot (List.mem_of_mem_tail hmem))
    · simp only [PacketQueue.ids, List.map_append, List.map_cons, List.map_nil]
      exact happ _ h hnot
  · simp only [if_true]
    exact h

/-- `DropExpiredPackets` keeps the PacketIds of the buffer distinct. -/
theorem PacketQueue.DropExpiredPackets_nodup (q : PacketQueue) (now : Int)
    (h : q.ids.Nodup) : (q.DropExpiredPackets now).ids.Nodup := by
  unfold PacketQueue.DropExpiredPackets PacketQueue.ids
  exact h.sublist ((List.filter_sublist _).map _)

/-- C26: for every buffer and every summary vector S, the vector `FindDisjointPackets (S)`
returns holds exactly the PacketIds of the buffer for which `S.Contains` is false; it is a
sublist of the ids of the buffer in insertion order, with each such id as often as the
buffer holds it, hence once, since the ids of a buffer are distinct. In particular
`FindDisjointPackets` of the vector `GetSummaryVector ()` has just returned is empty, and
`SendDisjointPackets` then schedules nothing. -/
theorem C26_FindDisjointPackets (st : RoutingProtocol) (S : SummaryVectorHeader) (now : Int)
    (dest : Nat) :
    (∀ id, id ∈ (st.m_queue.FindDisjointPackets S).m_packets
        ↔ id ∈ st.m_queue.ids ∧ S.Contains id = false)
      ∧ List.Sublist (st.m_queue.FindDisjointPackets S).m_packets st.m_queue.ids
      ∧ (∀ id, S.Contains id = false →
          (st.m_queue.FindDisjointPackets S).m_packets.count id = st.m_queue.ids.count id)
      ∧ (st.m_queue.ids.Nodup → (st.m_queue.FindDisjointPackets S).m_packets.Nodup)
      ∧ ((st.m_queue.GetSummaryVector now).1.FindDisjointPackets
            (st.m_queue.GetSummaryVector now).2).m_packets = []
      ∧ SendDisjointPackets { st with m_queue := (st.m_queue.GetSummaryVector now).1 }
          (st.m_queue.GetSummaryVector now).2 dest = [] := by
  have hempty : ((st.m_queue.GetSummaryVector now).1.FindDisjointPackets
      (st.m_queue.GetSummaryVector now).2).m_packets = [] := by
    simp only [PacketQueue.FindDisjointPackets, PacketQueue.GetSummaryVector,
      SummaryVectorHeader.Contains, List.filter_eq_nil_iff]
    intro a ha
    simp [ha]
  refine ⟨?_, ?_, ?_, ?_, hempty, ?_⟩
  · intro id
    simp only [PacketQueue.FindDisjointPackets, PacketQueue.ids, List.mem_filter,
      Bool.not_eq_true']
  · exact List.filter_sublist _
  · intro id hid
    simp only [PacketQueue.FindDisjointPackets, PacketQueue.ids]
    exact List.count_filter (by simp [hid])
  · intro hnd
    exact hnd.sublist (List.filter_sublist _)
  · unfold SendDisjointPackets
    simp only [hempty, SendDisjointPacketsLoop]

/-- The scenario of the spec: the buffer holds the ids 1, 2, 3, 4 and the peer's vector is
{2, 4}; `FindDisjointPackets` returns [1, 3]. -/
theorem FindDisjointPackets_scenario :
    (PacketQueue.FindDisjointPackets
        ⟨[exampleEntry 7 9 1 5, exampleEntry 7 9 2 5, exampleEntry 7 9 3 5,
          exampleEntry 7 9 4 5], 64⟩ ⟨[2, 4]⟩).m_packets = [1, 3] := by
  decide

/-! ## C27: a beacon from a sender with a lower address -/

/-- C27: for every agent state and every BEACON (TypeHeader byte 0) received from a sender
whose address is less than or equal to the main address of the agent, `RecvEpidemic` only
drops the expired entries of the buffer: `hostContactTime` is unchanged, no contact time
being inserted or refreshed, and no call is made. -/
theorem C27_beacon_from_lower_address (st : RoutingProtocol) (now : Int) (rest : List Nat)
    (tag : Option TagType) (sender : Nat) (hle : sender ≤ st.m_mainAddress) :
    RecvEpidemic st now ⟨MessageType.BEACON.toU8 :: rest, tag⟩ sender =
        some ({ st with m_queue := st.m_queue.DropExpiredPackets now }, [])
      ∧ (∀ st1 acts,
          RecvEpidemic st now ⟨MessageType.BEACON.toU8 :: rest, tag⟩ sender = some (st1, acts) →
          st1.m_hostContactTime = st.m_hostContactTime ∧ acts = []) := by
  have h1 : RecvEpidemic st now ⟨MessageType.BEACON.toU8 :: rest, tag⟩ sender =
      some ({ st with m_queue := st.m_queue.DropExpiredPackets now }, []) := by
    rw [RecvEpidemic_beacon st now MessageType.BEACON.toU8 rest tag sender (by decide)
      (by decide), if_neg (by omega)]
  refine ⟨h1, ?_⟩
  intro st1 acts h2
  rw [h1] at h2
  simp only [Option.some.injEq, Prod.mk.injEq] at h2
  obtain ⟨h3, h4⟩ := h2
  subst h3
  exact ⟨rfl, h4.symm⟩

/-- C27 at the node 5 with an empty contact map, for a beacon from the node 2: the state
is unchanged and no call is made. -/
theorem C27_beacon_from_lower_address_witness :
    RecvEpidemic (exampleNode 5 64 []) 7 ⟨[0], some TagType.CONTROL⟩ 2 =
      some (exampleNode 5 64 [], []) :=
  (C27_beacon_from_lower_address (exampleNode 5 64 []) 7 [] (some TagType.CONTROL) 2
    (by decide)).1

/-! ## C29: a data packet with PacketId 0 on the local-delivery path -/

theorem PacketQueue.Find_zero (q : PacketQueue) : (q.Find 0).GetPacketID = 0 := by
  unfold PacketQueue.Find QueueEntry.GetPacketID
  cases hf : q.m_queue.find? (fun e => e.m_packetID == 0) with
  | none => rfl
  | some e =>
    have h1 := List.find?_some hf
    simpa using h1

/-- The local-delivery path on a data packet whose data header has the PacketId 0: the
packet is enqueued and delivered, whatever the buffer holds. -/
theorem RouteInput_local_id_zero (st : RoutingProtocol) (ipv4 : Ipv4) (now : Int)
    (payload : List Nat) (tag : Option TagType) (header : Ipv4Header) (idev : Nat)
    (h : EpidemicHeader)
    (hsock : st.m_socketAddresses.isEmpty = false)
    (httl : ¬ header.m_ttl < 1)
    (hproto : header.m_protocol ≠ 1)
    (hloc : st.m_socketAddresses.any
        (RouteInputIsLocal st ipv4 header (ipv4.GetInterfaceForDevice idev)) = true)
    (htag : tag ≠ some TagType.CONTROL) (hwf : h.WF) (hid : h.m_packetID = 0) :
    RouteInput st ipv4 now ⟨h.Serialize ++ payload, tag⟩ header idev =
      some (true,
        { st with
            m_queue := st.m_queue.Enqueue
              { m_packet := some ⟨h.Serialize ++ payload, tag⟩, m_header := header,
                m_expire := TimeAdd st.m_queueEntryExpireTime h.m_timeStamp,
                m_packetID := 0 } },
        [Action.lcb ⟨payload, none⟩ header (ipv4.GetInterfaceForDevice idev)]) := by
  rw [RouteInput_local st ipv4 now _ header idev hsock httl hproto hloc,
    RouteInputLocalDeliver_data st header _ h hwf payload tag htag, hid,
    if_pos (PacketQueue.Find_zero st.m_queue)]

/-- C29: for every buffer state and every data packet (no CONTROL tag) on the
local-delivery path whose data header has the PacketId 0, `Find (0).GetPacketID ()` is 0
whether or not the buffer holds an entry with the id 0, so `RouteInput` does not take the
packet for a duplicate: it returns true and invokes the local-deliver callback once. This
holds in the state reached after any run of earlier `RouteInput` calls, arrivals of the same
packet included, so the callback is invoked on every arrival. -/
theorem C29_id_zero_never_duplicate (st : RoutingProtocol) (ipv4 : Ipv4) (now : Int)
    (payload : List Nat) (tag : Option TagType) (header : Ipv4Header) (idev : Nat)
    (h : EpidemicHeader)
    (hsock : st.m_socketAddresses.isEmpty = false)
    (httl : ¬ header.m_ttl < 1)
    (hproto : header.m_protocol ≠ 1)
    (hloc : st.m_socketAddresses.any
        (RouteInputIsLocal st ipv4 header (ipv4.GetInterfaceForDevice idev)) = true)
    (htag : tag ≠ some TagType.CONTROL) (hwf : h.WF) (hid : h.m_packetID = 0) :
    (st.m_queue.Find 0).GetPacketID = 0
      ∧ (∃ st1, RouteInput st ipv4 now ⟨h.Serialize ++ payload, tag⟩ header idev =
          some (true, st1,
            [Action.lcb ⟨payload, none⟩ header (ipv4.GetInterfaceForDevice idev)]))
      ∧ (∀ (calls : List (Int × Packet × Ipv4Header × Nat)) (st1 : RoutingProtocol)
            (now1 : Int),
          st.m_dataPacketCounter < 2 ^ 16 →
          RouteInputSeq ipv4 st calls = some st1 →
          (st1.m_queue.Find 0).GetPacketID = 0
            ∧ ∃ st2, RouteInput st1 ipv4 now1 ⟨h.Serialize ++ payload, tag⟩ header idev =
                some (true, st2,
                  [Action.lcb ⟨payload, none⟩ header (ipv4.GetInterfaceForDevice idev)])) := by
  refine ⟨PacketQueue.Find_zero _, ⟨_, RouteInput_local_id_zero st ipv4 now payload tag
    header idev h hsock httl hproto hloc htag hwf hid⟩, ?_⟩
  intro calls st1 now1 hc hrun
  obtain ⟨_, hs, hm, _, _⟩ := RouteInputSeq_counter ipv4 calls st st1 hc hrun
  refine ⟨PacketQueue.Find_zero _, ⟨_, RouteInput_local_id_zero st1 ipv4 now1 payload tag
    header idev h ?_ httl hproto ?_ htag hwf hid⟩⟩
  · rw [hs]; exact hsock
  · rw [hs, RouteInputIsLocal_congr st1 st ipv4 header header _ hm rfl]; exact hloc

set_option maxRecDepth 100000 in
/-- C29 at the node 9 for a data packet with PacketId 0 addressed to it: after two earlier
arrivals of the same packet the buffer holds the id 0, and the third arrival is delivered
again. -/
theorem C29_id_zero_never_duplicate_witness :
    RouteInputSeq exampleIpv4 (exampleNode 9 64 [])
        [(5, ⟨EpidemicHeader.Serialize ⟨0, 5, 3⟩ ++ [42], none⟩, ⟨1, 9, 64, 17, 17⟩, 0),
         (6, ⟨EpidemicHeader.Serialize ⟨0, 5, 3⟩ ++ [42], none⟩, ⟨1, 9, 64, 17, 17⟩, 0)]
      = some (exampleNode 9 64
          [{ m_packet := some ⟨EpidemicHeader.Serialize ⟨0, 5, 3⟩ ++ [42], none⟩,
             m_header := ⟨1, 9, 64, 17, 17⟩, m_expire := 103, m_packetID := 0 }])
      ∧ ∃ st2, RouteInput
          (exampleNode 9 64
            [{ m_packet := some ⟨EpidemicHeader.Serialize ⟨0, 5, 3⟩ ++ [42], none⟩,
               m_header := ⟨1, 9, 64, 17, 17⟩, m_expire := 103, m_packetID := 0 }])
          exampleIpv4 7 ⟨EpidemicHeader.Serialize ⟨0, 5, 3⟩ ++ [42], none⟩
          ⟨1, 9, 64, 17, 17⟩ 0
        = some (true, st2, [Action.lcb ⟨[42], none⟩ ⟨1, 9, 64, 17, 17⟩ 1]) :=
  ⟨by decide,
   ((C29_id_zero_never_duplicate (exampleNode 9 64 []) exampleIpv4 5 [42] none
      ⟨1, 9, 64, 17, 17⟩ 0 ⟨0, 5, 3⟩ (by decide) (by decide) (by decide) (by decide)
      (by decide) (by decide) rfl).2.2
      [(5, ⟨EpidemicHeader.Serialize ⟨0, 5, 3⟩ ++ [42], none⟩, ⟨1, 9, 64, 17, 17⟩, 0),
       (6, ⟨EpidemicHeader.Serialize ⟨0, 5, 3⟩ ++ [42], none⟩, ⟨1, 9, 64, 17, 17⟩, 0)]
      (exampleNode 9 64
        [{ m_packet := some ⟨EpidemicHeader.Serialize ⟨0, 5, 3⟩ ++ [42], none⟩,
           m_header := ⟨1, 9, 64, 17, 17⟩, m_expire := 103, m_packetID := 0 }])
      7 (by decide) (by decide)).2⟩

/-! ## C30: `SummaryVectorHeader::Deserialize` on a header that already holds ids -/

end Epidemic
